import Mathlib

/-!
# Reference-counted copy-on-write handles (`shared.h`)

A shallow embedding of `intrusive_ptr`, `intrusive_ref_counter`, `shared_base::ptr`,
`shared_base::view_ptr` and `shared_base::group`.

* Objects live in a heap indexed by address.  `operator new` is taken to hand out an address
  that has never been used before (the next index of the heap); `delete` leaves a hole.
* An address is a natural number; a raw pointer is an `Option Nat`, `none` being the null
  pointer.
* The counter `std::atomic<size_t> ref_count` is a natural number.  Every reference is held by
  a handle object that occupies storage of its own in the same address space, so `++` never
  reaches `2^64`; `--` wraps at zero as it does on a `size_t`; `use_count()` narrows the
  counter to `unsigned int`, that is modulo `2^32`.
* The copy constructor of the element type `T` copies the value.
-/

namespace Shared

/-- A payload object (`BASE`, for instance `shared<T>`): the `intrusive_ref_counter` base and
the `element` member. -/
structure shared (T : Type) where
  ref_count : Nat
  element : T
deriving DecidableEq

/-- A `shared_base::group` object: the `intrusive_ref_counter` base and the member `ptr p`,
given by the raw pointer its `intrusive_ptr<BASE>` stores. -/
structure group where
  ref_count : Nat
  p : Option Nat
deriving DecidableEq

/-- The heap: payload objects and group objects by address, `none` for a deleted object. -/
structure Heap (T : Type) where
  objs : List (Option (shared T))
  groups : List (Option group)
deriving DecidableEq

variable {T : Type}

/-- Models `unsigned int use_count() const { return ref_count; }`: the `size_t` counter converted to
a 32-bit `unsigned int`. -/
def shared.use_count (x : shared T) : Nat := x.ref_count % 2 ^ 32

/-- Models `unsigned int use_count()` of a group. -/
def group.use_count (x : group) : Nat := x.ref_count % 2 ^ 32

/-- Pre-decrement `--ref_count` of a `size_t`: zero wraps to `2^64 - 1`. -/
def dec (c : Nat) : Nat := if c = 0 then 2 ^ 64 - 1 else c - 1

/-- Models `intrusive_ptr_add_ref(p)` for a payload: `if (!p) return; ++(p->ref_count);`. -/
def intrusive_ptr_add_ref (h : Heap T) (p : Option Nat) : Heap T :=
  match p with
  | none => h
  | some a =>
    match h.objs[a]? with
    | some (some x) =>
      { h with objs := h.objs.set a (some { x with ref_count := x.ref_count + 1 }) }
    | _ => h

/-- Models `intrusive_ptr_release(p)` for a payload:
`if (!p) return; if (--(p->ref_count) == 0) delete p;`. -/
def intrusive_ptr_release (h : Heap T) (p : Option Nat) : Heap T :=
  match p with
  | none => h
  | some a =>
    match h.objs[a]? with
    | some (some x) =>
      if dec x.ref_count = 0 then { h with objs := h.objs.set a none }
      else { h with objs := h.objs.set a (some { x with ref_count := dec x.ref_count }) }
    | _ => h

/-- Models `intrusive_ptr_add_ref(p)` for a group. -/
def intrusive_ptr_add_ref_group (h : Heap T) (p : Option Nat) : Heap T :=
  match p with
  | none => h
  | some g =>
    match h.groups[g]? with
    | some (some x) =>
      { h with groups := h.groups.set g (some { x with ref_count := x.ref_count + 1 }) }
    | _ => h

/-- Models `intrusive_ptr_release(p)` for a group.  `delete p` runs `~group`, which destroys the
member `ptr p` and so releases the payload it holds. -/
def intrusive_ptr_release_group (h : Heap T) (p : Option Nat) : Heap T :=
  match p with
  | none => h
  | some g =>
    match h.groups[g]? with
    | some (some x) =>
      if dec x.ref_count = 0 then
        intrusive_ptr_release { h with groups := h.groups.set g none } x.p
      else { h with groups := h.groups.set g (some { x with ref_count := dec x.ref_count }) }
    | _ => h

/-- Models `element_type_helper::to_element`: null for null, else the address of the element(s) of
the payload, which lie at a fixed offset inside the payload block and are identified with
the block. -/
def to_element (p : Option Nat) : Option Nat :=
  match p with
  | none => none
  | some a => some a

/-- Models `new BASE(args...)`: a fresh payload object; its counter starts at zero. -/
def new_BASE (h : Heap T) (v : T) : Heap T × Nat :=
  ({ h with objs := h.objs ++ [some { ref_count := 0, element := v }] }, h.objs.length)

/-- Models `shared_base::allocate(args...)`: `BASE * p = new BASE(args...); return ptr(p);` where
`ptr(BASE *)` builds an `intrusive_ptr` that adds the first reference. -/
def allocate (h : Heap T) (v : T) : Heap T × Option Nat :=
  let r := new_BASE h v
  (intrusive_ptr_add_ref r.1 (some r.2), some r.2)

/-- Reading the element behind an element pointer (`*e`). -/
def deref (h : Heap T) (e : Option Nat) : Option T :=
  match e with
  | none => none
  | some a =>
    match h.objs[a]? with
    | some (some x) => some x.element
    | _ => none

/-- Assigning through an element pointer (`*e = v`); undefined (`none`) for a null pointer or
a pointer to a deleted payload. -/
def store (h : Heap T) (e : Option Nat) (v : T) : Option (Heap T) :=
  match e with
  | none => none
  | some a =>
    match h.objs[a]? with
    | some (some x) => some { h with objs := h.objs.set a (some { x with element := v }) }
    | _ => none

/-- Number of payload objects alive. -/
def Heap.live (h : Heap T) : Nat := h.objs.countP Option.isSome

/-- Number of group objects alive. -/
def Heap.liveGroups (h : Heap T) : Nat := h.groups.countP Option.isSome

namespace ptr

/-- Models `ptr(const ptr & _p) : p(_p.p)`: the `intrusive_ptr` copy constructor adds a reference.
Returns the heap and the pointer held by the new handle. -/
def copy (h : Heap T) (r : Option Nat) : Heap T × Option Nat :=
  (intrusive_ptr_add_ref h r, r)

/-- Models `~ptr()`: `~intrusive_ptr` releases the reference when the pointer is not null. -/
def destroy (h : Heap T) (p : Option Nat) : Heap T :=
  intrusive_ptr_release h p

/-- Models `ptr & operator =(ptr & _p)`: `p = _p.p`, that is `reset(r.ptr)`: a temporary is
constructed from `r` (adds a reference), swapped with `this`, and destroyed (releases the
old pointer).  Returns the heap and the pointer held by `this` afterwards. -/
def assign (h : Heap T) (this r : Option Nat) : Heap T × Option Nat :=
  (intrusive_ptr_release (intrusive_ptr_add_ref h r) this, r)

/-- Models `get()`: `to_element(p.get())`. -/
def get (p : Option Nat) : Option Nat := to_element p

/-- Models `operator dummy_bool()`: `p ? &ptr::get : 0`. -/
def toBool (p : Option Nat) : Bool := p.isSome

/-- Models `element_type * write()`.  Returns the heap, the pointer held by `this` afterwards and
the returned element pointer.  In the shared case `*this = BASE::allocate(*p)` swaps the
handle with the temporary returned by `allocate`, whose destructor then releases the old
payload. -/
def write (h : Heap T) (p : Option Nat) : Heap T × Option Nat × Option Nat :=
  match p with
  | none => (h, none, none)
  | some a =>
    match h.objs[a]? with
    | some (some x) =>
      if x.use_count > 1 then
        let r := allocate h x.element
        (intrusive_ptr_release r.1 (some a), r.2, to_element r.2)
      else (h, some a, to_element (some a))
    | _ => (h, some a, to_element (some a))

/-- Models `view_ptr view() const`: `new group(*this)` copies the handle into the new group (adds a
payload reference), then `view_ptr(group *)` adds the first reference to the group.  Returns
the heap and the group pointer held by the new shared-view. -/
def view (h : Heap T) (p : Option Nat) : Heap T × Option Nat :=
  let h1 := intrusive_ptr_add_ref h p
  let g := h1.groups.length
  let h2 : Heap T := { h1 with groups := h1.groups ++ [some { ref_count := 0, p := p }] }
  (intrusive_ptr_add_ref_group h2 (some g), some g)

/-- Models `ptr cow() const { return *this; }`. -/
def cow (h : Heap T) (p : Option Nat) : Heap T × Option Nat := copy h p

end ptr

namespace group

/-- Models `group::get()`: `p.get()`. -/
def get (x : group) : Option Nat := ptr.get x.p

/-- Models `group::write()`: `p.write()` on the member handle of the group at address `g`, which is
rebound in place. -/
def write (h : Heap T) (g : Nat) (x : group) : Heap T × Option Nat :=
  let r := ptr.write h x.p
  ({ r.1 with groups := r.1.groups.set g (some { x with p := r.2.1 }) }, r.2.2)

end group

namespace view_ptr

/-- Models `view_ptr(const view_ptr & _p) : p(_p.p)`. -/
def copy (h : Heap T) (r : Option Nat) : Heap T × Option Nat :=
  (intrusive_ptr_add_ref_group h r, r)

/-- Models `~view_ptr()`. -/
def destroy (h : Heap T) (p : Option Nat) : Heap T :=
  intrusive_ptr_release_group h p

/-- Models `view_ptr & operator =(const view_ptr & _p)`: `p = _p.p`, that is `reset(r.ptr)`. -/
def assign (h : Heap T) (this r : Option Nat) : Heap T × Option Nat :=
  (intrusive_ptr_release_group (intrusive_ptr_add_ref_group h r) this, r)

/-- Models `operator bool()`: `p ? &view_ptr::get : 0`. -/
def toBool (p : Option Nat) : Bool := p.isSome

/-- Models `get()`: `p ? p->get() : nullptr`. -/
def get (h : Heap T) (p : Option Nat) : Option Nat :=
  match p with
  | none => none
  | some g =>
    match h.groups[g]? with
    | some (some x) => x.get
    | _ => none

/-- Models `view_ptr view(bool new_group = false) const`.  Without a new group it is a copy of
`*this`.  With one, `new group(*p)` copy-constructs a group (counter zero, member handle
copied, which adds a payload reference) and `view_ptr(group *)` adds the first reference.
Dereferencing a null `p` is undefined (`none`). -/
def view (h : Heap T) (p : Option Nat) (new_group : Bool) : Option (Heap T × Option Nat) :=
  if new_group = false then some (copy h p)
  else
    match p with
    | none => none
    | some g =>
      match h.groups[g]? with
      | some (some x) =>
        let h1 := intrusive_ptr_add_ref h x.p
        let n := h1.groups.length
        let h2 : Heap T := { h1 with groups := h1.groups ++ [some { ref_count := 0, p := x.p }] }
        some (intrusive_ptr_add_ref_group h2 (some n), some n)
      | _ => none

/-- Models `element_type * write() { return p->write(); }`; undefined (`none`) for a null `p`. -/
def write (h : Heap T) (p : Option Nat) : Option (Heap T × Option Nat) :=
  match p with
  | none => none
  | some g =>
    match h.groups[g]? with
    | some (some x) => some (group.write h g x)
    | _ => none

/-- Models `ptr cow() const { return p->p; }`: a copy of the group's member handle; undefined
(`none`) for a null `p`. -/
def cow (h : Heap T) (p : Option Nat) : Option (Heap T × Option Nat) :=
  match p with
  | none => none
  | some g =>
    match h.groups[g]? with
    | some (some x) => some (ptr.copy h x.p)
    | _ => none

end view_ptr

/-- The program state: the heap and the handle variables of the program, owning handles
(`ptr`) and shared-view handles (`view_ptr`).  A slot holds `none` once its handle has been
destroyed, else the raw pointer stored in the handle. -/
structure State (T : Type) where
  heap : Heap T
  ptrs : List (Option (Option Nat))
  views : List (Option (Option Nat))
deriving DecidableEq

/-- No object, no handle. -/
def State.empty : State T := { heap := { objs := [], groups := [] }, ptrs := [], views := [] }

/-- The public operations.  A handle is named by the index of its slot; a constructor puts the
new handle in a new slot at the end. -/
inductive Op (T : Type) where
  | ptr_default
  | allocate (v : T)
  | ptr_copy (i : Nat)
  | ptr_move (i : Nat)
  | ptr_assign (dst src : Nat)
  | ptr_move_assign (dst src : Nat)
  | ptr_destroy (i : Nat)
  | ptr_write (i : Nat)
  | ptr_view (i : Nat)
  | ptr_cow (i : Nat)
  | store (e : Nat) (v : T)
  | view_default
  | view_copy (i : Nat)
  | view_move (i : Nat)
  | view_assign (dst src : Nat)
  | view_move_assign (dst src : Nat)
  | view_destroy (i : Nat)
  | view_view (i : Nat) (new_group : Bool)
  | view_write (i : Nat)
  | view_cow (i : Nat)

/-- Models `A.write()` on the owning handle in slot `i`: the state afterwards and the returned
element pointer. -/
def State.ptr_write (s : State T) (i : Nat) : Option (State T × Option Nat) :=
  match s.ptrs[i]? with
  | some (some p) =>
    let r := ptr.write s.heap p
    some ({ s with heap := r.1, ptrs := s.ptrs.set i (some r.2.1) }, r.2.2)
  | _ => none

/-- Models `V.write()` on the shared-view in slot `i`: the state afterwards and the returned element
pointer. -/
def State.view_write (s : State T) (i : Nat) : Option (State T × Option Nat) :=
  match s.views[i]? with
  | some (some p) =>
    match view_ptr.write s.heap p with
    | some r => some ({ s with heap := r.1 }, r.2)
    | none => none
  | _ => none

/-- Models `A.get()` for the owning handle in slot `i`. -/
def State.ptr_get (s : State T) (i : Nat) : Option (Option Nat) :=
  match s.ptrs[i]? with
  | some (some p) => some (ptr.get p)
  | _ => none

/-- Models `V.get()` for the shared-view in slot `i`. -/
def State.view_get (s : State T) (i : Nat) : Option (Option Nat) :=
  match s.views[i]? with
  | some (some p) => some (view_ptr.get s.heap p)
  | _ => none

/-- The element read through the owning handle in slot `i` (`*A`). -/
def State.ptr_read (s : State T) (i : Nat) : Option T :=
  match s.ptr_get i with
  | some e => deref s.heap e
  | none => none

/-- The element read through the shared-view in slot `i` (`*V`). -/
def State.view_read (s : State T) (i : Nat) : Option T :=
  match s.view_get i with
  | some e => deref s.heap e
  | none => none

/-- Models `*e = v` through an element pointer obtained earlier. -/
def State.store (s : State T) (e : Option Nat) (v : T) : Option (State T) :=
  match Shared.store s.heap e v with
  | some h => some { s with heap := h }
  | none => none

/-- One operation.  `none` when the operation names a slot that holds no handle or when the
call has undefined behaviour. -/
def step (s : State T) : Op T → Option (State T)
  | .ptr_default => some { s with ptrs := s.ptrs ++ [some none] }
  | .allocate v =>
    let r := allocate s.heap v
    some { s with heap := r.1, ptrs := s.ptrs ++ [some r.2] }
  | .ptr_copy i =>
    match s.ptrs[i]? with
    | some (some p) =>
      let r := ptr.copy s.heap p
      some { s with heap := r.1, ptrs := s.ptrs ++ [some r.2] }
    | _ => none
  | .ptr_move i =>
    match s.ptrs[i]? with
    | some (some p) => some { s with ptrs := s.ptrs.set i (some none) ++ [some p] }
    | _ => none
  | .ptr_assign dst src =>
    match s.ptrs[dst]?, s.ptrs[src]? with
    | some (some p), some (some r) =>
      let q := ptr.assign s.heap p r
      some { s with heap := q.1, ptrs := s.ptrs.set dst (some q.2) }
    | _, _ => none
  | .ptr_move_assign dst src =>
    match s.ptrs[dst]?, s.ptrs[src]? with
    | some (some p), some (some r) =>
      some { s with ptrs := (s.ptrs.set dst (some r)).set src (some p) }
    | _, _ => none
  | .ptr_destroy i =>
    match s.ptrs[i]? with
    | some (some p) => some { s with heap := ptr.destroy s.heap p, ptrs := s.ptrs.set i none }
    | _ => none
  | .ptr_write i =>
    match s.ptr_write i with
    | some r => some r.1
    | none => none
  | .ptr_view i =>
    match s.ptrs[i]? with
    | some (some p) =>
      let r := ptr.view s.heap p
      some { s with heap := r.1, views := s.views ++ [some r.2] }
    | _ => none
  | .ptr_cow i =>
    match s.ptrs[i]? with
    | some (some p) =>
      let r := ptr.cow s.heap p
      some { s with heap := r.1, ptrs := s.ptrs ++ [some r.2] }
    | _ => none
  | .store e v => s.store (some e) v
  | .view_default => some { s with views := s.views ++ [some none] }
  | .view_copy i =>
    match s.views[i]? with
    | some (some p) =>
      let r := view_ptr.copy s.heap p
      some { s with heap := r.1, views := s.views ++ [some r.2] }
    | _ => none
  | .view_move i =>
    match s.views[i]? with
    | some (some p) => some { s with views := s.views.set i (some none) ++ [some p] }
    | _ => none
  | .view_assign dst src =>
    match s.views[dst]?, s.views[src]? with
    | some (some p), some (some r) =>
      let q := view_ptr.assign s.heap p r
      some { s with heap := q.1, views := s.views.set dst (some q.2) }
    | _, _ => none
  | .view_move_assign dst src =>
    match s.views[dst]?, s.views[src]? with
    | some (some p), some (some r) =>
      some { s with views := (s.views.set dst (some r)).set src (some p) }
    | _, _ => none
  | .view_destroy i =>
    match s.views[i]? with
    | some (some p) =>
      some { s with heap := view_ptr.destroy s.heap p, views := s.views.set i none }
    | _ => none
  | .view_view i new_group =>
    match s.views[i]? with
    | some (some p) =>
      match view_ptr.view s.heap p new_group with
      | some r => some { s with heap := r.1, views := s.views ++ [some r.2] }
      | none => none
    | _ => none
  | .view_write i =>
    match s.view_write i with
    | some r => some r.1
    | none => none
  | .view_cow i =>
    match s.views[i]? with
    | some (some p) =>
      match view_ptr.cow s.heap p with
      | some r => some { s with heap := r.1, ptrs := s.ptrs ++ [some r.2] }
      | none => none
    | _ => none

/-- A sequence of operations, left to right. -/
def run (s : State T) : List (Op T) → Option (State T)
  | [] => some s
  | op :: ops =>
    match step s op with
    | some s1 => run s1 ops
    | none => none

/-- Number of owning handles that point at payload `a`: the handle variables and the member
handles of the groups alive. -/
def State.owners (s : State T) (a : Nat) : Nat :=
  s.ptrs.count (some (some a)) +
    (s.heap.groups.map (fun o => o.bind group.p)).count (some a)

/-- Number of shared-view handles that point at group `g`. -/
def State.viewers (s : State T) (g : Nat) : Nat :=
  s.views.count (some (some g))

/-! ## Counting references -/

/-- The counter of the payload at `a`, zero when no payload is alive there. -/
def rcObj (l : List (Option (shared T))) (a : Nat) : Nat :=
  match l[a]? with
  | some (some x) => x.ref_count
  | _ => 0

/-- The counter of the group at `g`, zero when no group is alive there. -/
def rcGrp (l : List (Option group)) (g : Nat) : Nat :=
  match l[g]? with
  | some (some x) => x.ref_count
  | _ => 0

/-- Number of groups alive whose member handle points at payload `a`. -/
def grpRefs (l : List (Option group)) (a : Nat) : Nat :=
  (l.map (fun o => o.bind group.p)).count (some a)

/-- One when the pointer `p` points at `a`, else zero. -/
def ind (p : Option Nat) (a : Nat) : Nat := if p = some a then 1 else 0

/-- Every payload alive has a positive counter. -/
def PosObj (l : List (Option (shared T))) : Prop :=
  ∀ (a : Nat) (x : shared T), l[a]? = some (some x) → 0 < x.ref_count
/-- Every group alive has a positive counter. -/
def PosGrp (l : List (Option group)) : Prop :=
  ∀ (g : Nat) (x : group), l[g]? = some (some x) → 0 < x.ref_count

/-- The reference-count invariant, with the facts that make it inductive. -/
structure Inv (s : State T) : Prop where
  obj : ∀ a, rcObj s.heap.objs a = s.ptrs.count (some (some a)) + grpRefs s.heap.groups a
  grp : ∀ g, rcGrp s.heap.groups g = s.views.count (some (some g))
  objPos : PosObj s.heap.objs
  grpPos : PosGrp s.heap.groups

/-- A small reachable state: one payload held by two owning handles and one group, the group
held by two shared-views. -/
def demoState : State Nat :=
  { heap := { objs := [some { ref_count := 3, element := 7 }],
              groups := [some { ref_count := 2, p := some 0 }] },
    ptrs := [some (some 0), some (some 0)],
    views := [some (some 0), some (some 0)] }

/-- One payload at address 0 with counter `rc` and value `v`, `n` owning handles that all
point at it, and the given groups and shared-views. -/
def crowd (rc n : Nat) (v : T) (gs : List (Option group)) (vs : List (Option (Option Nat))) :
    State T :=
  { heap := { objs := [some { ref_count := rc, element := v }], groups := gs },
    ptrs := List.replicate n (some (some 0)),
    views := vs }

/-- The state after `allocate(7)`, `view()` and the destruction of the owning handle: one
payload, held only by the group of one shared-view. -/
def viewOnly : State Nat :=
  { heap := { objs := [some { ref_count := 1, element := 7 }],
              groups := [some { ref_count := 1, p := some 0 }] },
    ptrs := [none],
    views := [some (some 0)] }

/-- The state after `allocate(7)` and `view()`: one payload, held by its owning handle and by
the group of one shared-view. -/
def viewAndOwner : State Nat :=
  { heap := { objs := [some { ref_count := 2, element := 7 }],
              groups := [some { ref_count := 1, p := some 0 }] },
    ptrs := [some (some 0)],
    views := [some (some 0)] }

/-- The state after two allocations: two payloads, each held by one owning handle. -/
def twoOwners : State Nat :=
  { heap := { objs := [some { ref_count := 1, element := 7 },
                       some { ref_count := 1, element := 8 }],
              groups := [] },
    ptrs := [some (some 0), some (some 1)],
    views := [] }

/-- The state after `allocate(7)`, `view()` and the destruction of both handles: every slot is
dead and both objects are deleted. -/
def allGone : State Nat :=
  { heap := { objs := [none], groups := [none] }, ptrs := [none], views := [none] }

/-- Operations that build `demoState`. -/
def demoOps : List (Op Nat) := [.allocate 7, .ptr_copy 0, .ptr_view 1, .view_copy 0]

/-! ## Empty handles, failing allocations -/

/-- Models `ptr() : p(0)`: the pointer held by a default-constructed owning handle. -/
def ptr.default : Option Nat := none

/-- Models `view_ptr() noexcept : p(0)`: the pointer held by a default-constructed
shared-view. -/
def view_ptr.default : Option Nat := none

/-- Models `shared_base::allocate(args...)` when `new BASE(args...)` may throw: with `throws`
the allocation function or the constructor throws, the new-expression gives the storage back,
and the exception leaves with the heap as it was (`Except.error`). -/
def allocate_try (h : Heap T) (v : T) (throws : Bool) : Except (Heap T) (Heap T × Option Nat) :=
  if throws then Except.error h else Except.ok (allocate h v)

/-- Models `element_type * write()` over an allocation function `alloc` (the overload of
`BASE::allocate(*p)` for the payload type) that may throw.  The right-hand side of
`*this = BASE::allocate(*p)` is evaluated first, so an exception leaves `write()` before the
assignment: `Except.error` carries the heap and the pointer held by `this` at that point. -/
def ptr.write_try (alloc : Heap T → T → Except (Heap T) (Heap T × Option Nat))
    (h : Heap T) (p : Option Nat) :
    Except (Heap T × Option Nat) (Heap T × Option Nat × Option Nat) :=
  match p with
  | none => Except.ok (h, none, none)
  | some a =>
    match h.objs[a]? with
    | some (some x) =>
      if x.use_count > 1 then
        match alloc h x.element with
        | Except.ok r => Except.ok (intrusive_ptr_release r.1 (some a), r.2, to_element r.2)
        | Except.error h1 => Except.error (h1, some a)
      else Except.ok (h, some a, to_element (some a))
    | _ => Except.ok (h, some a, to_element (some a))

/-! ## Array payloads -/

/-- Sizes and alignments, in bytes, of an instantiation of `shared_array<T>`:
`sizeof(shared_array)`, `alignof(shared_array)`, `sizeof(T)` and `alignof(T)`. -/
structure Layout where
  sizeof_header : Nat
  alignof_header : Nat
  sizeof_T : Nat
  alignof_T : Nat
deriving DecidableEq

/-- Models `size_t alloc_sz = sizeof(shared_array) + _size * sizeof(T) +
(alignof(T) != alignof(shared_array) ? alignof(T)-1 : 0)`, every operation in 64-bit
`size_t` arithmetic. -/
def alloc_sz (L : Layout) (size : Nat) : Nat :=
  ((L.sizeof_header + (size * L.sizeof_T) % 2 ^ 64) % 2 ^ 64
    + (if L.alignof_T ≠ L.alignof_header then L.alignof_T - 1 else 0)) % 2 ^ 64

/-- Models `T* getArray() const` for the object at byte address `this`: the address of the
first element.  `this + 1` is the address just behind the header.  An object and its padding
lie inside the address space, so the `intptr_t` arithmetic on their addresses is exact. -/
def getArray (L : Layout) (this : Nat) : Nat :=
  let p := this + L.sizeof_header
  if L.alignof_T ≠ L.alignof_header then
    let m := p % L.alignof_T
    if m ≠ 0 then p + (L.alignof_T - m) else p
  else p

/-- The members of a `shared_array<T>` object behind its counter: the element count `size` and
the element storage that starts at `getArray()`, a cell being `none` as long as no element has
been constructed in it. -/
structure shared_array (E : Type) where
  size : Nat
  cells : List (Option E)
deriving DecidableEq

namespace shared_array

variable {E A : Type}

/-- Models `allocate_unconstructed(_size)`: `operator new(alloc_sz)`, the placement
`new(p) shared_array(_size)` and `return ptr(psa)`, which adds the first reference.  No
element is constructed. -/
def allocate_unconstructed (h : Heap (shared_array E)) (size : Nat) :
    Heap (shared_array E) × Option Nat :=
  allocate h { size := size, cells := List.replicate size none }

/-- Models the loop `for (T * pt = ..., *pe = pt + _size; pt != pe; ++pt)
new(pt) T(std::forward<ARGS>(args)...)`, by the number of elements still to construct.
`construct` is the constructor of `T` on the forwarded arguments: it gives the element and the
state it leaves the arguments in (a constructor that takes an rvalue may move from it). -/
def construct_loop (construct : A → E × A) : Nat → A → List (Option E)
  | 0, _ => []
  | n + 1, args => some (construct args).1 :: construct_loop construct n (construct args).2

/-- Models `allocate(_size, args...)` with the block returned by `operator new` at byte
address `b`.  `has_args` is `sizeof...(ARGS) != 0` and `trivially` is
`std::is_trivially_constructible<T>::value`.  Constructing elements that do not lie inside the
block of `alloc_sz` bytes is undefined behaviour (`none`). -/
def allocate (L : Layout) (b : Nat) (h : Heap (shared_array E)) (size : Nat)
    (has_args trivially : Bool) (construct : A → E × A) (args : A) :
    Option (Heap (shared_array E) × Option Nat) :=
  let parray := allocate_unconstructed h size
  if has_args || !trivially then
    if getArray L b - b + size * L.sizeof_T ≤ alloc_sz L size then
      match store parray.1 parray.2
          { size := size, cells := construct_loop construct size args } with
      | some h1 => some (h1, parray.2)
      | none => none
    else none
  else some parray

/-- Models the loop `while (dst != end) { new(dst) T(*src); ++dst; ++src; }`, by the number
of elements still to copy and the index of `src`. -/
def copy_loop (src : List (Option E)) : Nat → Nat → List (Option E)
  | 0, _ => []
  | n + 1, i => (src[i]?).join :: copy_loop src n (i + 1)

/-- Models `allocate(const shared_array & r)`, the clone made by `write()` on an array
handle, with the new block at byte address `b`.  Copying elements that do not lie inside the
block of `alloc_sz` bytes is undefined behaviour (`none`). -/
def allocate_clone (L : Layout) (b : Nat) (h : Heap (shared_array E)) (r : shared_array E) :
    Option (Heap (shared_array E) × Option Nat) :=
  if getArray L b - b + r.size * L.sizeof_T ≤ alloc_sz L r.size then
    some (Shared.allocate h { size := r.size, cells := copy_loop r.cells r.size 0 })
  else none

/-- Models `allocate(const shared_array & r)` when it throws: `fail = none` when
`operator new` throws, `fail = some k` when the copy constructor of element `k` throws.  In the
second case the block, with its header and the `k` elements copied so far, is not given back:
it stays in the heap without any reference. -/
def allocate_clone_try (h : Heap (shared_array E)) (r : shared_array E) (fail : Option Nat) :
    Except (Heap (shared_array E)) (Heap (shared_array E) × Option Nat) :=
  match fail with
  | none => Except.error h
  | some k =>
    Except.error (new_BASE h
      { size := r.size,
        cells := copy_loop r.cells k 0 ++ List.replicate (r.size - k) none }).1

/-- Models `operator[](size_t n)` on an owning handle: `get()[n]`. -/
def read (h : Heap (shared_array E)) (p : Option Nat) (n : Nat) : Option E :=
  match deref h (ptr.get p) with
  | some r => (r.cells[n]?).join
  | none => none

/-- Models the loop `while (p-- != e) p->~T();` of `~shared_array()`, pointers counted in
elements: the indices `p - e` of the elements whose destructor runs, in order.  The first
argument bounds the number of tests of the loop condition. -/
def dtor_loop (e : Nat) : Nat → Nat → List Nat
  | 0, _ => []
  | fuel + 1, p => if p ≠ e then (p - 1 - e) :: dtor_loop e fuel (p - 1) else []

/-- Models `~shared_array()`: `T * e = getArray(); T * p = e + size;` and the loop, which
tests its condition `size + 1` times. -/
def dtor (e size : Nat) : List Nat := dtor_loop e (size + 1) (e + size)

end shared_array

/-- The layout of `shared_array<int>` on a 64-bit target: a header of 24 bytes aligned to 8
(virtual table pointer, counter, `size`), elements of 4 bytes aligned to 4. -/
def layoutInt : Layout :=
  { sizeof_header := 24, alignof_header := 8, sizeof_T := 4, alignof_T := 4 }

/-- A layout with over-aligned elements: a header of 24 bytes aligned to 8, elements of 16
bytes aligned to 16. -/
def layoutWide : Layout :=
  { sizeof_header := 24, alignof_header := 8, sizeof_T := 16, alignof_T := 16 }

/-- The members of an array payload with the two elements 10 and 20. -/
def pairArray : shared_array Nat := { size := 2, cells := [some 10, some 20] }

/-! ## Shared-views of no payload -/

/-- Models `explicit view_ptr(BASE * _p) : p(new group(_p))`: `group(BASE * _p) : p(_p)` builds
the member handle with `ptr(BASE *)`, which adds a payload reference unless the pointer is
null, and `intrusive_ptr<group>(group *)` adds the first reference to the new group.  Returns
the heap and the group pointer held by the new shared-view.  A non-null pointer to no payload
alive is undefined (`none`). -/
def view_ptr.of_pointer (h : Heap T) (p : Option Nat) : Option (Heap T × Option Nat) :=
  let h1 := intrusive_ptr_add_ref h p
  let g := h1.groups.length
  let h2 : Heap T := { h1 with groups := h1.groups ++ [some { ref_count := 0, p := p }] }
  match p with
  | none => some (intrusive_ptr_add_ref_group h2 (some g), some g)
  | some a =>
    match h.objs[a]? with
    | some (some _) => some (intrusive_ptr_add_ref_group h2 (some g), some g)
    | _ => none

/-- The state after `ptr()` and `view()` on it: no payload, one group whose member handle is
empty, held by one shared-view. -/
def emptyView : State Nat :=
  { heap := { objs := [], groups := [some { ref_count := 1, p := none }] },
    ptrs := [some none],
    views := [some (some 0)] }

/-! ## A clone that throws, in a program state -/

/-- Models `A.write()` on the owning handle in slot `i` of a program of array handles when the
clone throws (`fail` as in `shared_array.allocate_clone_try`): the state in which the exception
leaves `write()`, with the heap the throwing clone leaves behind and the pointer the handle
holds then.  `none` when the slot holds no handle or when no exception leaves `write()`. -/
def State.ptr_write_throws {E : Type} (s : State (shared_array E)) (i : Nat)
    (fail : Option Nat) : Option (State (shared_array E)) :=
  match s.ptrs[i]? with
  | some (some p) =>
    match ptr.write_try (fun h r => shared_array.allocate_clone_try h r fail) s.heap p with
    | Except.error e => some { s with heap := e.1, ptrs := s.ptrs.set i (some e.2) }
    | Except.ok _ => none
  | _ => none

/-- The state after `allocate` of `pairArray`, a copy of the handle, and a `write()` whose
clone throws in the copy of element 1: the original payload with both handles, and the block of
the unfinished clone, which holds the copy of element 0 and which no handle refers to. -/
def leakState : State (shared_array Nat) :=
  { heap := { objs := [some ⟨2, pairArray⟩, some ⟨0, ⟨2, [some 10, none]⟩⟩], groups := [] },
    ptrs := [some (some 0), some (some 0)],
    views := [] }

/-- The state `leakState` after both owning handles have been destroyed: the original payload is
gone, the block of the unfinished clone is still there. -/
def leakedState : State (shared_array Nat) :=
  { heap := { objs := [none, some ⟨0, ⟨2, [some 10, none]⟩⟩], groups := [] },
    ptrs := [none, none],
    views := [] }

/-! ## Lemmas -/

theorem count_set_add {α : Type} [BEq α] [LawfulBEq α] (l : List α) (i : Nat) (old new b : α)
    (h : l[i]? = some old) :
    (l.set i new).count b + (if old == b then 1 else 0)
      = l.count b + (if new == b then 1 else 0) := by
  induction l generalizing i with
  | nil => simp at h
  | cons x l ih =>
    cases i with
    | zero =>
      simp at h
      subst h
      simp [List.count_cons]
      omega
    | succ i =>
      simp at h
      have := ih i h
      simp [List.count_cons]
      omega

theorem count_pos_of_getElem? {α : Type} [BEq α] [LawfulBEq α] (l : List α) (i : Nat) (x : α)
    (h : l[i]? = some x) : 0 < l.count x := by
  rw [List.count_pos_iff]
  exact List.getElem?_mem h

theorem lt_of_getElem? {α : Type} {l : List α} {i : Nat} {x : α} (h : l[i]? = some x) :
    i < l.length := by
  rcases List.getElem?_eq_some.1 h with ⟨hb, _⟩
  exact hb

theorem live_of_rcObj_pos {l : List (Option (shared T))} {a : Nat} (hp : 0 < rcObj l a) :
    ∃ x, l[a]? = some (some x) ∧ x.ref_count = rcObj l a := by
  unfold rcObj at hp ⊢
  split at hp
  · rename_i x hx
    exact ⟨x, hx, by simp [hx]⟩
  · omega

theorem live_of_rcGrp_pos {l : List (Option group)} {g : Nat} (hp : 0 < rcGrp l g) :
    ∃ x, l[g]? = some (some x) ∧ x.ref_count = rcGrp l g := by
  unfold rcGrp at hp ⊢
  split at hp
  · rename_i x hx
    exact ⟨x, hx, by simp [hx]⟩
  · omega

theorem rcObj_append (l : List (Option (shared T))) (x : shared T) (a : Nat) :
    rcObj (l ++ [some x]) a = rcObj l a + (if a = l.length then x.ref_count else 0) := by
  unfold rcObj
  rcases Nat.lt_trichotomy a l.length with h | h | h
  · rw [List.getElem?_append_left h]
    simp [Nat.ne_of_lt h]
  · subst h
    simp
  · rw [List.getElem?_eq_none (by simp; omega), List.getElem?_eq_none (by omega)]
    simp [Nat.ne_of_gt h]

theorem rcGrp_append (l : List (Option group)) (x : group) (g : Nat) :
    rcGrp (l ++ [some x]) g = rcGrp l g + (if g = l.length then x.ref_count else 0) := by
  unfold rcGrp
  rcases Nat.lt_trichotomy g l.length with h | h | h
  · rw [List.getElem?_append_left h]
    simp [Nat.ne_of_lt h]
  · subst h
    simp
  · rw [List.getElem?_eq_none (by simp; omega), List.getElem?_eq_none (by omega)]
    simp [Nat.ne_of_gt h]

theorem grpRefs_append (l : List (Option group)) (x : group) (a : Nat) :
    grpRefs (l ++ [some x]) a = grpRefs l a + ind x.p a := by
  simp [grpRefs, ind, List.count_singleton]

theorem grpRefs_set (l : List (Option group)) (g : Nat) (old new : Option group)
    (hg : l[g]? = some old) (a : Nat) :
    grpRefs (l.set g new) a + ind (old.bind group.p) a
      = grpRefs l a + ind (new.bind group.p) a := by
  unfold grpRefs ind
  rw [List.map_set]
  have := count_set_add (l.map (fun o => o.bind group.p)) g (old.bind group.p)
    (new.bind group.p) (some a) (by simp [hg])
  simpa using this

theorem grpRefs_pos (l : List (Option group)) (g : Nat) (x : group) (b : Nat)
    (hg : l[g]? = some (some x)) (hb : x.p = some b) : 0 < grpRefs l b := by
  unfold grpRefs
  apply count_pos_of_getElem? _ g
  simp [hg, hb]

theorem rcObj_set_live (l : List (Option (shared T))) (b : Nat) (x y : shared T)
    (hx : l[b]? = some (some x)) (a : Nat) :
    rcObj (l.set b (some y)) a + (if a = b then x.ref_count else 0)
      = rcObj l a + (if a = b then y.ref_count else 0) := by
  have hb := lt_of_getElem? hx
  by_cases hab : b = a
  · subst hab
    simp [rcObj, hb, hx]
    omega
  · have : ¬ a = b := fun e => hab e.symm
    simp [rcObj, hab, this]

theorem rcObj_set_none (l : List (Option (shared T))) (b : Nat) (x : shared T)
    (hx : l[b]? = some (some x)) (a : Nat) :
    rcObj (l.set b none) a + (if a = b then x.ref_count else 0) = rcObj l a := by
  have hb := lt_of_getElem? hx
  by_cases hab : b = a
  · subst hab
    simp [rcObj, hb, hx]
  · have : ¬ a = b := fun e => hab e.symm
    simp [rcObj, hab, this]

theorem rcGrp_set_live (l : List (Option group)) (b : Nat) (x y : group)
    (hx : l[b]? = some (some x)) (a : Nat) :
    rcGrp (l.set b (some y)) a + (if a = b then x.ref_count else 0)
      = rcGrp l a + (if a = b then y.ref_count else 0) := by
  have hb := lt_of_getElem? hx
  by_cases hab : b = a
  · subst hab
    simp [rcGrp, hb, hx]
    omega
  · have : ¬ a = b := fun e => hab e.symm
    simp [rcGrp, hab, this]

theorem rcGrp_set_none (l : List (Option group)) (b : Nat) (x : group)
    (hx : l[b]? = some (some x)) (a : Nat) :
    rcGrp (l.set b none) a + (if a = b then x.ref_count else 0) = rcGrp l a := by
  have hb := lt_of_getElem? hx
  by_cases hab : b = a
  · subst hab
    simp [rcGrp, hb, hx]
  · have : ¬ a = b := fun e => hab e.symm
    simp [rcGrp, hab, this]

theorem posObj_set (l : List (Option (shared T))) (b : Nat) (y : Option (shared T))
    (hy : ∀ z, y = some z → 0 < z.ref_count) (hpos : PosObj l) : PosObj (l.set b y) := by
  intro a x
  simp only [List.getElem?_set]
  split_ifs with h1 h2
  · intro hx
    simp at hx
    exact hy x hx
  · simp
  · exact hpos a x

theorem posGrp_set (l : List (Option group)) (b : Nat) (y : Option group)
    (hy : ∀ z, y = some z → 0 < z.ref_count) (hpos : PosGrp l) : PosGrp (l.set b y) := by
  intro a x
  simp only [List.getElem?_set]
  split_ifs with h1 h2
  · intro hx
    simp at hx
    exact hy x hx
  · simp
  · exact hpos a x

theorem posObj_append (l : List (Option (shared T))) (y : shared T)
    (hy : 0 < y.ref_count) (hpos : PosObj l) : PosObj (l ++ [some y]) := by
  intro a x hx
  rcases Nat.lt_trichotomy a l.length with h | h | h
  · rw [List.getElem?_append_left h] at hx
    exact hpos a x hx
  · subst h
    simp at hx
    subst hx
    exact hy
  · rw [List.getElem?_eq_none (by simp; omega)] at hx
    simp at hx

theorem posGrp_append (l : List (Option group)) (y : group)
    (hy : 0 < y.ref_count) (hpos : PosGrp l) : PosGrp (l ++ [some y]) := by
  intro a x hx
  rcases Nat.lt_trichotomy a l.length with h | h | h
  · rw [List.getElem?_append_left h] at hx
    exact hpos a x hx
  · subst h
    simp at hx
    subst hx
    exact hy
  · rw [List.getElem?_eq_none (by simp; omega)] at hx
    simp at hx

theorem dec_pos {c : Nat} (h : 0 < c) : dec c = c - 1 := by
  unfold dec
  rw [if_neg (by omega)]

/-! ### payload counter -/

@[simp] theorem add_ref_groups (h : Heap T) (p : Option Nat) :
    (intrusive_ptr_add_ref h p).groups = h.groups := by
  unfold intrusive_ptr_add_ref
  split
  · rfl
  · split <;> rfl

@[simp] theorem release_groups (h : Heap T) (p : Option Nat) :
    (intrusive_ptr_release h p).groups = h.groups := by
  unfold intrusive_ptr_release
  split
  · rfl
  · split
    · split <;> rfl
    · rfl

theorem add_ref_live (h : Heap T) (b : Nat) (x : shared T) (hx : h.objs[b]? = some (some x)) :
    intrusive_ptr_add_ref h (some b)
      = { h with objs := h.objs.set b (some { x with ref_count := x.ref_count + 1 }) } := by
  simp [intrusive_ptr_add_ref, hx]

theorem rcObj_add_ref (h : Heap T) (p : Option Nat) (a : Nat)
    (hp : ∀ b, p = some b → 0 < rcObj h.objs b) :
    rcObj (intrusive_ptr_add_ref h p).objs a = rcObj h.objs a + ind p a := by
  cases p with
  | none => simp [intrusive_ptr_add_ref, ind]
  | some b =>
    obtain ⟨x, hx, hxr⟩ := live_of_rcObj_pos (hp b rfl)
    rw [add_ref_live h b x hx]
    have := rcObj_set_live h.objs b x { x with ref_count := x.ref_count + 1 } hx a
    simp only [ind, Option.some.injEq] at this ⊢
    by_cases hab : a = b
    · subst hab
      simp only [if_true] at this ⊢
      omega
    · have hba : ¬ b = a := fun e => hab e.symm
      simp only [hab, hba, if_false] at this ⊢
      omega

theorem release_live (h : Heap T) (b : Nat) (x : shared T) (hx : h.objs[b]? = some (some x)) :
    intrusive_ptr_release h (some b)
      = if dec x.ref_count = 0 then { h with objs := h.objs.set b none }
      else { h with objs := h.objs.set b (some { x with ref_count := dec x.ref_count }) } := by
  unfold intrusive_ptr_release
  simp only [hx]

theorem rcObj_release (h : Heap T) (p : Option Nat) (a : Nat)
    (hp : ∀ b, p = some b → 0 < rcObj h.objs b) :
    rcObj (intrusive_ptr_release h p).objs a + ind p a = rcObj h.objs a := by
  cases p with
  | none => simp [intrusive_ptr_release, ind]
  | some b =>
    obtain ⟨x, hx, hxr⟩ := live_of_rcObj_pos (hp b rfl)
    have hpos : 0 < x.ref_count := by rw [hxr]; exact hp b rfl
    have hdec := dec_pos hpos
    rw [release_live h b x hx, hdec]
    simp only [ind, Option.some.injEq]
    by_cases h0 : x.ref_count - 1 = 0
    · rw [if_pos h0]
      have := rcObj_set_none h.objs b x hx a
      by_cases hab : a = b
      · subst hab
        simp only [if_true] at this ⊢
        omega
      · have hba : ¬ b = a := fun e => hab e.symm
        simp only [hab, hba, if_false] at this ⊢
        omega
    · rw [if_neg h0]
      have := rcObj_set_live h.objs b x { x with ref_count := x.ref_count - 1 } hx a
      by_cases hab : a = b
      · subst hab
        simp only [if_true] at this ⊢
        omega
      · have hba : ¬ b = a := fun e => hab e.symm
        simp only [hab, hba, if_false] at this ⊢
        omega

theorem posObj_add_ref (h : Heap T) (p : Option Nat) (hpos : PosObj h.objs) :
    PosObj (intrusive_ptr_add_ref h p).objs := by
  unfold intrusive_ptr_add_ref
  split
  · exact hpos
  · split
    · exact posObj_set _ _ _ (by intro z hz; simp at hz; subst hz; simp) hpos
    · exact hpos

theorem posObj_release (h : Heap T) (p : Option Nat) (hpos : PosObj h.objs) :
    PosObj (intrusive_ptr_release h p).objs := by
  cases p with
  | none => exact hpos
  | some b =>
    cases hb : h.objs[b]? with
    | none =>
      have : intrusive_ptr_release h (some b) = h := by
        unfold intrusive_ptr_release; simp only [hb]
      rw [this]; exact hpos
    | some o =>
      cases o with
      | none =>
        have : intrusive_ptr_release h (some b) = h := by
          unfold intrusive_ptr_release; simp only [hb]
        rw [this]; exact hpos
      | some x =>
        rw [release_live h b x hb]
        by_cases h0 : dec x.ref_count = 0
        · rw [if_pos h0]
          exact posObj_set _ _ _ (fun z hz => by cases hz) hpos
        · rw [if_neg h0]
          refine posObj_set _ _ _ (fun z hz => ?_) hpos
          cases hz
          exact Nat.pos_of_ne_zero h0

/-! ### group counter -/

@[simp] theorem add_ref_group_objs (h : Heap T) (p : Option Nat) :
    (intrusive_ptr_add_ref_group h p).objs = h.objs := by
  unfold intrusive_ptr_add_ref_group
  split
  · rfl
  · split <;> rfl

theorem add_ref_group_live (h : Heap T) (g : Nat) (x : group)
    (hx : h.groups[g]? = some (some x)) :
    intrusive_ptr_add_ref_group h (some g)
      = { h with groups := h.groups.set g (some { x with ref_count := x.ref_count + 1 }) } := by
  simp [intrusive_ptr_add_ref_group, hx]

theorem release_group_live (h : Heap T) (g : Nat) (x : group)
    (hx : h.groups[g]? = some (some x)) :
    intrusive_ptr_release_group h (some g)
      = if dec x.ref_count = 0 then
          intrusive_ptr_release { h with groups := h.groups.set g none } x.p
        else { h with groups := h.groups.set g (some { x with ref_count := dec x.ref_count }) } := by
  unfold intrusive_ptr_release_group
  simp only [hx]

theorem rcGrp_add_ref_group (h : Heap T) (p : Option Nat) (g : Nat)
    (hp : ∀ b, p = some b → 0 < rcGrp h.groups b) :
    rcGrp (intrusive_ptr_add_ref_group h p).groups g = rcGrp h.groups g + ind p g := by
  cases p with
  | none => simp [intrusive_ptr_add_ref_group, ind]
  | some b =>
    obtain ⟨x, hx, hxr⟩ := live_of_rcGrp_pos (hp b rfl)
    rw [add_ref_group_live h b x hx]
    have := rcGrp_set_live h.groups b x { x with ref_count := x.ref_count + 1 } hx g
    simp only [ind, Option.some.injEq] at this ⊢
    by_cases hab : g = b
    · subst hab
      simp only [if_true] at this ⊢
      omega
    · have hba : ¬ b = g := fun e => hab e.symm
      simp only [hab, hba, if_false] at this ⊢
      omega

theorem grpRefs_add_ref_group (h : Heap T) (p : Option Nat) (a : Nat) :
    grpRefs (intrusive_ptr_add_ref_group h p).groups a = grpRefs h.groups a := by
  cases p with
  | none => simp [intrusive_ptr_add_ref_group]
  | some b =>
    cases hb : h.groups[b]? with
    | none => simp [intrusive_ptr_add_ref_group, hb]
    | some o =>
      cases o with
      | none => simp [intrusive_ptr_add_ref_group, hb]
      | some x =>
        rw [add_ref_group_live h b x hb]
        have := grpRefs_set h.groups b (some x)
          (some { x with ref_count := x.ref_count + 1 }) hb a
        simp only [Option.some_bind] at this
        dsimp only
        omega

theorem posGrp_add_ref_group (h : Heap T) (p : Option Nat) (hpos : PosGrp h.groups) :
    PosGrp (intrusive_ptr_add_ref_group h p).groups := by
  unfold intrusive_ptr_add_ref_group
  split
  · exact hpos
  · split
    · exact posGrp_set _ _ _ (fun z hz => by cases hz; exact Nat.succ_pos _) hpos
    · exact hpos

theorem rcGrp_release_group (h : Heap T) (p : Option Nat) (g : Nat)
    (hp : ∀ b, p = some b → 0 < rcGrp h.groups b) :
    rcGrp (intrusive_ptr_release_group h p).groups g + ind p g = rcGrp h.groups g := by
  cases p with
  | none => simp [intrusive_ptr_release_group, ind]
  | some b =>
    obtain ⟨x, hx, hxr⟩ := live_of_rcGrp_pos (hp b rfl)
    have hpos : 0 < x.ref_count := by rw [hxr]; exact hp b rfl
    rw [release_group_live h b x hx, dec_pos hpos]
    simp only [ind, Option.some.injEq]
    by_cases h0 : x.ref_count - 1 = 0
    · rw [if_pos h0, release_groups]
      have := rcGrp_set_none h.groups b x hx g
      by_cases hab : g = b
      · subst hab
        simp only [if_true] at this ⊢
        omega
      · have hba : ¬ b = g := fun e => hab e.symm
        simp only [hab, hba, if_false] at this ⊢
        omega
    · rw [if_neg h0]
      have := rcGrp_set_live h.groups b x { x with ref_count := x.ref_count - 1 } hx g
      by_cases hab : g = b
      · subst hab
        simp only [if_true] at this ⊢
        omega
      · have hba : ¬ b = g := fun e => hab e.symm
        simp only [hab, hba, if_false] at this ⊢
        omega

theorem balance_release_group (h : Heap T) (p : Option Nat) (a : Nat)
    (hp : ∀ b, p = some b → 0 < rcGrp h.groups b)
    (hq : ∀ (g : Nat) (x : group) (b : Nat),
      h.groups[g]? = some (some x) → x.p = some b → 0 < rcObj h.objs b) :
    rcObj (intrusive_ptr_release_group h p).objs a + grpRefs h.groups a
      = rcObj h.objs a + grpRefs (intrusive_ptr_release_group h p).groups a := by
  cases p with
  | none => simp [intrusive_ptr_release_group]
  | some b =>
    obtain ⟨x, hx, hxr⟩ := live_of_rcGrp_pos (hp b rfl)
    rw [release_group_live h b x hx]
    by_cases h0 : dec x.ref_count = 0
    · rw [if_pos h0, release_groups]
      have h1 := rcObj_release { h with groups := h.groups.set b none } x.p a
        (fun c hc => hq b x c hx hc)
      have h2 := grpRefs_set h.groups b (some x) none hx a
      have h3 : ind (none : Option Nat) a = 0 := by simp [ind]
      simp only [Option.some_bind, Option.none_bind, h3] at h1 h2
      dsimp only at h1 ⊢
      omega
    · rw [if_neg h0]
      have h2 := grpRefs_set h.groups b (some x)
        (some { x with ref_count := dec x.ref_count }) hx a
      simp only [Option.some_bind] at h2
      simp only
      omega

theorem posObj_release_group (h : Heap T) (p : Option Nat) (hpos : PosObj h.objs) :
    PosObj (intrusive_ptr_release_group h p).objs := by
  unfold intrusive_ptr_release_group
  split
  · exact hpos
  · split
    · split
      · exact posObj_release _ _ hpos
      · exact hpos
    · exact hpos

theorem posGrp_release_group (h : Heap T) (p : Option Nat) (hpos : PosGrp h.groups) :
    PosGrp (intrusive_ptr_release_group h p).groups := by
  unfold intrusive_ptr_release_group
  split
  · exact hpos
  · split
    · split
      · rw [release_groups]
        exact posGrp_set _ _ _ (fun z hz => by cases hz) hpos
      · rename_i h0
        refine posGrp_set _ _ _ (fun z hz => ?_) hpos
        cases hz
        exact Nat.pos_of_ne_zero h0
    · exact hpos

/-! ### allocation and write -/

theorem allocate_eq (h : Heap T) (v : T) :
    allocate h v
      = ({ h with objs := h.objs ++ [some { ref_count := 1, element := v }] },
          some h.objs.length) := by
  simp [allocate, new_BASE, intrusive_ptr_add_ref]

theorem use_count_gt_one {x : shared T} (hx : 1 < x.use_count) : 1 < x.ref_count := by
  unfold shared.use_count at hx
  have := Nat.mod_le x.ref_count (2 ^ 32)
  omega

theorem write_null (h : Heap T) : ptr.write h none = (h, none, none) := rfl

theorem write_exclusive (h : Heap T) (a : Nat) (x : shared T)
    (hx : h.objs[a]? = some (some x)) (hu : ¬ 1 < x.use_count) :
    ptr.write h (some a) = (h, some a, some a) := by
  simp [ptr.write, hx, hu, to_element]

theorem write_shared (h : Heap T) (a : Nat) (x : shared T)
    (hx : h.objs[a]? = some (some x)) (hu : 1 < x.use_count) :
    ptr.write h (some a)
      = ({ h with objs := h.objs.set a (some { x with ref_count := x.ref_count - 1 })
            ++ [some { ref_count := 1, element := x.element }] },
          some h.objs.length, some h.objs.length) := by
  have hlt := lt_of_getElem? hx
  have hrc := use_count_gt_one hu
  have hx2 : (h.objs ++ [some ({ ref_count := 1, element := x.element } : shared T)])[a]?
      = some (some x) := by
    rw [List.getElem?_append_left hlt]; exact hx
  have hd : dec x.ref_count = x.ref_count - 1 := dec_pos (by omega)
  have hne : ¬ x.ref_count - 1 = 0 := by omega
  simp only [ptr.write, hx, hu, if_true, allocate_eq, to_element]
  rw [release_live _ a x hx2, hd, if_neg hne]
  simp [List.set_append_left _ _ hlt]

theorem write_groups (h : Heap T) (p : Option Nat) : (ptr.write h p).1.groups = h.groups := by
  unfold ptr.write
  split
  · rfl
  · split
    · split
      · simp [allocate_eq]
      · rfl
    · rfl

theorem rcObj_write (h : Heap T) (p : Option Nat) (a : Nat)
    (hp : ∀ b, p = some b → 0 < rcObj h.objs b) :
    rcObj (ptr.write h p).1.objs a + ind p a
      = rcObj h.objs a + ind (ptr.write h p).2.1 a := by
  cases p with
  | none => rfl
  | some b =>
    obtain ⟨x, hx, hxr⟩ := live_of_rcObj_pos (hp b rfl)
    by_cases hu : 1 < x.use_count
    · rw [write_shared h b x hx hu]
      have hrc := use_count_gt_one hu
      have hlt := lt_of_getElem? hx
      have h1 := rcObj_set_live h.objs b x { x with ref_count := x.ref_count - 1 } hx a
      have h2 := rcObj_append (h.objs.set b (some { x with ref_count := x.ref_count - 1 }))
        { ref_count := 1, element := x.element } a
      simp only [List.length_set] at h2
      simp only [ind, Option.some.injEq]
      by_cases hab : a = b
      · subst hab
        have hne : ¬ a = h.objs.length := by omega
        have hne2 : ¬ h.objs.length = a := by omega
        simp only [if_true, hne, hne2, if_false] at h1 h2 ⊢
        omega
      · have hba : ¬ b = a := fun e => hab e.symm
        simp only [hab, hba, if_false] at h1 h2 ⊢
        by_cases hal : a = h.objs.length
        · subst hal
          simp only [if_true] at h2 ⊢
          omega
        · have hla : ¬ h.objs.length = a := fun e => hal e.symm
          simp only [hal, hla, if_false] at h2 ⊢
          omega
    · rw [write_exclusive h b x hx hu]

theorem posObj_write (h : Heap T) (p : Option Nat) (hpos : PosObj h.objs) :
    PosObj (ptr.write h p).1.objs := by
  cases p with
  | none => exact hpos
  | some b =>
    cases hb : h.objs[b]? with
    | none =>
      have : ptr.write h (some b) = (h, some b, to_element (some b)) := by
        unfold ptr.write; simp only [hb]
      rw [this]; exact hpos
    | some o =>
      cases o with
      | none =>
        have : ptr.write h (some b) = (h, some b, to_element (some b)) := by
          unfold ptr.write; simp only [hb]
        rw [this]; exact hpos
      | some x =>
        by_cases hu : 1 < x.use_count
        · rw [write_shared h b x hb hu]
          have hrc := use_count_gt_one hu
          apply posObj_append _ _ (by simp)
          exact posObj_set _ _ _ (fun z hz => by cases hz; simp; omega) hpos
        · rw [write_exclusive h b x hb hu]
          exact hpos

/-! ### groups -/

theorem group_write_objs (h : Heap T) (g : Nat) (x : group) :
    (group.write h g x).1.objs = (ptr.write h x.p).1.objs := rfl

theorem group_write_groups (h : Heap T) (g : Nat) (x : group) :
    (group.write h g x).1.groups
      = h.groups.set g (some { x with p := (ptr.write h x.p).2.1 }) := by
  simp [group.write, write_groups]

theorem balance_group_write (h : Heap T) (g : Nat) (x : group) (a : Nat)
    (hg : h.groups[g]? = some (some x))
    (hp : ∀ b, x.p = some b → 0 < rcObj h.objs b) :
    rcObj (group.write h g x).1.objs a + grpRefs h.groups a
      = rcObj h.objs a + grpRefs (group.write h g x).1.groups a := by
  rw [group_write_objs, group_write_groups]
  have h1 := rcObj_write h x.p a hp
  have h2 := grpRefs_set h.groups g (some x)
    (some { x with p := (ptr.write h x.p).2.1 }) hg a
  simp only [Option.some_bind] at h2
  omega

theorem rcGrp_group_write (h : Heap T) (g : Nat) (x : group) (g1 : Nat)
    (hg : h.groups[g]? = some (some x)) :
    rcGrp (group.write h g x).1.groups g1 = rcGrp h.groups g1 := by
  rw [group_write_groups]
  have := rcGrp_set_live h.groups g x { x with p := (ptr.write h x.p).2.1 } hg g1
  dsimp only at this
  omega

theorem posGrp_group_write (h : Heap T) (g : Nat) (x : group)
    (hg : h.groups[g]? = some (some x)) (hpos : PosGrp h.groups) :
    PosGrp (group.write h g x).1.groups := by
  rw [group_write_groups]
  exact posGrp_set _ _ _ (fun z hz => by cases hz; exact hpos g x hg) hpos

theorem ptr_view_eq (h : Heap T) (p : Option Nat) :
    ptr.view h p
      = ({ objs := (intrusive_ptr_add_ref h p).objs,
           groups := h.groups ++ [some { ref_count := 1, p := p }] },
          some h.groups.length) := by
  simp [ptr.view, intrusive_ptr_add_ref_group]

theorem view_new_group_eq (h : Heap T) (g : Nat) (x : group)
    (hg : h.groups[g]? = some (some x)) :
    view_ptr.view h (some g) true
      = some ({ objs := (intrusive_ptr_add_ref h x.p).objs,
                groups := h.groups ++ [some { ref_count := 1, p := x.p }] },
              some h.groups.length) := by
  simp [view_ptr.view, hg, intrusive_ptr_add_ref_group]

/-! ### handle slots -/

theorem slots_append (l : List (Option (Option Nat))) (p : Option Nat) (a : Nat) :
    (l ++ [some p]).count (some (some a)) = l.count (some (some a)) + ind p a := by
  simp [ind, List.count_singleton]

theorem slots_set (l : List (Option (Option Nat))) (i : Nat) (p q : Option Nat) (a : Nat)
    (hi : l[i]? = some (some p)) :
    (l.set i (some q)).count (some (some a)) + ind p a
      = l.count (some (some a)) + ind q a := by
  have := count_set_add l i (some p) (some q) (some (some a)) hi
  simpa [ind] using this

theorem slots_clear (l : List (Option (Option Nat))) (i : Nat) (p : Option Nat) (a : Nat)
    (hi : l[i]? = some (some p)) :
    (l.set i none).count (some (some a)) + ind p a = l.count (some (some a)) := by
  have := count_set_add l i (some p) none (some (some a)) hi
  simpa [ind] using this

theorem slots_pos (l : List (Option (Option Nat))) (i : Nat) (a : Nat)
    (hi : l[i]? = some (some (some a))) : 0 < l.count (some (some a)) :=
  count_pos_of_getElem? l i _ hi

theorem Inv.ptr_live {s : State T} (hinv : Inv s) {i : Nat} {p : Option Nat}
    (hi : s.ptrs[i]? = some (some p)) : ∀ b, p = some b → 0 < rcObj s.heap.objs b := by
  intro b hb
  subst hb
  have := slots_pos s.ptrs i b hi
  have := hinv.obj b
  omega

theorem Inv.view_live {s : State T} (hinv : Inv s) {i : Nat} {p : Option Nat}
    (hi : s.views[i]? = some (some p)) : ∀ g, p = some g → 0 < rcGrp s.heap.groups g := by
  intro g hg
  subst hg
  have := slots_pos s.views i g hi
  have := hinv.grp g
  omega

theorem Inv.grp_live {s : State T} (hinv : Inv s) (g : Nat) (x : group) (b : Nat)
    (hg : s.heap.groups[g]? = some (some x)) (hb : x.p = some b) :
    0 < rcObj s.heap.objs b := by
  have := grpRefs_pos s.heap.groups g x b hg hb
  have := hinv.obj b
  omega

theorem Inv_empty : Inv (State.empty : State T) := by
  constructor
  · intro a; simp [State.empty, rcObj, grpRefs]
  · intro g; simp [State.empty, rcGrp]
  · intro a x hx; simp [State.empty] at hx
  · intro g x hx; simp [State.empty] at hx

/-! ## The invariant is preserved by every operation -/

theorem inv_ptr_default {s : State T} (hinv : Inv s) :
    Inv { s with ptrs := s.ptrs ++ [some none] } := by
  refine ⟨fun a => ?_, hinv.grp, hinv.objPos, hinv.grpPos⟩
  have h0 := hinv.obj a
  have h1 := slots_append s.ptrs none a
  have h2 : ind none a = 0 := by simp [ind]
  dsimp only
  omega

theorem inv_view_default {s : State T} (hinv : Inv s) :
    Inv { s with views := s.views ++ [some none] } := by
  refine ⟨hinv.obj, fun g => ?_, hinv.objPos, hinv.grpPos⟩
  have h0 := hinv.grp g
  have h1 := slots_append s.views none g
  have h2 : ind none g = 0 := by simp [ind]
  dsimp only
  omega

theorem inv_allocate {s : State T} (hinv : Inv s) (v : T) :
    Inv { s with heap := (allocate s.heap v).1,
                 ptrs := s.ptrs ++ [some (allocate s.heap v).2] } := by
  rw [allocate_eq]
  refine ⟨fun a => ?_, hinv.grp, ?_, hinv.grpPos⟩
  · have h0 := hinv.obj a
    have h1 := slots_append s.ptrs (some s.heap.objs.length) a
    have h2 := rcObj_append s.heap.objs { ref_count := 1, element := v } a
    have h3 : ind (some s.heap.objs.length) a = if a = s.heap.objs.length then 1 else 0 := by
      simp [ind, eq_comm]
    dsimp only at h2 ⊢
    omega
  · exact posObj_append _ _ (by simp) hinv.objPos

theorem inv_ptr_copy {s : State T} (hinv : Inv s) {i : Nat} {p : Option Nat}
    (hi : s.ptrs[i]? = some (some p)) :
    Inv { s with heap := (ptr.copy s.heap p).1,
                 ptrs := s.ptrs ++ [some (ptr.copy s.heap p).2] } := by
  refine ⟨fun a => ?_, ?_, ?_, ?_⟩
  · have h0 := hinv.obj a
    have h1 := slots_append s.ptrs p a
    have h2 := rcObj_add_ref s.heap p a (hinv.ptr_live hi)
    simp only [ptr.copy, add_ref_groups]
    omega
  · simpa [ptr.copy] using hinv.grp
  · exact posObj_add_ref _ _ hinv.objPos
  · simpa [ptr.copy] using hinv.grpPos

theorem inv_ptr_move {s : State T} (hinv : Inv s) {i : Nat} {p : Option Nat}
    (hi : s.ptrs[i]? = some (some p)) :
    Inv { s with ptrs := s.ptrs.set i (some none) ++ [some p] } := by
  refine ⟨fun a => ?_, hinv.grp, hinv.objPos, hinv.grpPos⟩
  have h0 := hinv.obj a
  have h1 := slots_append (s.ptrs.set i (some none)) p a
  have h2 := slots_set s.ptrs i p none a hi
  have h3 : ind none a = 0 := by simp [ind]
  dsimp only
  omega

theorem inv_ptr_assign {s : State T} (hinv : Inv s) {dst src : Nat} {p r : Option Nat}
    (hd : s.ptrs[dst]? = some (some p)) (hs : s.ptrs[src]? = some (some r)) :
    Inv { s with heap := (ptr.assign s.heap p r).1,
                 ptrs := s.ptrs.set dst (some (ptr.assign s.heap p r).2) } := by
  have hadd := fun a => rcObj_add_ref s.heap r a (hinv.ptr_live hs)
  have hrel := fun a => rcObj_release (intrusive_ptr_add_ref s.heap r) p a
    (fun b hb => by have := hadd b; have := hinv.ptr_live hd b hb; omega)
  refine ⟨fun a => ?_, ?_, ?_, ?_⟩
  · have h0 := hinv.obj a
    have h1 := slots_set s.ptrs dst p r a hd
    have h2 := hadd a
    have h3 := hrel a
    simp only [ptr.assign, release_groups, add_ref_groups]
    omega
  · simpa [ptr.assign] using hinv.grp
  · exact posObj_release _ _ (posObj_add_ref _ _ hinv.objPos)
  · simpa [ptr.assign] using hinv.grpPos

theorem inv_ptr_move_assign {s : State T} (hinv : Inv s) {dst src : Nat} {p r : Option Nat}
    (hd : s.ptrs[dst]? = some (some p)) (hs : s.ptrs[src]? = some (some r)) :
    Inv { s with ptrs := (s.ptrs.set dst (some r)).set src (some p) } := by
  refine ⟨fun a => ?_, hinv.grp, hinv.objPos, hinv.grpPos⟩
  have h0 := hinv.obj a
  have h1 := slots_set s.ptrs dst p r a hd
  have hlt := lt_of_getElem? hd
  by_cases hds : dst = src
  · subst hds
    have h2 := slots_set (s.ptrs.set dst (some r)) dst r p a (by simp [hlt])
    dsimp only
    omega
  · have h2 := slots_set (s.ptrs.set dst (some r)) src r p a
      (by rw [List.getElem?_set_ne hds]; exact hs)
    dsimp only
    omega

theorem inv_ptr_destroy {s : State T} (hinv : Inv s) {i : Nat} {p : Option Nat}
    (hi : s.ptrs[i]? = some (some p)) :
    Inv { s with heap := ptr.destroy s.heap p, ptrs := s.ptrs.set i none } := by
  refine ⟨fun a => ?_, ?_, ?_, ?_⟩
  · have h0 := hinv.obj a
    have h1 := slots_clear s.ptrs i p a hi
    have h2 := rcObj_release s.heap p a (hinv.ptr_live hi)
    simp only [ptr.destroy, release_groups]
    omega
  · simpa [ptr.destroy] using hinv.grp
  · exact posObj_release _ _ hinv.objPos
  · simpa [ptr.destroy] using hinv.grpPos

theorem inv_ptr_write {s : State T} (hinv : Inv s) {i : Nat} {p : Option Nat}
    (hi : s.ptrs[i]? = some (some p)) :
    Inv { s with heap := (ptr.write s.heap p).1,
                 ptrs := s.ptrs.set i (some (ptr.write s.heap p).2.1) } := by
  refine ⟨fun a => ?_, ?_, ?_, ?_⟩
  · have h0 := hinv.obj a
    have h1 := slots_set s.ptrs i p (ptr.write s.heap p).2.1 a hi
    have h2 := rcObj_write s.heap p a (hinv.ptr_live hi)
    simp only [write_groups]
    omega
  · simpa [write_groups] using hinv.grp
  · exact posObj_write _ _ hinv.objPos
  · simpa [write_groups] using hinv.grpPos

theorem inv_ptr_view {s : State T} (hinv : Inv s) {i : Nat} {p : Option Nat}
    (hi : s.ptrs[i]? = some (some p)) :
    Inv { s with heap := (ptr.view s.heap p).1,
                 views := s.views ++ [some (ptr.view s.heap p).2] } := by
  rw [ptr_view_eq]
  refine ⟨fun a => ?_, fun g => ?_, ?_, ?_⟩
  · have h0 := hinv.obj a
    have h1 := grpRefs_append s.heap.groups { ref_count := 1, p := p } a
    have h2 := rcObj_add_ref s.heap p a (hinv.ptr_live hi)
    dsimp only at h1 ⊢
    omega
  · have h0 := hinv.grp g
    have h1 := slots_append s.views (some s.heap.groups.length) g
    have h2 := rcGrp_append s.heap.groups { ref_count := 1, p := p } g
    have h3 : ind (some s.heap.groups.length) g
        = if g = s.heap.groups.length then 1 else 0 := by
      simp [ind, eq_comm]
    dsimp only at h2 ⊢
    omega
  · exact posObj_add_ref _ _ hinv.objPos
  · exact posGrp_append _ _ (by simp) hinv.grpPos

theorem inv_store {s : State T} (hinv : Inv s) {e : Option Nat} {v : T} {h : Heap T}
    (hst : store s.heap e v = some h) : Inv { s with heap := h } := by
  unfold store at hst
  split at hst
  · cases hst
  · rename_i a
    split at hst
    · rename_i x hx
      cases hst
      refine ⟨fun b => ?_, hinv.grp, ?_, hinv.grpPos⟩
      · have h0 := hinv.obj b
        have h1 := rcObj_set_live s.heap.objs a x { x with element := v } hx b
        dsimp only at h1 ⊢
        omega
      · exact posObj_set _ _ _ (fun z hz => by cases hz; exact hinv.objPos a x hx) hinv.objPos
    · cases hst

theorem add_ref_group_member (h : Heap T) (r : Option Nat) (g : Nat) (x : group)
    (hx : (intrusive_ptr_add_ref_group h r).groups[g]? = some (some x)) :
    ∃ y, h.groups[g]? = some (some y) ∧ y.p = x.p := by
  unfold intrusive_ptr_add_ref_group at hx
  split at hx
  · exact ⟨x, hx, rfl⟩
  · split at hx
    · rename_i b y hy
      simp only [List.getElem?_set] at hx
      split_ifs at hx with h1 h2
      · subst h1
        simp only [Option.some.injEq] at hx
        subst hx
        exact ⟨y, hy, rfl⟩
      · exact ⟨x, hx, rfl⟩
    · exact ⟨x, hx, rfl⟩

theorem inv_view_copy {s : State T} (hinv : Inv s) {i : Nat} {p : Option Nat}
    (hi : s.views[i]? = some (some p)) :
    Inv { s with heap := (view_ptr.copy s.heap p).1,
                 views := s.views ++ [some (view_ptr.copy s.heap p).2] } := by
  refine ⟨fun a => ?_, fun g => ?_, ?_, ?_⟩
  · have h0 := hinv.obj a
    have h1 := grpRefs_add_ref_group s.heap p a
    simp only [view_ptr.copy, add_ref_group_objs]
    omega
  · have h0 := hinv.grp g
    have h1 := slots_append s.views p g
    have h2 := rcGrp_add_ref_group s.heap p g (hinv.view_live hi)
    simp only [view_ptr.copy]
    omega
  · simpa [view_ptr.copy] using hinv.objPos
  · exact posGrp_add_ref_group _ _ hinv.grpPos

theorem inv_view_move {s : State T} (hinv : Inv s) {i : Nat} {p : Option Nat}
    (hi : s.views[i]? = some (some p)) :
    Inv { s with views := s.views.set i (some none) ++ [some p] } := by
  refine ⟨hinv.obj, fun g => ?_, hinv.objPos, hinv.grpPos⟩
  have h0 := hinv.grp g
  have h1 := slots_append (s.views.set i (some none)) p g
  have h2 := slots_set s.views i p none g hi
  have h3 : ind none g = 0 := by simp [ind]
  dsimp only
  omega

theorem inv_view_assign {s : State T} (hinv : Inv s) {dst src : Nat} {p r : Option Nat}
    (hd : s.views[dst]? = some (some p)) (hs : s.views[src]? = some (some r)) :
    Inv { s with heap := (view_ptr.assign s.heap p r).1,
                 views := s.views.set dst (some (view_ptr.assign s.heap p r).2) } := by
  have hadd := fun g => rcGrp_add_ref_group s.heap r g (hinv.view_live hs)
  have hpre : ∀ b, p = some b → 0 < rcGrp (intrusive_ptr_add_ref_group s.heap r).groups b :=
    fun b hb => by have := hadd b; have := hinv.view_live hd b hb; omega
  have hrel := fun g => rcGrp_release_group (intrusive_ptr_add_ref_group s.heap r) p g hpre
  have hbal := fun a => balance_release_group (intrusive_ptr_add_ref_group s.heap r) p a hpre
    (fun g x b hx hb => by
      obtain ⟨y, hy, hyp⟩ := add_ref_group_member s.heap r g x hx
      rw [add_ref_group_objs]
      exact hinv.grp_live g y b hy (hyp.trans hb))
  refine ⟨fun a => ?_, fun g => ?_, ?_, ?_⟩
  · have h0 := hinv.obj a
    have h1 := grpRefs_add_ref_group s.heap r a
    have h2 := hbal a
    simp only [add_ref_group_objs] at h2
    simp only [view_ptr.assign]
    omega
  · have h0 := hinv.grp g
    have h1 := slots_set s.views dst p r g hd
    have h2 := hadd g
    have h3 := hrel g
    simp only [view_ptr.assign]
    omega
  · refine posObj_release_group _ _ ?_
    simpa using hinv.objPos
  · exact posGrp_release_group _ _ (posGrp_add_ref_group _ _ hinv.grpPos)

theorem inv_view_move_assign {s : State T} (hinv : Inv s) {dst src : Nat} {p r : Option Nat}
    (hd : s.views[dst]? = some (some p)) (hs : s.views[src]? = some (some r)) :
    Inv { s with views := (s.views.set dst (some r)).set src (some p) } := by
  refine ⟨hinv.obj, fun g => ?_, hinv.objPos, hinv.grpPos⟩
  have h0 := hinv.grp g
  have h1 := slots_set s.views dst p r g hd
  have hlt := lt_of_getElem? hd
  by_cases hds : dst = src
  · subst hds
    have h2 := slots_set (s.views.set dst (some r)) dst r p g (by simp [hlt])
    dsimp only
    omega
  · have h2 := slots_set (s.views.set dst (some r)) src r p g
      (by rw [List.getElem?_set_ne hds]; exact hs)
    dsimp only
    omega

theorem inv_view_destroy {s : State T} (hinv : Inv s) {i : Nat} {p : Option Nat}
    (hi : s.views[i]? = some (some p)) :
    Inv { s with heap := view_ptr.destroy s.heap p, views := s.views.set i none } := by
  refine ⟨fun a => ?_, fun g => ?_, ?_, ?_⟩
  · have h0 := hinv.obj a
    have h2 := balance_release_group s.heap p a (hinv.view_live hi)
      (fun g x b hx hb => hinv.grp_live g x b hx hb)
    simp only [view_ptr.destroy]
    omega
  · have h0 := hinv.grp g
    have h1 := slots_clear s.views i p g hi
    have h2 := rcGrp_release_group s.heap p g (hinv.view_live hi)
    simp only [view_ptr.destroy]
    omega
  · exact posObj_release_group _ _ hinv.objPos
  · exact posGrp_release_group _ _ hinv.grpPos

theorem inv_view_new_group {s : State T} (hinv : Inv s) {g : Nat} {x : group}
    (hg : s.heap.groups[g]? = some (some x)) :
    Inv { s with heap := { objs := (intrusive_ptr_add_ref s.heap x.p).objs,
                            groups := s.heap.groups ++ [some { ref_count := 1, p := x.p }] },
                 views := s.views ++ [some (some s.heap.groups.length)] } := by
  refine ⟨fun a => ?_, fun g1 => ?_, ?_, ?_⟩
  · have h0 := hinv.obj a
    have h1 := grpRefs_append s.heap.groups { ref_count := 1, p := x.p } a
    have h2 := rcObj_add_ref s.heap x.p a (fun b hb => hinv.grp_live g x b hg hb)
    dsimp only at h1 ⊢
    omega
  · have h0 := hinv.grp g1
    have h1 := slots_append s.views (some s.heap.groups.length) g1
    have h2 := rcGrp_append s.heap.groups { ref_count := 1, p := x.p } g1
    have h3 : ind (some s.heap.groups.length) g1
        = if g1 = s.heap.groups.length then 1 else 0 := by
      simp [ind, eq_comm]
    dsimp only at h2 ⊢
    omega
  · exact posObj_add_ref _ _ hinv.objPos
  · exact posGrp_append _ _ (by simp) hinv.grpPos

theorem inv_view_write {s : State T} (hinv : Inv s) {g : Nat} {x : group}
    (hg : s.heap.groups[g]? = some (some x)) :
    Inv { s with heap := (group.write s.heap g x).1 } := by
  refine ⟨fun a => ?_, fun g1 => ?_, ?_, ?_⟩
  · have h0 := hinv.obj a
    have h1 := balance_group_write s.heap g x a hg (fun b hb => hinv.grp_live g x b hg hb)
    dsimp only
    omega
  · have h0 := hinv.grp g1
    have h1 := rcGrp_group_write s.heap g x g1 hg
    dsimp only
    omega
  · rw [group_write_objs]
    exact posObj_write _ _ hinv.objPos
  · exact posGrp_group_write _ _ _ hg hinv.grpPos

theorem inv_view_cow {s : State T} (hinv : Inv s) {g : Nat} {x : group}
    (hg : s.heap.groups[g]? = some (some x)) :
    Inv { s with heap := (ptr.copy s.heap x.p).1,
                 ptrs := s.ptrs ++ [some (ptr.copy s.heap x.p).2] } := by
  refine ⟨fun a => ?_, ?_, ?_, ?_⟩
  · have h0 := hinv.obj a
    have h1 := slots_append s.ptrs x.p a
    have h2 := rcObj_add_ref s.heap x.p a (fun b hb => hinv.grp_live g x b hg hb)
    simp only [ptr.copy, add_ref_groups]
    omega
  · simpa [ptr.copy] using hinv.grp
  · exact posObj_add_ref _ _ hinv.objPos
  · simpa [ptr.copy] using hinv.grpPos

theorem Inv_step {s s1 : State T} (op : Op T) (hinv : Inv s) (hs : step s op = some s1) :
    Inv s1 := by
  cases op with
  | ptr_default =>
    simp only [step, Option.some.injEq] at hs
    subst hs; exact inv_ptr_default hinv
  | allocate v =>
    simp only [step, Option.some.injEq] at hs
    subst hs; exact inv_allocate hinv v
  | ptr_copy i =>
    simp only [step] at hs
    split at hs
    · rename_i p hi
      cases hs; exact inv_ptr_copy hinv hi
    · cases hs
  | ptr_move i =>
    simp only [step] at hs
    split at hs
    · rename_i p hi
      cases hs; exact inv_ptr_move hinv hi
    · cases hs
  | ptr_assign dst src =>
    simp only [step] at hs
    split at hs
    · rename_i p r hd hr
      cases hs; exact inv_ptr_assign hinv hd hr
    · cases hs
  | ptr_move_assign dst src =>
    simp only [step] at hs
    split at hs
    · rename_i p r hd hr
      cases hs; exact inv_ptr_move_assign hinv hd hr
    · cases hs
  | ptr_destroy i =>
    simp only [step] at hs
    split at hs
    · rename_i p hi
      cases hs; exact inv_ptr_destroy hinv hi
    · cases hs
  | ptr_write i =>
    simp only [step, State.ptr_write] at hs
    split at hs
    · rename_i r hr
      split at hr
      · rename_i p hi
        cases hr; cases hs; exact inv_ptr_write hinv hi
      · cases hr
    · cases hs
  | ptr_view i =>
    simp only [step] at hs
    split at hs
    · rename_i p hi
      cases hs; exact inv_ptr_view hinv hi
    · cases hs
  | ptr_cow i =>
    simp only [step] at hs
    split at hs
    · rename_i p hi
      cases hs; exact inv_ptr_copy hinv hi
    · cases hs
  | store e v =>
    simp only [step, State.store] at hs
    split at hs
    · rename_i h hst
      cases hs; exact inv_store hinv hst
    · cases hs
  | view_default =>
    simp only [step, Option.some.injEq] at hs
    subst hs; exact inv_view_default hinv
  | view_copy i =>
    simp only [step] at hs
    split at hs
    · rename_i p hi
      cases hs; exact inv_view_copy hinv hi
    · cases hs
  | view_move i =>
    simp only [step] at hs
    split at hs
    · rename_i p hi
      cases hs; exact inv_view_move hinv hi
    · cases hs
  | view_assign dst src =>
    simp only [step] at hs
    split at hs
    · rename_i p r hd hr
      cases hs; exact inv_view_assign hinv hd hr
    · cases hs
  | view_move_assign dst src =>
    simp only [step] at hs
    split at hs
    · rename_i p r hd hr
      cases hs; exact inv_view_move_assign hinv hd hr
    · cases hs
  | view_destroy i =>
    simp only [step] at hs
    split at hs
    · rename_i p hi
      cases hs; exact inv_view_destroy hinv hi
    · cases hs
  | view_view i new_group =>
    simp only [step] at hs
    split at hs
    · rename_i p hi
      split at hs
      · rename_i r hr
        cases hs
        cases new_group with
        | false =>
          simp only [view_ptr.view, if_true, Option.some.injEq] at hr
          subst hr
          exact inv_view_copy hinv hi
        | true =>
          cases p with
          | none => simp [view_ptr.view] at hr
          | some g =>
            cases hg : s.heap.groups[g]? with
            | none => simp [view_ptr.view, hg] at hr
            | some o =>
              cases o with
              | none => simp [view_ptr.view, hg] at hr
              | some x =>
                rw [view_new_group_eq s.heap g x hg] at hr
                cases hr
                exact inv_view_new_group hinv hg
      · cases hs
    · cases hs
  | view_write i =>
    simp only [step, State.view_write] at hs
    split at hs
    · rename_i r hr
      split at hr
      · rename_i p hi
        split at hr
        · rename_i q hq
          cases hr; cases hs
          unfold view_ptr.write at hq
          split at hq
          · cases hq
          · rename_i g
            split at hq
            · rename_i x hx
              cases hq
              exact inv_view_write hinv hx
            · cases hq
        · cases hr
      · cases hr
    · cases hs
  | view_cow i =>
    simp only [step] at hs
    split at hs
    · rename_i p hi
      split at hs
      · rename_i q hq
        cases hs
        unfold view_ptr.cow at hq
        split at hq
        · cases hq
        · rename_i g
          split at hq
          · rename_i x hx
            cases hq
            exact inv_view_cow hinv hx
          · cases hq
      · cases hs
    · cases hs

theorem Inv_run {s s1 : State T} (ops : List (Op T)) (hinv : Inv s) (hr : run s ops = some s1) :
    Inv s1 := by
  induction ops generalizing s with
  | nil =>
    simp only [run, Option.some.injEq] at hr
    subst hr; exact hinv
  | cons op ops ih =>
    simp only [run] at hr
    split at hr
    · rename_i s2 hs2
      exact ih (Inv_step op hinv hs2) hr
    · cases hr

/-- C1. Reference-count invariant: in every state reached from the empty state by a sequence
of public operations, the counter of every payload alive equals the number of owning handles
that point at it (handle variables plus member handles of groups alive), and the counter of
every group alive equals the number of shared-view handles that point at it.  A call whose
behaviour is undefined (`write`, `cow` or `view(true)` through an empty shared-view, the use of
a destroyed handle) has no successor state. -/
theorem C1_refcount_invariant (ops : List (Op T)) (s : State T)
    (hr : run State.empty ops = some s) :
    (∀ a x, s.heap.objs[a]? = some (some x) → x.ref_count = s.owners a) ∧
    (∀ g x, s.heap.groups[g]? = some (some x) → x.ref_count = s.viewers g) := by
  have hinv := Inv_run ops Inv_empty hr
  constructor
  · intro a x hx
    have := hinv.obj a
    simp only [rcObj, hx] at this
    exact this
  · intro g x hx
    have := hinv.grp g
    simp only [rcGrp, hx] at this
    exact this

/-- Witness of C1 at `demoState`. -/
theorem C1_refcount_invariant_witness :
    run State.empty demoOps = some demoState ∧
      ((∀ a x, demoState.heap.objs[a]? = some (some x) → x.ref_count = demoState.owners a) ∧
       (∀ g x, demoState.heap.groups[g]? = some (some x) →
          x.ref_count = demoState.viewers g)) :=
  ⟨rfl, C1_refcount_invariant demoOps demoState rfl⟩

/-! ## Write on an owning handle -/

theorem ptr_write_exclusive (s : State T) (A a : Nat) (x : shared T)
    (hA : s.ptrs[A]? = some (some (some a)))
    (hx : s.heap.objs[a]? = some (some x))
    (hu : ¬ 1 < x.use_count) :
    s.ptr_write A = some (s, some a) := by
  have hset : s.ptrs.set A (some (some a)) = s.ptrs := by
    apply List.ext_getElem?
    intro i
    rw [List.getElem?_set]
    split_ifs with h1 h2
    · subst h1; exact hA.symm
    · subst h1; exact absurd (lt_of_getElem? hA) h2
    · rfl
  simp only [State.ptr_write, hA, write_exclusive s.heap a x hx hu, hset]

/-- C2. No clone on exclusive write: when the payload of the non-empty owning handle in slot `A`
has reference count 1, `A.write()` returns the address `A.get()` returned before the call and
leaves the whole state as it was: `A` refers to the same payload, the payload keeps its
contents and its count, and the same payloads are alive. -/
theorem C2_no_clone_on_exclusive_write (s : State T) (A a : Nat) (x : shared T)
    (hA : s.ptrs[A]? = some (some (some a)))
    (hx : s.heap.objs[a]? = some (some x))
    (h1 : x.ref_count = 1) :
    ∃ s1 r, s.ptr_write A = some (s1, r) ∧
      s.ptr_get A = some r ∧
      s1.ptrs[A]? = some (some (some a)) ∧
      s1.heap.objs[a]? = some (some x) ∧
      s1.heap.live = s.heap.live ∧
      s1 = s := by
  have hu : ¬ 1 < x.use_count := by
    simp [shared.use_count, h1]
  refine ⟨s, some a, ptr_write_exclusive s A a x hA hx hu, ?_, hA, hx, rfl, rfl⟩
  simp [State.ptr_get, hA, ptr.get, to_element]

/-- Witness of C2: a freshly allocated value. -/
theorem C2_no_clone_on_exclusive_write_witness :
    run State.empty [Op.allocate 7] = some (crowd 1 1 (7 : Nat) [] []) ∧
    ∃ s1 r, (crowd 1 1 (7 : Nat) [] []).ptr_write 0 = some (s1, r) ∧
      (crowd 1 1 (7 : Nat) [] []).ptr_get 0 = some r ∧
      s1.ptrs[0]? = some (some (some 0)) ∧
      s1.heap.objs[0]? = some (some { ref_count := 1, element := 7 }) ∧
      s1.heap.live = (crowd 1 1 (7 : Nat) [] []).heap.live ∧
      s1 = crowd 1 1 (7 : Nat) [] [] :=
  ⟨rfl, C2_no_clone_on_exclusive_write (crowd 1 1 (7 : Nat) [] []) 0 0
    { ref_count := 1, element := 7 } rfl rfl rfl⟩

/-! ## States with many owning handles; clone on shared write -/

theorem run_append (s : State T) (l1 l2 : List (Op T)) :
    run s (l1 ++ l2) = (run s l1).bind (fun s1 => run s1 l2) := by
  induction l1 generalizing s with
  | nil => rfl
  | cons op l1 ih =>
    simp only [List.cons_append, run]
    cases step s op with
    | none => rfl
    | some s1 => exact ih s1

theorem crowd_ptr (rc n : Nat) (v : T) (gs : List (Option group))
    (vs : List (Option (Option Nat))) (i : Nat) (hi : i < n) :
    (crowd rc n v gs vs).ptrs[i]? = some (some (some 0)) := by
  simp [crowd, hi]

theorem crowd_obj (rc n : Nat) (v : T) (gs : List (Option group))
    (vs : List (Option (Option Nat))) :
    (crowd rc n v gs vs).heap.objs[0]? = some (some { ref_count := rc, element := v }) := rfl

theorem crowd_copy (rc n : Nat) (v : T) (gs : List (Option group))
    (vs : List (Option (Option Nat))) (i : Nat) (hi : i < n) :
    step (crowd rc n v gs vs) (Op.ptr_copy i) = some (crowd (rc + 1) (n + 1) v gs vs) := by
  simp only [step, crowd_ptr rc n v gs vs i hi, ptr.copy]
  simp [crowd, intrusive_ptr_add_ref, List.replicate_succ']

theorem crowd_copies (rc n : Nat) (v : T) (gs : List (Option group))
    (vs : List (Option (Option Nat))) (hn : 0 < n) (k : Nat) :
    run (crowd rc n v gs vs) (List.replicate k (Op.ptr_copy 0))
      = some (crowd (rc + k) (n + k) v gs vs) := by
  induction k generalizing rc n with
  | zero => rfl
  | succ k ih =>
    simp only [List.replicate_succ, run, crowd_copy rc n v gs vs 0 hn]
    rw [ih (rc + 1) (n + 1) (Nat.succ_pos n)]
    congr 2 <;> omega

theorem crowd_allocate (v : T) :
    step (State.empty : State T) (Op.allocate v) = some (crowd 1 1 v [] []) := by
  simp [step, allocate_eq, State.empty, crowd]

theorem crowd_reach (v : T) (k : Nat) :
    run (State.empty : State T) (Op.allocate v :: List.replicate k (Op.ptr_copy 0))
      = some (crowd (1 + k) (1 + k) v [] []) := by
  simp only [run, crowd_allocate]
  exact crowd_copies 1 1 v [] [] Nat.one_pos k

theorem crowd_write (rc n : Nat) (v : T) (gs : List (Option group))
    (vs : List (Option (Option Nat))) (i : Nat) (hi : i < n) (hu : ¬ 1 < rc % 2 ^ 32) :
    (crowd rc n v gs vs).ptr_write i = some (crowd rc n v gs vs, some 0) :=
  ptr_write_exclusive _ i 0 _ (crowd_ptr rc n v gs vs i hi) (crowd_obj rc n v gs vs) hu

theorem crowd_store (rc n : Nat) (v w : T) (gs : List (Option group))
    (vs : List (Option (Option Nat))) :
    (crowd rc n v gs vs).store (some 0) w = some (crowd rc n w gs vs) := by
  simp [State.store, store, crowd]

theorem crowd_ptr_read (rc n : Nat) (v : T) (gs : List (Option group))
    (vs : List (Option (Option Nat))) (i : Nat) (hi : i < n) :
    (crowd rc n v gs vs).ptr_read i = some v := by
  simp only [State.ptr_read, State.ptr_get, crowd_ptr rc n v gs vs i hi]
  simp [ptr.get, to_element, deref, crowd]

theorem crowd_ptr_get (rc n : Nat) (v : T) (gs : List (Option group))
    (vs : List (Option (Option Nat))) (i : Nat) (hi : i < n) :
    (crowd rc n v gs vs).ptr_get i = some (some 0) := by
  simp only [State.ptr_get, crowd_ptr rc n v gs vs i hi]
  rfl

/-- C3, at a payload shared by `2^32 + 1` owning handles.  The state is reached by one
allocation and `2^32` copies of the handle; the payload's counter is `2^32 + 1`, which
`use_count()` reports as 1; `write()` on handle 0 then returns the address of the shared
payload and changes nothing: no clone is made and the handle is not rebound. -/
theorem C3_shared_write_without_clone :
    run (State.empty : State Nat) (Op.allocate 7 :: List.replicate (2 ^ 32) (Op.ptr_copy 0))
        = some (crowd (1 + 2 ^ 32) (1 + 2 ^ 32) 7 [] []) ∧
      (crowd (1 + 2 ^ 32) (1 + 2 ^ 32) (7 : Nat) [] []).heap.objs[0]?
        = some (some { ref_count := 1 + 2 ^ 32, element := 7 }) ∧
      (1 < 1 + 2 ^ 32) ∧
      (crowd (1 + 2 ^ 32) (1 + 2 ^ 32) (7 : Nat) [] []).ptr_get 0 = some (some 0) ∧
      (crowd (1 + 2 ^ 32) (1 + 2 ^ 32) (7 : Nat) [] []).ptr_write 0
        = some (crowd (1 + 2 ^ 32) (1 + 2 ^ 32) 7 [] [], some 0) :=
  ⟨crowd_reach 7 (2 ^ 32), rfl, by decide,
    crowd_ptr_get _ _ 7 [] [] 0 (by decide),
    crowd_write _ _ 7 [] [] 0 (by decide) (by decide)⟩

theorem countP_set_add {α : Type} (q : α → Bool) (l : List α) (i : Nat) (old new : α)
    (h : l[i]? = some old) :
    (l.set i new).countP q + (if q old then 1 else 0)
      = l.countP q + (if q new then 1 else 0) := by
  induction l generalizing i with
  | nil => simp at h
  | cons x l ih =>
    cases i with
    | zero =>
      simp at h
      subst h
      simp [List.countP_cons]
      omega
    | succ i =>
      simp at h
      have := ih i h
      simp [List.countP_cons]
      omega

theorem count_two {α : Type} [BEq α] [LawfulBEq α] (l : List α) (i j : Nat) (x y : α)
    (hi : l[i]? = some x) (hj : l[j]? = some x) (hij : i ≠ j) (hy : (y == x) = false) :
    2 ≤ l.count x := by
  have h1 := count_set_add l i x y x hi
  have h2 : (l.set i y)[j]? = some x := by
    rw [List.getElem?_set_ne hij]; exact hj
  have h3 := count_pos_of_getElem? _ j x h2
  simp [hy] at h1
  omega

theorem ptr_write_shared (s : State T) (A a : Nat) (x : shared T)
    (hA : s.ptrs[A]? = some (some (some a)))
    (hx : s.heap.objs[a]? = some (some x))
    (hu : 1 < x.use_count) :
    s.ptr_write A
      = some ({ s with
                heap := { s.heap with
                  objs := s.heap.objs.set a (some { x with ref_count := x.ref_count - 1 })
                    ++ [some { ref_count := 1, element := x.element }] },
                ptrs := s.ptrs.set A (some (some s.heap.objs.length)) },
              some s.heap.objs.length) := by
  simp only [State.ptr_write, hA, write_shared s.heap a x hx hu]

theorem live_after_clone (l : List (Option (shared T))) (a : Nat) (x y z : shared T)
    (hx : l[a]? = some (some x)) :
    (l.set a (some y) ++ [some z]).countP Option.isSome = l.countP Option.isSome + 1 := by
  have := countP_set_add Option.isSome l a (some x) (some y) hx
  simp at this
  simp [List.countP_append, this]

/-- Clone on shared write, whenever `use_count()` reports more than one reference: `A.write()`
creates one new payload `q` with the value of the old one and count 1, rebinds `A` to it,
leaves the old payload alive with its count decreased by one, and returns the address of the
new element, which differs from the old one. -/
theorem clone_on_shared_write (s : State T) (A a : Nat) (x : shared T)
    (hA : s.ptrs[A]? = some (some (some a)))
    (hx : s.heap.objs[a]? = some (some x))
    (hu : 1 < x.use_count) :
    ∃ s1 q, s.ptr_write A = some (s1, some q) ∧
      s.heap.objs[q]? = none ∧
      s1.heap.objs[q]? = some (some { ref_count := 1, element := x.element }) ∧
      s1.ptrs[A]? = some (some (some q)) ∧
      s1.heap.objs[a]? = some (some { x with ref_count := x.ref_count - 1 }) ∧
      s.ptr_get A = some (some a) ∧
      s1.ptr_get A = some (some q) ∧
      q ≠ a ∧
      s1.heap.live = s.heap.live + 1 := by
  have hlt := lt_of_getElem? hx
  have hAlt := lt_of_getElem? hA
  refine ⟨_, s.heap.objs.length, ptr_write_shared s A a x hA hx hu, ?_, ?_, ?_, ?_, ?_, ?_, ?_, ?_⟩
  · simp
  · simp [List.getElem?_append_right]
  · simp [hAlt]
  · dsimp only
    rw [List.getElem?_append_left (by simpa using hlt)]
    simp [hlt]
  · simp [State.ptr_get, hA, ptr.get, to_element]
  · simp [State.ptr_get, hAlt, ptr.get, to_element]
  · omega
  · exact live_after_clone s.heap.objs a x _ _ hx

theorem clone_on_shared_write_witness :
    ∃ s1 q, (crowd 2 2 (7 : Nat) [] []).ptr_write 0 = some (s1, some q) ∧
      (crowd 2 2 (7 : Nat) [] []).heap.objs[q]? = none ∧
      s1.heap.objs[q]? = some (some { ref_count := 1, element := 7 }) ∧
      s1.ptrs[0]? = some (some (some q)) ∧
      s1.heap.objs[0]? = some (some { ref_count := 2 - 1, element := 7 }) ∧
      (crowd 2 2 (7 : Nat) [] []).ptr_get 0 = some (some 0) ∧
      s1.ptr_get 0 = some (some q) ∧
      q ≠ 0 ∧
      s1.heap.live = (crowd 2 2 (7 : Nat) [] []).heap.live + 1 :=
  clone_on_shared_write (crowd 2 2 (7 : Nat) [] []) 0 0 { ref_count := 2, element := 7 }
    rfl rfl (by decide)

/-- C5. Exclusivity is restored after a fork: when the distinct owning handles `A` and `B`
hold the only two references to payload `a` (count 2), `A.write()` clones (one more payload
alive) and the following `B.write()` returns the address of `a`, which is what `B.get()`
returned before, and leaves the state as it is: no clone, the same payloads alive. -/
theorem C5_exclusive_after_fork (s : State T) (A B a : Nat) (x : shared T)
    (hA : s.ptrs[A]? = some (some (some a)))
    (hB : s.ptrs[B]? = some (some (some a)))
    (hAB : A ≠ B)
    (hx : s.heap.objs[a]? = some (some x))
    (h2 : x.ref_count = 2) :
    ∃ s1 r, s.ptr_write A = some (s1, r) ∧
      s1.heap.live = s.heap.live + 1 ∧
      s.ptr_get B = some (some a) ∧
      ∃ s2, s1.ptr_write B = some (s2, some a) ∧
        s2.heap.live = s1.heap.live ∧ s2 = s1 := by
  have hu : 1 < x.use_count := by simp [shared.use_count, h2]
  have hlt := lt_of_getElem? hx
  refine ⟨_, _, ptr_write_shared s A a x hA hx hu, live_after_clone s.heap.objs a x _ _ hx,
    ?_, _, ?_, rfl, rfl⟩
  · simp [State.ptr_get, hB, ptr.get, to_element]
  · apply ptr_write_exclusive _ B a { x with ref_count := x.ref_count - 1 }
    · dsimp only
      rw [List.getElem?_set_ne hAB]; exact hB
    · dsimp only
      rw [List.getElem?_append_left (by simpa using hlt)]
      simp [hlt]
    · simp [shared.use_count, h2]

/-- Witness of C5: a payload held by exactly two owning handles. -/
theorem C5_exclusive_after_fork_witness :
    run State.empty [Op.allocate 7, Op.ptr_copy 0] = some (crowd 2 2 (7 : Nat) [] []) ∧
    ∃ s1 r, (crowd 2 2 (7 : Nat) [] []).ptr_write 0 = some (s1, r) ∧
      s1.heap.live = (crowd 2 2 (7 : Nat) [] []).heap.live + 1 ∧
      (crowd 2 2 (7 : Nat) [] []).ptr_get 1 = some (some 0) ∧
      ∃ s2, s1.ptr_write 1 = some (s2, some 0) ∧
        s2.heap.live = s1.heap.live ∧ s2 = s1 :=
  ⟨rfl, C5_exclusive_after_fork (crowd 2 2 (7 : Nat) [] []) 0 1 0
    { ref_count := 2, element := 7 } rfl rfl (by decide) rfl rfl⟩

/-- C4, at a payload shared by `2^32 + 1` owning handles: `write()` on handle 0 makes no
clone and returns the address of the shared payload, so that a value stored through the
returned pointer is what the copy in slot 1 reads afterwards (9 instead of 7). -/
theorem C4_write_seen_by_copy :
    run (State.empty : State Nat) (Op.allocate 7 :: List.replicate (2 ^ 32) (Op.ptr_copy 0))
        = some (crowd (1 + 2 ^ 32) (1 + 2 ^ 32) 7 [] []) ∧
      (crowd (1 + 2 ^ 32) (1 + 2 ^ 32) (7 : Nat) [] []).ptr_get 1 = some (some 0) ∧
      (crowd (1 + 2 ^ 32) (1 + 2 ^ 32) (7 : Nat) [] []).ptr_read 1 = some 7 ∧
      (crowd (1 + 2 ^ 32) (1 + 2 ^ 32) (7 : Nat) [] []).ptr_write 0
        = some (crowd (1 + 2 ^ 32) (1 + 2 ^ 32) 7 [] [], some 0) ∧
      (crowd (1 + 2 ^ 32) (1 + 2 ^ 32) (7 : Nat) [] []).store (some 0) 9
        = some (crowd (1 + 2 ^ 32) (1 + 2 ^ 32) 9 [] []) ∧
      (crowd (1 + 2 ^ 32) (1 + 2 ^ 32) (9 : Nat) [] []).ptr_read 1 = some 9 :=
  ⟨crowd_reach 7 (2 ^ 32),
    crowd_ptr_get _ _ 7 [] [] 1 (by decide),
    crowd_ptr_read _ _ 7 [] [] 1 (by decide),
    crowd_write _ _ 7 [] [] 0 (by decide) (by decide),
    crowd_store _ _ 7 9 [] [],
    crowd_ptr_read _ _ 9 [] [] 1 (by decide)⟩

theorem use_count_of_lt {x : shared T} (h : x.ref_count < 2 ^ 32) :
    x.use_count = x.ref_count := by
  unfold shared.use_count
  exact Nat.mod_eq_of_lt h

theorem state_store_live (s : State T) (q : Nat) (y : shared T)
    (hq : s.heap.objs[q]? = some (some y)) (v : T) :
    s.store (some q) v
      = some { s with heap := { s.heap with
                objs := s.heap.objs.set q (some { y with element := v }) } } := by
  simp only [State.store, store, hq]

/-- Write isolation, for a payload with fewer than `2^32` references: in a reachable state
where the distinct owning handles `A` and `B` refer to the same payload, `A.write()` followed
by a store of any value `v` through the returned pointer leaves `B.get()` and the value read
through `B` as they were, while `A` reads `v`.  The statement is symmetric in `A` and `B`. -/
theorem write_isolation (ops : List (Op T)) (s : State T)
    (hr : run State.empty ops = some s) (A B a : Nat) (x : shared T)
    (hA : s.ptrs[A]? = some (some (some a)))
    (hB : s.ptrs[B]? = some (some (some a)))
    (hAB : A ≠ B)
    (hx : s.heap.objs[a]? = some (some x))
    (hlt : x.ref_count < 2 ^ 32) (v : T) :
    ∃ s1 q s2, s.ptr_write A = some (s1, some q) ∧
      s1.store (some q) v = some s2 ∧
      s2.ptr_get B = s.ptr_get B ∧
      s.ptr_read B = some x.element ∧
      s2.ptr_read B = some x.element ∧
      s2.ptr_read A = some v := by
  have hinv := Inv_run ops Inv_empty hr
  have hc := count_two s.ptrs A B (some (some a)) none hA hB hAB (by simp)
  have hobj := hinv.obj a
  simp only [rcObj, hx] at hobj
  have hu : 1 < x.use_count := by rw [use_count_of_lt hlt]; omega
  have hal := lt_of_getElem? hx
  have hAl := lt_of_getElem? hA
  have hne : a ≠ s.heap.objs.length := by omega
  have hq : (s.heap.objs.set a (some { x with ref_count := x.ref_count - 1 })
      ++ [some ({ ref_count := 1, element := x.element } : shared T)])[s.heap.objs.length]?
      = some (some { ref_count := 1, element := x.element }) := by
    simp [List.getElem?_append_right]
  refine ⟨_, s.heap.objs.length, _, ptr_write_shared s A a x hA hx hu,
    state_store_live _ _ _ hq v, ?_, ?_, ?_, ?_⟩
  · simp only [State.ptr_get, List.getElem?_set_ne hAB, hB]
  · simp [State.ptr_read, State.ptr_get, hB, ptr.get, to_element, deref, hx]
  · simp only [State.ptr_read, State.ptr_get, List.getElem?_set_ne hAB, hB, ptr.get,
      to_element, deref]
    rw [List.getElem?_set_ne (Ne.symm hne), List.getElem?_append_left (by simpa using hal)]
    simp [hal]
  · simp [State.ptr_read, State.ptr_get, hAl, ptr.get, to_element, deref,
      List.getElem?_append_right]

theorem write_isolation_witness :
    ∃ s1 q s2, (crowd 2 2 (7 : Nat) [] []).ptr_write 0 = some (s1, some q) ∧
      s1.store (some q) 9 = some s2 ∧
      s2.ptr_get 1 = (crowd 2 2 (7 : Nat) [] []).ptr_get 1 ∧
      (crowd 2 2 (7 : Nat) [] []).ptr_read 1 = some 7 ∧
      s2.ptr_read 1 = some 7 ∧
      s2.ptr_read 0 = some 9 :=
  write_isolation [Op.allocate 7, Op.ptr_copy 0] (crowd 2 2 (7 : Nat) [] []) rfl 0 1 0
    { ref_count := 2, element := 7 } rfl rfl (by decide) rfl (by decide) 9

/-! ## Shared views -/

theorem set_self {α : Type} (l : List α) (i : Nat) (x : α) (h : l[i]? = some x) :
    l.set i x = l := by
  apply List.ext_getElem?
  intro j
  rw [List.getElem?_set]
  split_ifs with h1 h2
  · subst h1; exact h.symm
  · subst h1; exact absurd (lt_of_getElem? h) h2
  · rfl

theorem to_element_eq (p : Option Nat) : to_element p = p := by
  cases p <;> rfl

theorem view_get_eq (s : State T) (V g : Nat) (G : group)
    (hV : s.views[V]? = some (some (some g)))
    (hG : s.heap.groups[g]? = some (some G)) :
    s.view_get V = some G.p := by
  simp [State.view_get, hV, view_ptr.get, hG, group.get, ptr.get, to_element_eq]

theorem step_view_copy (s : State T) (V g : Nat) (G : group)
    (hV : s.views[V]? = some (some (some g)))
    (hG : s.heap.groups[g]? = some (some G)) :
    step s (Op.view_view V false)
      = some { s with
          heap := { s.heap with
            groups := s.heap.groups.set g (some { G with ref_count := G.ref_count + 1 }) },
          views := s.views ++ [some (some g)] } := by
  simp [step, hV, view_ptr.view, view_ptr.copy, intrusive_ptr_add_ref_group, hG]

theorem step_view_copy_eq (s : State T) (V : Nat) :
    step s (Op.view_copy V) = step s (Op.view_view V false) := by
  simp only [step, view_ptr.view, if_true]

theorem view_write_exclusive (s : State T) (V g a : Nat) (G : group) (x : shared T)
    (hV : s.views[V]? = some (some (some g)))
    (hG : s.heap.groups[g]? = some (some G))
    (hp : G.p = some a)
    (hx : s.heap.objs[a]? = some (some x))
    (hu : ¬ 1 < x.use_count) :
    s.view_write V = some (s, some a) := by
  have hset : s.heap.groups.set g (some { G with p := some a }) = s.heap.groups := by
    apply set_self
    rw [hG, ← hp]
  simp only [State.view_write, hV, view_ptr.write, hG, group.write, hp,
    write_exclusive s.heap a x hx hu, hset]

/-- C6. Group sharing: for a non-empty shared-view `V1`, `V2 = V1.view(false)` (which is the
copy constructor) points at the same group as `V1`.  When the member handle of the group holds
the only reference to its payload, `V2.write()`, and likewise `V1.write()`, returns the
address `V1.get()` already had and leaves the state as it is, so that no payload is created;
a value stored through the returned pointer is read back through `V1` and through `V2`. -/
theorem C6_group_sharing (s : State T) (V1 g : Nat) (G : group)
    (hV : s.views[V1]? = some (some (some g)))
    (hG : s.heap.groups[g]? = some (some G)) :
    ∃ s1, step s (Op.view_view V1 false) = some s1 ∧
      step s (Op.view_copy V1) = some s1 ∧
      s1.views[V1]? = some (some (some g)) ∧
      s1.views[s.views.length]? = some (some (some g)) ∧
      ∀ (a : Nat) (x : shared T) (v : T),
        G.p = some a → s.heap.objs[a]? = some (some x) → x.ref_count = 1 →
        s.view_get V1 = some (some a) ∧
        s1.view_write s.views.length = some (s1, some a) ∧
        s1.view_write V1 = some (s1, some a) ∧
        s1.heap.live = s.heap.live ∧
        ∃ s2, s1.store (some a) v = some s2 ∧
          s2.view_read V1 = some v ∧ s2.view_read s.views.length = some v := by
  have hVl := lt_of_getElem? hV
  have hgl := lt_of_getElem? hG
  have hstep := step_view_copy s V1 g G hV hG
  refine ⟨_, hstep, (step_view_copy_eq s V1).trans hstep, ?_, ?_, ?_⟩
  · dsimp only
    rw [List.getElem?_append_left hVl]; exact hV
  · simp
  intro a x v hp hx h1
  have hu : ¬ 1 < x.use_count := by simp [shared.use_count, h1]
  have hal := lt_of_getElem? hx
  refine ⟨?_, ?_, ?_, rfl, ?_⟩
  · rw [view_get_eq s V1 g G hV hG, hp]
  · refine view_write_exclusive _ _ g a { G with ref_count := G.ref_count + 1 } x
      ?_ ?_ hp ?_ hu
    · simp
    · simp [hgl]
    · exact hx
  · refine view_write_exclusive _ _ g a { G with ref_count := G.ref_count + 1 } x
      ?_ ?_ hp ?_ hu
    · dsimp only
      rw [List.getElem?_append_left hVl]; exact hV
    · simp [hgl]
    · exact hx
  · refine ⟨_, state_store_live _ a x (by exact hx) v, ?_, ?_⟩
    · simp [State.view_read, State.view_get, List.getElem?_append_left hVl, hV, view_ptr.get,
        hgl, group.get, ptr.get, to_element_eq, hp, deref, hal]
    · simp [State.view_read, State.view_get, view_ptr.get,
        hgl, group.get, ptr.get, to_element_eq, hp, deref, hal]

/-- Witness of C6: the view of a freshly allocated value whose owning handle was destroyed. -/
theorem C6_group_sharing_witness :
    run State.empty [Op.allocate 7, Op.ptr_view 0, Op.ptr_destroy 0] = some viewOnly ∧
    ∃ s1, step viewOnly (Op.view_view 0 false) = some s1 ∧
      step viewOnly (Op.view_copy 0) = some s1 ∧
      s1.views[0]? = some (some (some 0)) ∧
      s1.views[viewOnly.views.length]? = some (some (some 0)) ∧
      viewOnly.view_get 0 = some (some 0) ∧
      s1.view_write viewOnly.views.length = some (s1, some 0) ∧
      s1.view_write 0 = some (s1, some 0) ∧
      s1.heap.live = viewOnly.heap.live ∧
      ∃ s2, s1.store (some 0) 9 = some s2 ∧
        s2.view_read 0 = some 9 ∧ s2.view_read viewOnly.views.length = some 9 :=
  ⟨rfl, (C6_group_sharing viewOnly 0 0 ⟨1, some 0⟩ rfl rfl).imp fun _ h =>
    ⟨h.1, h.2.1, h.2.2.1, h.2.2.2.1,
      h.2.2.2.2 0 { ref_count := 1, element := 7 } 9 rfl rfl rfl⟩⟩

theorem step_view_branch (s : State T) (V g : Nat) (G : group)
    (hV : s.views[V]? = some (some (some g)))
    (hG : s.heap.groups[g]? = some (some G)) :
    step s (Op.view_view V true)
      = some { s with
          heap := { objs := (intrusive_ptr_add_ref s.heap G.p).objs,
                    groups := s.heap.groups ++ [some { ref_count := 1, p := G.p }] },
          views := s.views ++ [some (some s.heap.groups.length)] } := by
  simp only [step, hV, view_new_group_eq s.heap g G hG]

theorem add_ref_live_count (h : Heap T) (p : Option Nat) :
    (intrusive_ptr_add_ref h p).live = h.live := by
  cases p with
  | none => rfl
  | some a =>
    cases hx : h.objs[a]? with
    | none => simp [intrusive_ptr_add_ref, hx]
    | some o =>
      cases o with
      | none => simp [intrusive_ptr_add_ref, hx]
      | some x =>
        rw [add_ref_live h a x hx]
        have := countP_set_add Option.isSome h.objs a (some x)
          (some { x with ref_count := x.ref_count + 1 }) hx
        simp only [Heap.live]
        simpa using this

/-- C8. Branching does not clone: for a non-empty shared-view `V1` with group `g`,
`V3 = V1.view(true)` points at a group created by the call and distinct from `g`, whose
member handle holds the pointer held by the member handle of `g`, so `V3.get() == V1.get()`;
the new group's count is 1, the group `g` is unchanged, the same payloads are alive, and the
count of the payload the groups refer to has increased by exactly one. -/
theorem C8_branching_does_not_clone (s : State T) (V1 g : Nat) (G : group)
    (hV : s.views[V1]? = some (some (some g)))
    (hG : s.heap.groups[g]? = some (some G)) :
    ∃ s1, step s (Op.view_view V1 true) = some s1 ∧
      s1.views[s.views.length]? = some (some (some s.heap.groups.length)) ∧
      s.heap.groups[s.heap.groups.length]? = none ∧
      s.heap.groups.length ≠ g ∧
      s1.views[V1]? = some (some (some g)) ∧
      s1.heap.groups[s.heap.groups.length]? = some (some { ref_count := 1, p := G.p }) ∧
      s1.view_get s.views.length = s1.view_get V1 ∧
      s1.view_get V1 = s.view_get V1 ∧
      s1.heap.groups[g]? = some (some G) ∧
      s1.heap.live = s.heap.live ∧
      (∀ a x, G.p = some a → s.heap.objs[a]? = some (some x) →
        s1.heap.objs[a]? = some (some { x with ref_count := x.ref_count + 1 })) := by
  have hVl := lt_of_getElem? hV
  have hgl := lt_of_getElem? hG
  have hV1 : (s.views ++ [some (some s.heap.groups.length)])[V1]? = some (some (some g)) := by
    rw [List.getElem?_append_left hVl]; exact hV
  have hG1 : (s.heap.groups ++ [some ({ ref_count := 1, p := G.p } : group)])[g]?
      = some (some G) := by
    rw [List.getElem?_append_left hgl]; exact hG
  have hG3 : (s.heap.groups ++ [some ({ ref_count := 1, p := G.p } : group)])[
      s.heap.groups.length]? = some (some { ref_count := 1, p := G.p }) := by
    simp
  refine ⟨_, step_view_branch s V1 g G hV hG, by simp, by simp, by omega, hV1, hG3,
    ?_, ?_, hG1, ?_, ?_⟩
  · rw [view_get_eq _ s.views.length s.heap.groups.length _ (by simp) hG3,
      view_get_eq _ V1 g G hV1 hG1]
  · rw [view_get_eq _ V1 g G hV1 hG1, view_get_eq s V1 g G hV hG]
  · exact add_ref_live_count s.heap G.p
  · intro a x hp hx
    rw [hp, add_ref_live s.heap a x hx]
    simp [lt_of_getElem? hx]

/-- Witness of C8: the view of a value allocated and still held by its owning handle. -/
theorem C8_branching_does_not_clone_witness :
    run State.empty [Op.allocate 7, Op.ptr_view 0] = some viewAndOwner ∧
    ∃ s1, step viewAndOwner (Op.view_view 0 true) = some s1 ∧
      s1.views[viewAndOwner.views.length]?
        = some (some (some viewAndOwner.heap.groups.length)) ∧
      viewAndOwner.heap.groups[viewAndOwner.heap.groups.length]? = none ∧
      viewAndOwner.heap.groups.length ≠ 0 ∧
      s1.views[0]? = some (some (some 0)) ∧
      s1.heap.groups[viewAndOwner.heap.groups.length]?
        = some (some { ref_count := 1, p := some 0 }) ∧
      s1.view_get viewAndOwner.views.length = s1.view_get 0 ∧
      s1.view_get 0 = viewAndOwner.view_get 0 ∧
      s1.heap.groups[0]? = some (some ⟨1, some 0⟩) ∧
      s1.heap.live = viewAndOwner.heap.live ∧
      s1.heap.objs[0]? = some (some { ref_count := 2 + 1, element := 7 }) :=
  ⟨rfl, (C8_branching_does_not_clone viewAndOwner 0 0 ⟨1, some 0⟩ rfl rfl).imp fun _ h =>
    ⟨h.1, h.2.1, h.2.2.1, h.2.2.2.1, h.2.2.2.2.1, h.2.2.2.2.2.1, h.2.2.2.2.2.2.1,
      h.2.2.2.2.2.2.2.1, h.2.2.2.2.2.2.2.2.1, h.2.2.2.2.2.2.2.2.2.1,
      h.2.2.2.2.2.2.2.2.2.2 0 { ref_count := 2, element := 7 } rfl rfl⟩⟩

/-! ## Shared views over a payload with many owning handles -/

theorem crowd_ptr_view (rc n : Nat) (v : T) (gs : List (Option group))
    (vs : List (Option (Option Nat))) (i : Nat) (hi : i < n) :
    step (crowd rc n v gs vs) (Op.ptr_view i)
      = some (crowd (rc + 1) n v (gs ++ [some { ref_count := 1, p := some 0 }])
          (vs ++ [some (some gs.length)])) := by
  simp only [step, crowd_ptr rc n v gs vs i hi, ptr_view_eq]
  simp [crowd, intrusive_ptr_add_ref]

theorem crowd_view_copy (rc n : Nat) (v : T) (gs : List (Option group))
    (vs : List (Option (Option Nat))) (V g : Nat) (G : group)
    (hV : vs[V]? = some (some (some g))) (hG : gs[g]? = some (some G)) :
    step (crowd rc n v gs vs) (Op.view_view V false)
      = some (crowd rc n v (gs.set g (some { G with ref_count := G.ref_count + 1 }))
          (vs ++ [some (some g)])) :=
  step_view_copy (crowd rc n v gs vs) V g G hV hG

theorem crowd_view_branch (rc n : Nat) (v : T) (gs : List (Option group))
    (vs : List (Option (Option Nat))) (V g : Nat) (G : group)
    (hV : vs[V]? = some (some (some g))) (hG : gs[g]? = some (some G)) (hp : G.p = some 0) :
    step (crowd rc n v gs vs) (Op.view_view V true)
      = some (crowd (rc + 1) n v (gs ++ [some { ref_count := 1, p := some 0 }])
          (vs ++ [some (some gs.length)])) := by
  rw [step_view_branch (crowd rc n v gs vs) V g G hV hG, hp]
  simp [crowd, intrusive_ptr_add_ref]

theorem crowd_view_cow (rc n : Nat) (v : T) (gs : List (Option group))
    (vs : List (Option (Option Nat))) (V g : Nat) (G : group)
    (hV : vs[V]? = some (some (some g))) (hG : gs[g]? = some (some G)) (hp : G.p = some 0) :
    step (crowd rc n v gs vs) (Op.view_cow V) = some (crowd (rc + 1) (n + 1) v gs vs) := by
  have hV1 : (crowd rc n v gs vs).views[V]? = some (some (some g)) := hV
  have hG1 : (crowd rc n v gs vs).heap.groups[g]? = some (some G) := hG
  simp only [step, hV1, view_ptr.cow, hG1, hp, ptr.copy]
  simp [crowd, intrusive_ptr_add_ref, List.replicate_succ']

theorem crowd_view_write (rc n : Nat) (v : T) (gs : List (Option group))
    (vs : List (Option (Option Nat))) (V g : Nat) (G : group)
    (hV : vs[V]? = some (some (some g))) (hG : gs[g]? = some (some G)) (hp : G.p = some 0)
    (hu : ¬ 1 < rc % 2 ^ 32) :
    (crowd rc n v gs vs).view_write V = some (crowd rc n v gs vs, some 0) :=
  view_write_exclusive (crowd rc n v gs vs) V g 0 G _ hV hG hp (crowd_obj rc n v gs vs) hu

theorem crowd_view_get (rc n : Nat) (v : T) (gs : List (Option group))
    (vs : List (Option (Option Nat))) (V g : Nat) (G : group)
    (hV : vs[V]? = some (some (some g))) (hG : gs[g]? = some (some G)) (hp : G.p = some 0) :
    (crowd rc n v gs vs).view_get V = some (some 0) := by
  rw [view_get_eq (crowd rc n v gs vs) V g G hV hG, hp]

theorem crowd_view_read (rc n : Nat) (v : T) (gs : List (Option group))
    (vs : List (Option (Option Nat))) (V g : Nat) (G : group)
    (hV : vs[V]? = some (some (some g))) (hG : gs[g]? = some (some G)) (hp : G.p = some 0) :
    (crowd rc n v gs vs).view_read V = some v := by
  simp only [State.view_read, crowd_view_get rc n v gs vs V g G hV hG hp]
  rfl

/-- Reaching a payload held by `1 + k` owning handles and then running further operations. -/
theorem crowd_then (v : T) (k : Nat) (ops : List (Op T)) :
    run (State.empty : State T) (Op.allocate v :: List.replicate k (Op.ptr_copy 0) ++ ops)
      = run (crowd (1 + k) (1 + k) v [] []) ops := by
  rw [run_append, crowd_reach]
  rfl

theorem c7_reach (v : T) (k : Nat) :
    run (State.empty : State T)
        (Op.allocate v :: List.replicate k (Op.ptr_copy 0)
          ++ [Op.ptr_view 0, Op.view_view 0 false])
      = some (crowd (1 + k + 1) (1 + k) v [some { ref_count := 2, p := some 0 }]
          [some (some 0), some (some 0)]) := by
  rw [crowd_then]
  simp only [run, crowd_ptr_view (1 + k) (1 + k) v [] [] 0 (by omega)]
  rw [crowd_view_copy _ _ v _ _ 0 0 { ref_count := 1, p := some 0 } rfl rfl]
  rfl

theorem c9_reach (v : T) (k : Nat) :
    run (State.empty : State T)
        (Op.allocate v :: List.replicate k (Op.ptr_copy 0)
          ++ [Op.ptr_view 0, Op.view_view 0 true, Op.view_view 1 false])
      = some (crowd (1 + k + 1 + 1) (1 + k) v
          [some { ref_count := 1, p := some 0 }, some { ref_count := 2, p := some 0 }]
          [some (some 0), some (some 1), some (some 1)]) := by
  rw [crowd_then]
  simp only [run, crowd_ptr_view (1 + k) (1 + k) v [] [] 0 (by omega)]
  rw [crowd_view_branch _ _ v _ _ 0 0 { ref_count := 1, p := some 0 } rfl rfl rfl]
  simp only []
  rw [crowd_view_copy _ _ v _ _ 1 1 { ref_count := 1, p := some 0 } rfl rfl]
  rfl

theorem c10_reach (v : T) (k : Nat) :
    run (State.empty : State T)
        (Op.allocate v :: List.replicate k (Op.ptr_copy 0) ++ [Op.ptr_view 0, Op.view_cow 0])
      = some (crowd (1 + k + 1 + 1) (1 + k + 1) v [some { ref_count := 1, p := some 0 }]
          [some (some 0)]) := by
  rw [crowd_then]
  simp only [run, crowd_ptr_view (1 + k) (1 + k) v [] [] 0 (by omega)]
  rw [crowd_view_cow _ _ v _ _ 0 0 { ref_count := 1, p := some 0 } rfl rfl rfl]
  rfl

/-- C7, at a payload held by `2^32` owning handles, one of them `P` (slot 0).  After
`V = P.view()` and `W = V.view(false)` the payload's counter is `2^32 + 1`, which
`use_count()` reports as 1: `W.write()` makes no clone, leaves the state as it is and returns
the address `P.get()` has, so that a value stored through the returned pointer is read
through `P` (9 instead of 7). -/
theorem C7_group_write_without_clone :
    run (State.empty : State Nat)
        (Op.allocate 7 :: List.replicate (2 ^ 32 - 1) (Op.ptr_copy 0)
          ++ [Op.ptr_view 0, Op.view_view 0 false])
      = some (crowd (2 ^ 32 + 1) (2 ^ 32) 7 [some { ref_count := 2, p := some 0 }]
          [some (some 0), some (some 0)]) ∧
    (crowd (2 ^ 32 + 1) (2 ^ 32) (7 : Nat) [some { ref_count := 2, p := some 0 }]
        [some (some 0), some (some 0)]).ptr_get 0 = some (some 0) ∧
    (crowd (2 ^ 32 + 1) (2 ^ 32) (7 : Nat) [some { ref_count := 2, p := some 0 }]
        [some (some 0), some (some 0)]).ptr_read 0 = some 7 ∧
    (crowd (2 ^ 32 + 1) (2 ^ 32) (7 : Nat) [some { ref_count := 2, p := some 0 }]
        [some (some 0), some (some 0)]).view_write 1
      = some (crowd (2 ^ 32 + 1) (2 ^ 32) 7 [some { ref_count := 2, p := some 0 }]
          [some (some 0), some (some 0)], some 0) ∧
    (crowd (2 ^ 32 + 1) (2 ^ 32) (7 : Nat) [some { ref_count := 2, p := some 0 }]
        [some (some 0), some (some 0)]).store (some 0) 9
      = some (crowd (2 ^ 32 + 1) (2 ^ 32) 9 [some { ref_count := 2, p := some 0 }]
          [some (some 0), some (some 0)]) ∧
    (crowd (2 ^ 32 + 1) (2 ^ 32) (9 : Nat) [some { ref_count := 2, p := some 0 }]
        [some (some 0), some (some 0)]).ptr_read 0 = some 9 :=
  ⟨c7_reach 7 (2 ^ 32 - 1),
    crowd_ptr_get _ _ 7 _ _ 0 (by decide),
    crowd_ptr_read _ _ 7 _ _ 0 (by decide),
    crowd_view_write _ _ 7 _ _ 1 0 { ref_count := 2, p := some 0 } rfl rfl rfl (by decide),
    crowd_store _ _ 7 9 _ _,
    crowd_ptr_read _ _ 9 _ _ 0 (by decide)⟩

/-- C9, at a payload held by `2^32 - 1` owning handles and by the group of the shared-view
`V1` (slot 0).  After `V3 = V1.view(true)` (slot 1) and `V4 = V3.view(false)` (slot 2) the
payload's counter is `2^32 + 1`, which `use_count()` reports as 1: `V3.write()` makes no
clone and leaves the state as it is, `V3.get()` stays equal to `V1.get()`, and a value
stored through the returned pointer is read through `V1` (9 instead of 7). -/
theorem C9_branch_write_without_clone :
    run (State.empty : State Nat)
        (Op.allocate 7 :: List.replicate (2 ^ 32 - 2) (Op.ptr_copy 0)
          ++ [Op.ptr_view 0, Op.view_view 0 true, Op.view_view 1 false])
      = some (crowd (2 ^ 32 + 1) (2 ^ 32 - 1) 7
          [some { ref_count := 1, p := some 0 }, some { ref_count := 2, p := some 0 }]
          [some (some 0), some (some 1), some (some 1)]) ∧
    (crowd (2 ^ 32 + 1) (2 ^ 32 - 1) (7 : Nat)
        [some { ref_count := 1, p := some 0 }, some { ref_count := 2, p := some 0 }]
        [some (some 0), some (some 1), some (some 1)]).view_write 1
      = some (crowd (2 ^ 32 + 1) (2 ^ 32 - 1) 7
          [some { ref_count := 1, p := some 0 }, some { ref_count := 2, p := some 0 }]
          [some (some 0), some (some 1), some (some 1)], some 0) ∧
    (crowd (2 ^ 32 + 1) (2 ^ 32 - 1) (7 : Nat)
        [some { ref_count := 1, p := some 0 }, some { ref_count := 2, p := some 0 }]
        [some (some 0), some (some 1), some (some 1)]).view_get 0 = some (some 0) ∧
    (crowd (2 ^ 32 + 1) (2 ^ 32 - 1) (7 : Nat)
        [some { ref_count := 1, p := some 0 }, some { ref_count := 2, p := some 0 }]
        [some (some 0), some (some 1), some (some 1)]).view_get 1 = some (some 0) ∧
    (crowd (2 ^ 32 + 1) (2 ^ 32 - 1) (7 : Nat)
        [some { ref_count := 1, p := some 0 }, some { ref_count := 2, p := some 0 }]
        [some (some 0), some (some 1), some (some 1)]).view_read 0 = some 7 ∧
    (crowd (2 ^ 32 + 1) (2 ^ 32 - 1) (7 : Nat)
        [some { ref_count := 1, p := some 0 }, some { ref_count := 2, p := some 0 }]
        [some (some 0), some (some 1), some (some 1)]).store (some 0) 9
      = some (crowd (2 ^ 32 + 1) (2 ^ 32 - 1) 9
          [some { ref_count := 1, p := some 0 }, some { ref_count := 2, p := some 0 }]
          [some (some 0), some (some 1), some (some 1)]) ∧
    (crowd (2 ^ 32 + 1) (2 ^ 32 - 1) (9 : Nat)
        [some { ref_count := 1, p := some 0 }, some { ref_count := 2, p := some 0 }]
        [some (some 0), some (some 1), some (some 1)]).view_read 0 = some 9 :=
  ⟨c9_reach 7 (2 ^ 32 - 2),
    crowd_view_write _ _ 7 _ _ 1 1 { ref_count := 2, p := some 0 } rfl rfl rfl (by decide),
    crowd_view_get _ _ 7 _ _ 0 0 { ref_count := 1, p := some 0 } rfl rfl rfl,
    crowd_view_get _ _ 7 _ _ 1 1 { ref_count := 2, p := some 0 } rfl rfl rfl,
    crowd_view_read _ _ 7 _ _ 0 0 { ref_count := 1, p := some 0 } rfl rfl rfl,
    crowd_store _ _ 7 9 _ _,
    crowd_view_read _ _ 9 _ _ 0 0 { ref_count := 1, p := some 0 } rfl rfl rfl⟩

/-- C10, at a payload held by `2^32 - 1` owning handles and by the group of the shared-view
`V` (slot 0).  `H = V.cow()` is the owning handle in slot `2^32 - 1`; the payload's counter is
then `2^32 + 1`, which `use_count()` reports as 1: `H.write()` makes no clone, leaves `H`
bound to the payload of the group and returns the address `V.get()` has, so that a value
stored through `H` is read through `V` (9 instead of 7). -/
theorem C10_cow_write_without_clone :
    run (State.empty : State Nat)
        (Op.allocate 7 :: List.replicate (2 ^ 32 - 2) (Op.ptr_copy 0)
          ++ [Op.ptr_view 0, Op.view_cow 0])
      = some (crowd (2 ^ 32 + 1) (2 ^ 32) 7 [some { ref_count := 1, p := some 0 }]
          [some (some 0)]) ∧
    (crowd (2 ^ 32 + 1) (2 ^ 32) (7 : Nat) [some { ref_count := 1, p := some 0 }]
        [some (some 0)]).ptr_get (2 ^ 32 - 1) = some (some 0) ∧
    (crowd (2 ^ 32 + 1) (2 ^ 32) (7 : Nat) [some { ref_count := 1, p := some 0 }]
        [some (some 0)]).view_get 0 = some (some 0) ∧
    (crowd (2 ^ 32 + 1) (2 ^ 32) (7 : Nat) [some { ref_count := 1, p := some 0 }]
        [some (some 0)]).view_read 0 = some 7 ∧
    (crowd (2 ^ 32 + 1) (2 ^ 32) (7 : Nat) [some { ref_count := 1, p := some 0 }]
        [some (some 0)]).ptr_write (2 ^ 32 - 1)
      = some (crowd (2 ^ 32 + 1) (2 ^ 32) 7 [some { ref_count := 1, p := some 0 }]
          [some (some 0)], some 0) ∧
    (crowd (2 ^ 32 + 1) (2 ^ 32) (7 : Nat) [some { ref_count := 1, p := some 0 }]
        [some (some 0)]).store (some 0) 9
      = some (crowd (2 ^ 32 + 1) (2 ^ 32) 9 [some { ref_count := 1, p := some 0 }]
          [some (some 0)]) ∧
    (crowd (2 ^ 32 + 1) (2 ^ 32) (9 : Nat) [some { ref_count := 1, p := some 0 }]
        [some (some 0)]).view_read 0 = some 9 :=
  ⟨c10_reach 7 (2 ^ 32 - 2),
    crowd_ptr_get _ _ 7 _ _ (2 ^ 32 - 1) (by decide),
    crowd_view_get _ _ 7 _ _ 0 0 { ref_count := 1, p := some 0 } rfl rfl rfl,
    crowd_view_read _ _ 7 _ _ 0 0 { ref_count := 1, p := some 0 } rfl rfl rfl,
    crowd_write _ _ 7 _ _ (2 ^ 32 - 1) (by decide) (by decide),
    crowd_store _ _ 7 9 _ _,
    crowd_view_read _ _ 9 _ _ 0 0 { ref_count := 1, p := some 0 } rfl rfl rfl⟩

/-! ## Writes through a group and through a detached handle -/

theorem view_write_shared (s : State T) (V g a : Nat) (G : group) (x : shared T)
    (hV : s.views[V]? = some (some (some g)))
    (hG : s.heap.groups[g]? = some (some G))
    (hp : G.p = some a)
    (hx : s.heap.objs[a]? = some (some x))
    (hu : 1 < x.use_count) :
    s.view_write V
      = some ({ s with
                heap := {
                  objs := s.heap.objs.set a (some { x with ref_count := x.ref_count - 1 })
                    ++ [some { ref_count := 1, element := x.element }],
                  groups := s.heap.groups.set g (some { G with p := some s.heap.objs.length }) } },
              some s.heap.objs.length) := by
  simp only [State.view_write, hV, view_ptr.write, hG, group.write, hp,
    write_shared s.heap a x hx hu]

theorem view_read_eq (s : State T) (V g a : Nat) (G : group) (x : shared T)
    (hV : s.views[V]? = some (some (some g)))
    (hG : s.heap.groups[g]? = some (some G))
    (hp : G.p = some a)
    (hx : s.heap.objs[a]? = some (some x)) :
    s.view_read V = some x.element := by
  simp only [State.view_read, view_get_eq s V g G hV hG, hp, deref, hx]

theorem ptr_get_eq (s : State T) (P : Nat) (p : Option Nat)
    (hP : s.ptrs[P]? = some (some p)) : s.ptr_get P = some p := by
  simp only [State.ptr_get, hP, ptr.get, to_element_eq]

theorem ptr_read_eq (s : State T) (P a : Nat) (x : shared T)
    (hP : s.ptrs[P]? = some (some (some a)))
    (hx : s.heap.objs[a]? = some (some x)) :
    s.ptr_read P = some x.element := by
  simp only [State.ptr_read, ptr_get_eq s P _ hP, deref, hx]

/-- Clone on a shared write through a group, whenever `use_count()` reports more than one
reference to the payload `a` of the group `g`: `W.write()` on a shared-view `W` of `g`
creates one payload `q`, rebinds the member handle of `g` to it and returns its address; every
shared-view `V` of `g` then has `V.get() == q` and reads a value stored through the returned
pointer; the old payload stays alive with its value, its count decreased by one, and the
owning handles and the other groups are as they were. -/
theorem group_clone_on_shared_write (s : State T) (W g a : Nat) (G : group) (x : shared T)
    (hW : s.views[W]? = some (some (some g)))
    (hG : s.heap.groups[g]? = some (some G))
    (hp : G.p = some a)
    (hx : s.heap.objs[a]? = some (some x))
    (hu : 1 < x.use_count) (v : T) :
    ∃ s1 q s2, s.view_write W = some (s1, some q) ∧
      s.heap.objs[q]? = none ∧ q ≠ a ∧
      s1.heap.live = s.heap.live + 1 ∧
      (∀ V, s.views[V]? = some (some (some g)) → s1.view_get V = some (some q)) ∧
      s1.heap.objs[a]? = some (some { x with ref_count := x.ref_count - 1 }) ∧
      s1.ptrs = s.ptrs ∧ s1.views = s.views ∧
      (∀ g1, g1 ≠ g → s1.heap.groups[g1]? = s.heap.groups[g1]?) ∧
      s1.store (some q) v = some s2 ∧
      (∀ V, s.views[V]? = some (some (some g)) → s2.view_read V = some v) ∧
      s2.heap.objs[a]? = some (some { x with ref_count := x.ref_count - 1 }) ∧
      s2.ptrs = s.ptrs ∧ s2.views = s.views ∧
      (∀ g1, g1 ≠ g → s2.heap.groups[g1]? = s.heap.groups[g1]?) := by
  have hal := lt_of_getElem? hx
  have hgl := lt_of_getElem? hG
  have hne : a ≠ s.heap.objs.length := by omega
  have hq : (s.heap.objs.set a (some { x with ref_count := x.ref_count - 1 })
      ++ [some ({ ref_count := 1, element := x.element } : shared T)])[s.heap.objs.length]?
      = some (some { ref_count := 1, element := x.element }) := by
    simp [List.getElem?_append_right]
  have ha : (s.heap.objs.set a (some { x with ref_count := x.ref_count - 1 })
      ++ [some ({ ref_count := 1, element := x.element } : shared T)])[a]?
      = some (some { x with ref_count := x.ref_count - 1 }) := by
    rw [List.getElem?_append_left (by simpa using hal)]
    simp [hal]
  have hG1 : (s.heap.groups.set g (some { G with p := some s.heap.objs.length }))[g]?
      = some (some { G with p := some s.heap.objs.length }) := by
    simp [hgl]
  have hgs : ∀ g1, g1 ≠ g →
      (s.heap.groups.set g (some { G with p := some s.heap.objs.length }))[g1]?
        = s.heap.groups[g1]? := fun g1 hg1 => List.getElem?_set_ne (Ne.symm hg1)
  refine ⟨_, s.heap.objs.length, _, view_write_shared s W g a G x hW hG hp hx hu,
    by simp, by omega, live_after_clone s.heap.objs a x _ _ hx, ?_, ha, rfl, rfl, hgs,
    state_store_live _ _ _ (by exact hq) v, ?_, ?_, rfl, rfl, hgs⟩
  · intro V hV
    rw [view_get_eq _ V g _ (by exact hV) hG1]
  · intro V hV
    refine view_read_eq _ V g s.heap.objs.length _ { ref_count := 1, element := v }
      (by exact hV) (by exact hG1) rfl ?_
    simp
  · dsimp only
    rw [List.getElem?_set_ne (Ne.symm hne)]
    exact ha

theorem group_clone_on_shared_write_witness :
    ∃ s1 q s2, (crowd 2 1 (7 : Nat) [some ⟨1, some 0⟩] [some (some 0)]).view_write 0
        = some (s1, some q) ∧
      (crowd 2 1 (7 : Nat) [some ⟨1, some 0⟩] [some (some 0)]).heap.objs[q]? = none ∧ q ≠ 0 ∧
      s1.heap.live = (crowd 2 1 (7 : Nat) [some ⟨1, some 0⟩] [some (some 0)]).heap.live + 1 ∧
      (∀ V, (crowd 2 1 (7 : Nat) [some ⟨1, some 0⟩] [some (some 0)]).views[V]?
          = some (some (some 0)) → s1.view_get V = some (some q)) ∧
      s1.heap.objs[0]? = some (some { ref_count := 2 - 1, element := 7 }) ∧
      s1.ptrs = (crowd 2 1 (7 : Nat) [some ⟨1, some 0⟩] [some (some 0)]).ptrs ∧
      s1.views = (crowd 2 1 (7 : Nat) [some ⟨1, some 0⟩] [some (some 0)]).views ∧
      (∀ g1, g1 ≠ 0 → s1.heap.groups[g1]?
        = (crowd 2 1 (7 : Nat) [some ⟨1, some 0⟩] [some (some 0)]).heap.groups[g1]?) ∧
      s1.store (some q) 9 = some s2 ∧
      (∀ V, (crowd 2 1 (7 : Nat) [some ⟨1, some 0⟩] [some (some 0)]).views[V]?
          = some (some (some 0)) → s2.view_read V = some 9) ∧
      s2.heap.objs[0]? = some (some { ref_count := 2 - 1, element := 7 }) ∧
      s2.ptrs = (crowd 2 1 (7 : Nat) [some ⟨1, some 0⟩] [some (some 0)]).ptrs ∧
      s2.views = (crowd 2 1 (7 : Nat) [some ⟨1, some 0⟩] [some (some 0)]).views ∧
      (∀ g1, g1 ≠ 0 → s2.heap.groups[g1]?
        = (crowd 2 1 (7 : Nat) [some ⟨1, some 0⟩] [some (some 0)]).heap.groups[g1]?) :=
  group_clone_on_shared_write (crowd 2 1 (7 : Nat) [some ⟨1, some 0⟩] [some (some 0)]) 0 0 0
    ⟨1, some 0⟩ { ref_count := 2, element := 7 } rfl rfl rfl rfl (by decide) 9

theorem getElem?_snoc_snoc_left {α : Type} (l : List α) (a b : α) :
    (l ++ [a] ++ [b])[l.length]? = some a := by
  rw [List.getElem?_append_left (by simp)]
  simp

theorem getElem?_snoc_snoc_right {α : Type} (l : List α) (a b : α) :
    (l ++ [a] ++ [b])[l.length + 1]? = some b := by
  rw [List.getElem?_append_right (by simp)]
  simp

theorem step_ptr_view (s : State T) (P a : Nat) (x : shared T)
    (hP : s.ptrs[P]? = some (some (some a)))
    (hx : s.heap.objs[a]? = some (some x)) :
    step s (Op.ptr_view P)
      = some { s with
          heap := { objs := s.heap.objs.set a (some { x with ref_count := x.ref_count + 1 }),
                    groups := s.heap.groups ++ [some { ref_count := 1, p := some a }] },
          views := s.views ++ [some (some s.heap.groups.length)] } := by
  simp only [step, hP, ptr_view_eq, add_ref_live s.heap a x hx]

theorem use_count_succ {x : shared T} (h0 : 0 < x.ref_count) (hlt : x.ref_count + 1 < 2 ^ 32) :
    1 < ({ x with ref_count := x.ref_count + 1 } : shared T).use_count := by
  rw [use_count_of_lt (by exact hlt)]
  show 1 < x.ref_count + 1
  omega

/-- Group write when the payload is shared outside the group, for a payload with fewer than
`2^32 - 1` references: in a reachable state with a non-empty owning handle `P`, after
`V = P.view()` and `W = V.view(false)` the call `W.write()` creates one payload `q` and
rebinds the group to it; `V.get() == W.get() == q` and both read a value stored through the
returned pointer, while `P.get()` and the value read through `P` are as before. -/
theorem group_write_isolated_from_owner (ops : List (Op T)) (s : State T)
    (hr : run State.empty ops = some s) (P a : Nat) (x : shared T)
    (hP : s.ptrs[P]? = some (some (some a)))
    (hx : s.heap.objs[a]? = some (some x))
    (hlt : x.ref_count + 1 < 2 ^ 32) (v : T) :
    ∃ s1 s2 s3 q s4,
      step s (Op.ptr_view P) = some s1 ∧
      step s1 (Op.view_view s.views.length false) = some s2 ∧
      s2.view_write (s.views.length + 1) = some (s3, some q) ∧
      s3.heap.live = s2.heap.live + 1 ∧
      s3.view_get s.views.length = some (some q) ∧
      s3.view_get (s.views.length + 1) = some (some q) ∧
      s.ptr_get P = some (some a) ∧ s3.ptr_get P = some (some a) ∧ q ≠ a ∧
      s3.store (some q) v = some s4 ∧
      s4.view_read s.views.length = some v ∧
      s4.view_read (s.views.length + 1) = some v ∧
      s.ptr_read P = some x.element ∧ s4.ptr_read P = some x.element := by
  have hinv := Inv_run ops Inv_empty hr
  have h0 : 0 < x.ref_count := by
    have := hinv.ptr_live hP a rfl
    simpa [rcObj, hx] using this
  have hal := lt_of_getElem? hx
  obtain ⟨s1, hs1, hp1, hv1, hg1, ho1⟩ : ∃ s1 : State T, step s (Op.ptr_view P) = some s1 ∧
      s1.ptrs = s.ptrs ∧ s1.views = s.views ++ [some (some s.heap.groups.length)] ∧
      s1.heap.groups = s.heap.groups ++ [some { ref_count := 1, p := some a }] ∧
      s1.heap.objs = s.heap.objs.set a (some { x with ref_count := x.ref_count + 1 }) :=
    ⟨_, step_ptr_view s P a x hP hx, rfl, rfl, rfl, rfl⟩
  have hV1 : s1.views[s.views.length]? = some (some (some s.heap.groups.length)) := by
    rw [hv1]; simp
  have hG1 : s1.heap.groups[s.heap.groups.length]? = some (some { ref_count := 1, p := some a }) := by
    rw [hg1]; simp
  obtain ⟨s2, hs2, hp2, hv2, hg2, ho2⟩ : ∃ s2 : State T,
      step s1 (Op.view_view s.views.length false) = some s2 ∧
      s2.ptrs = s1.ptrs ∧ s2.views = s1.views ++ [some (some s.heap.groups.length)] ∧
      s2.heap.groups = s1.heap.groups.set s.heap.groups.length
        (some { ref_count := 1 + 1, p := some a }) ∧
      s2.heap.objs = s1.heap.objs :=
    ⟨_, step_view_copy s1 _ _ _ hV1 hG1, rfl, rfl, rfl, rfl⟩
  have hV2 : s2.views[s.views.length]? = some (some (some s.heap.groups.length)) := by
    rw [hv2, hv1]; exact getElem?_snoc_snoc_left _ _ _
  have hW2 : s2.views[s.views.length + 1]? = some (some (some s.heap.groups.length)) := by
    rw [hv2, hv1]; exact getElem?_snoc_snoc_right _ _ _
  have hG2 : s2.heap.groups[s.heap.groups.length]?
      = some (some { ref_count := 1 + 1, p := some a }) := by
    rw [hg2, hg1]; simp
  have hx2 : s2.heap.objs[a]? = some (some { x with ref_count := x.ref_count + 1 }) := by
    rw [ho2, ho1]; simp [hal]
  have hP2 : s2.ptrs[P]? = some (some (some a)) := by rw [hp2, hp1]; exact hP
  obtain ⟨s3, q, s4, e1, _, e3, e4, e5, e6, e7, _, _, e10, e11, e12, e13, _, _⟩ :=
    group_clone_on_shared_write s2 (s.views.length + 1) s.heap.groups.length a
      { ref_count := 1 + 1, p := some a } { x with ref_count := x.ref_count + 1 }
      hW2 hG2 rfl hx2 (use_count_succ h0 hlt) v
  refine ⟨s1, s2, s3, q, s4, hs1, hs2, e1, e4, e5 _ hV2, e5 _ hW2, ptr_get_eq s P _ hP,
    ptr_get_eq s3 P _ (by rw [e7]; exact hP2), e3, e10, e11 _ hV2, e11 _ hW2,
    ptr_read_eq s P a x hP hx, ?_⟩
  exact ptr_read_eq s4 P a _ (by rw [e13]; exact hP2) e12

theorem group_write_isolated_from_owner_witness :
    ∃ s1 s2 s3 q s4,
      step (crowd 1 1 (7 : Nat) [] []) (Op.ptr_view 0) = some s1 ∧
      step s1 (Op.view_view (crowd 1 1 (7 : Nat) [] []).views.length false) = some s2 ∧
      s2.view_write ((crowd 1 1 (7 : Nat) [] []).views.length + 1) = some (s3, some q) ∧
      s3.heap.live = s2.heap.live + 1 ∧
      s3.view_get (crowd 1 1 (7 : Nat) [] []).views.length = some (some q) ∧
      s3.view_get ((crowd 1 1 (7 : Nat) [] []).views.length + 1) = some (some q) ∧
      (crowd 1 1 (7 : Nat) [] []).ptr_get 0 = some (some 0) ∧
      s3.ptr_get 0 = some (some 0) ∧ q ≠ 0 ∧
      s3.store (some q) 9 = some s4 ∧
      s4.view_read (crowd 1 1 (7 : Nat) [] []).views.length = some 9 ∧
      s4.view_read ((crowd 1 1 (7 : Nat) [] []).views.length + 1) = some 9 ∧
      (crowd 1 1 (7 : Nat) [] []).ptr_read 0 = some 7 ∧ s4.ptr_read 0 = some 7 :=
  group_write_isolated_from_owner [Op.allocate 7] (crowd 1 1 (7 : Nat) [] []) rfl 0 0
    { ref_count := 1, element := 7 } rfl rfl (by decide) 9

/-- Divergence after branching, for a payload with fewer than `2^32 - 1` references: in a
reachable state with a shared-view `V1` whose group holds payload `a`, after
`V3 = V1.view(true)` and `V4 = V3.view(false)` the call `V3.write()` creates one payload `q`;
`V3.get() == V4.get() == q` and both read a value stored through the returned pointer, while
`V1.get()` is the old address, different from `q`, and `V1` reads the old value. -/
theorem branch_write_diverges (ops : List (Op T)) (s : State T)
    (hr : run State.empty ops = some s) (V1 g a : Nat) (G : group) (x : shared T)
    (hV : s.views[V1]? = some (some (some g)))
    (hG : s.heap.groups[g]? = some (some G))
    (hp : G.p = some a)
    (hx : s.heap.objs[a]? = some (some x))
    (hlt : x.ref_count + 1 < 2 ^ 32) (v : T) :
    ∃ s1 s2 s3 q s4,
      step s (Op.view_view V1 true) = some s1 ∧
      step s1 (Op.view_view s.views.length false) = some s2 ∧
      s2.view_write s.views.length = some (s3, some q) ∧
      s3.heap.live = s2.heap.live + 1 ∧
      s3.view_get s.views.length = some (some q) ∧
      s3.view_get (s.views.length + 1) = some (some q) ∧
      s.view_get V1 = some (some a) ∧ s3.view_get V1 = some (some a) ∧ q ≠ a ∧
      s3.store (some q) v = some s4 ∧
      s4.view_read s.views.length = some v ∧
      s4.view_read (s.views.length + 1) = some v ∧
      s.view_read V1 = some x.element ∧ s4.view_read V1 = some x.element := by
  have hinv := Inv_run ops Inv_empty hr
  have h0 : 0 < x.ref_count := by
    have := hinv.grp_live g G a hG hp
    simpa [rcObj, hx] using this
  have hal := lt_of_getElem? hx
  have hgl := lt_of_getElem? hG
  have hVl := lt_of_getElem? hV
  have hgne : g ≠ s.heap.groups.length := by omega
  obtain ⟨s1, hs1, hv1, hg1, ho1⟩ : ∃ s1 : State T, step s (Op.view_view V1 true) = some s1 ∧
      s1.views = s.views ++ [some (some s.heap.groups.length)] ∧
      s1.heap.groups = s.heap.groups ++ [some { ref_count := 1, p := some a }] ∧
      s1.heap.objs = s.heap.objs.set a (some { x with ref_count := x.ref_count + 1 }) := by
    refine ⟨_, step_view_branch s V1 g G hV hG, rfl, ?_, ?_⟩
    · simp only [hp]
    · simp only [hp, add_ref_live s.heap a x hx]
  have hV31 : s1.views[s.views.length]? = some (some (some s.heap.groups.length)) := by
    rw [hv1]; simp
  have hG31 : s1.heap.groups[s.heap.groups.length]?
      = some (some { ref_count := 1, p := some a }) := by
    rw [hg1]; simp
  obtain ⟨s2, hs2, hv2, hg2, ho2⟩ : ∃ s2 : State T,
      step s1 (Op.view_view s.views.length false) = some s2 ∧
      s2.views = s1.views ++ [some (some s.heap.groups.length)] ∧
      s2.heap.groups = s1.heap.groups.set s.heap.groups.length
        (some { ref_count := 1 + 1, p := some a }) ∧
      s2.heap.objs = s1.heap.objs :=
    ⟨_, step_view_copy s1 _ _ _ hV31 hG31, rfl, rfl, rfl⟩
  have hV3 : s2.views[s.views.length]? = some (some (some s.heap.groups.length)) := by
    rw [hv2, hv1]; exact getElem?_snoc_snoc_left _ _ _
  have hV4 : s2.views[s.views.length + 1]? = some (some (some s.heap.groups.length)) := by
    rw [hv2, hv1]; exact getElem?_snoc_snoc_right _ _ _
  have hV12 : s2.views[V1]? = some (some (some g)) := by
    rw [hv2, hv1, List.append_assoc, List.getElem?_append_left hVl]; exact hV
  have hG2 : s2.heap.groups[s.heap.groups.length]?
      = some (some { ref_count := 1 + 1, p := some a }) := by
    rw [hg2, hg1]; simp
  have hG12 : s2.heap.groups[g]? = some (some G) := by
    rw [hg2, hg1, List.getElem?_set_ne (Ne.symm hgne), List.getElem?_append_left hgl]
    exact hG
  have hx2 : s2.heap.objs[a]? = some (some { x with ref_count := x.ref_count + 1 }) := by
    rw [ho2, ho1]; simp [hal]
  obtain ⟨s3, q, s4, e1, _, e3, e4, e5, e6, _, e8, e9, e10, e11, e12, _, e14, e15⟩ :=
    group_clone_on_shared_write s2 s.views.length s.heap.groups.length a
      { ref_count := 1 + 1, p := some a } { x with ref_count := x.ref_count + 1 }
      hV3 hG2 rfl hx2 (use_count_succ h0 hlt) v
  have hG13 : s3.heap.groups[g]? = some (some G) := by rw [e9 g hgne]; exact hG12
  have hG14 : s4.heap.groups[g]? = some (some G) := by rw [e15 g hgne]; exact hG12
  refine ⟨s1, s2, s3, q, s4, hs1, hs2, e1, e4, e5 _ hV3, e5 _ hV4, ?_, ?_, e3, e10,
    e11 _ hV3, e11 _ hV4, view_read_eq s V1 g a G x hV hG hp hx, ?_⟩
  · rw [view_get_eq s V1 g G hV hG, hp]
  · rw [view_get_eq s3 V1 g G (by rw [e8]; exact hV12) hG13, hp]
  · exact view_read_eq s4 V1 g a G _ (by rw [e14]; exact hV12) hG14 hp e12

theorem branch_write_diverges_witness :
    ∃ s1 s2 s3 q s4,
      step (crowd 2 1 (7 : Nat) [some ⟨1, some 0⟩] [some (some 0)]) (Op.view_view 0 true)
        = some s1 ∧
      step s1 (Op.view_view
        (crowd 2 1 (7 : Nat) [some ⟨1, some 0⟩] [some (some 0)]).views.length false) = some s2 ∧
      s2.view_write (crowd 2 1 (7 : Nat) [some ⟨1, some 0⟩] [some (some 0)]).views.length
        = some (s3, some q) ∧
      s3.heap.live = s2.heap.live + 1 ∧
      s3.view_get (crowd 2 1 (7 : Nat) [some ⟨1, some 0⟩] [some (some 0)]).views.length
        = some (some q) ∧
      s3.view_get ((crowd 2 1 (7 : Nat) [some ⟨1, some 0⟩] [some (some 0)]).views.length + 1)
        = some (some q) ∧
      (crowd 2 1 (7 : Nat) [some ⟨1, some 0⟩] [some (some 0)]).view_get 0 = some (some 0) ∧
      s3.view_get 0 = some (some 0) ∧ q ≠ 0 ∧
      s3.store (some q) 9 = some s4 ∧
      s4.view_read (crowd 2 1 (7 : Nat) [some ⟨1, some 0⟩] [some (some 0)]).views.length
        = some 9 ∧
      s4.view_read ((crowd 2 1 (7 : Nat) [some ⟨1, some 0⟩] [some (some 0)]).views.length + 1)
        = some 9 ∧
      (crowd 2 1 (7 : Nat) [some ⟨1, some 0⟩] [some (some 0)]).view_read 0 = some 7 ∧
      s4.view_read 0 = some 7 :=
  branch_write_diverges [Op.allocate 7, Op.ptr_view 0]
    (crowd 2 1 (7 : Nat) [some ⟨1, some 0⟩] [some (some 0)]) rfl 0 0 0 ⟨1, some 0⟩
    { ref_count := 2, element := 7 } rfl rfl rfl rfl (by decide) 9

theorem step_view_cow (s : State T) (V g a : Nat) (G : group) (x : shared T)
    (hV : s.views[V]? = some (some (some g)))
    (hG : s.heap.groups[g]? = some (some G))
    (hp : G.p = some a)
    (hx : s.heap.objs[a]? = some (some x)) :
    step s (Op.view_cow V)
      = some { s with
          heap := { s.heap with
            objs := s.heap.objs.set a (some { x with ref_count := x.ref_count + 1 }) },
          ptrs := s.ptrs ++ [some (some a)] } := by
  simp only [step, hV, view_ptr.cow, hG, hp, ptr.copy, add_ref_live s.heap a x hx]

/-- The handle returned by `cow()` is detached from the group, for a payload with fewer than
`2^32 - 1` references: in a reachable state with a shared-view `V` whose group holds payload
`a`, `H = V.cow()` is an owning handle with `H.get() == V.get()`; no payload is created and
the count of `a` has increased by one.  The following `H.write()` creates one payload `q` and
rebinds `H` to it; a value stored through `H` is read through `H`, while every shared-view of
the group of `V` keeps its address and its value. -/
theorem cow_detaches (ops : List (Op T)) (s : State T)
    (hr : run State.empty ops = some s) (V g a : Nat) (G : group) (x : shared T)
    (hV : s.views[V]? = some (some (some g)))
    (hG : s.heap.groups[g]? = some (some G))
    (hp : G.p = some a)
    (hx : s.heap.objs[a]? = some (some x))
    (hlt : x.ref_count + 1 < 2 ^ 32) (v : T) :
    ∃ s1 s2 q s3,
      step s (Op.view_cow V) = some s1 ∧
      s1.ptr_get s.ptrs.length = some (some a) ∧
      s.view_get V = some (some a) ∧
      s1.heap.live = s.heap.live ∧
      s1.heap.objs[a]? = some (some { x with ref_count := x.ref_count + 1 }) ∧
      s1.ptr_write s.ptrs.length = some (s2, some q) ∧
      s2.heap.live = s1.heap.live + 1 ∧
      s2.ptr_get s.ptrs.length = some (some q) ∧ q ≠ a ∧
      s2.store (some q) v = some s3 ∧
      s3.ptr_read s.ptrs.length = some v ∧
      (∀ W, s.views[W]? = some (some (some g)) →
        s.view_read W = some x.element ∧
        s3.view_get W = some (some a) ∧ s3.view_read W = some x.element) := by
  have hinv := Inv_run ops Inv_empty hr
  have h0 : 0 < x.ref_count := by
    have := hinv.grp_live g G a hG hp
    simpa [rcObj, hx] using this
  have hal := lt_of_getElem? hx
  have hne : a ≠ s.heap.objs.length := by omega
  obtain ⟨s1, hs1, hp1, hv1, hg1, ho1⟩ : ∃ s1 : State T, step s (Op.view_cow V) = some s1 ∧
      s1.ptrs = s.ptrs ++ [some (some a)] ∧ s1.views = s.views ∧
      s1.heap.groups = s.heap.groups ∧
      s1.heap.objs = s.heap.objs.set a (some { x with ref_count := x.ref_count + 1 }) :=
    ⟨_, step_view_cow s V g a G x hV hG hp hx, rfl, rfl, rfl, rfl⟩
  have hH1 : s1.ptrs[s.ptrs.length]? = some (some (some a)) := by rw [hp1]; simp
  have hx1 : s1.heap.objs[a]? = some (some { x with ref_count := x.ref_count + 1 }) := by
    rw [ho1]; simp [hal]
  have hl1 : s1.heap.objs.length = s.heap.objs.length := by rw [ho1]; simp
  have hlive1 : s1.heap.live = s.heap.live := by
    have := countP_set_add Option.isSome s.heap.objs a (some x)
      (some { x with ref_count := x.ref_count + 1 }) hx
    simp only [Heap.live, ho1]
    simpa using this
  obtain ⟨s2, hw, hp2, hv2, hg2, ho2⟩ : ∃ s2 : State T,
      s1.ptr_write s.ptrs.length = some (s2, some s.heap.objs.length) ∧
      s2.ptrs = s1.ptrs.set s.ptrs.length (some (some s.heap.objs.length)) ∧
      s2.views = s1.views ∧ s2.heap.groups = s1.heap.groups ∧
      s2.heap.objs = s1.heap.objs.set a (some { x with ref_count := x.ref_count + 1 - 1 })
        ++ [some { ref_count := 1, element := x.element }] := by
    refine ⟨{ s1 with
        heap := { s1.heap with
          objs := s1.heap.objs.set a (some { x with ref_count := x.ref_count + 1 - 1 })
            ++ [some { ref_count := 1, element := x.element }] },
        ptrs := s1.ptrs.set s.ptrs.length (some (some s.heap.objs.length)) },
      ?_, rfl, rfl, rfl, rfl⟩
    rw [ptr_write_shared s1 _ a _ hH1 hx1 (use_count_succ h0 hlt), hl1]
  have hlive2 : s2.heap.live = s1.heap.live + 1 := by
    simp only [Heap.live, ho2]
    exact live_after_clone s1.heap.objs a _ _ _ hx1
  have hH2 : s2.ptrs[s.ptrs.length]? = some (some (some s.heap.objs.length)) := by
    rw [hp2, hp1]; simp
  have hq2 : s2.heap.objs[s.heap.objs.length]?
      = some (some { ref_count := 1, element := x.element }) := by
    rw [ho2, List.getElem?_append_right (by simp [hl1])]
    simp [hl1]
  have ha2 : s2.heap.objs[a]?
      = some (some { x with ref_count := x.ref_count + 1 - 1 }) := by
    rw [ho2, List.getElem?_append_left (by simp [hl1, hal])]
    simp [hl1, hal]
  obtain ⟨s3, hst, hp3, hv3, hg3, ho3⟩ : ∃ s3 : State T,
      s2.store (some s.heap.objs.length) v = some s3 ∧
      s3.ptrs = s2.ptrs ∧ s3.views = s2.views ∧ s3.heap.groups = s2.heap.groups ∧
      s3.heap.objs = s2.heap.objs.set s.heap.objs.length
        (some { ref_count := 1, element := v }) :=
    ⟨_, state_store_live s2 _ _ hq2 v, rfl, rfl, rfl, rfl⟩
  have hq3 : s3.heap.objs[s.heap.objs.length]? = some (some { ref_count := 1, element := v }) := by
    rw [ho3]
    simp [lt_of_getElem? hq2]
  have ha3 : s3.heap.objs[a]?
      = some (some { x with ref_count := x.ref_count + 1 - 1 }) := by
    rw [ho3, List.getElem?_set_ne (Ne.symm hne)]; exact ha2
  refine ⟨s1, s2, s.heap.objs.length, s3, hs1, ptr_get_eq s1 _ _ hH1, ?_, hlive1, hx1, hw,
    hlive2, ptr_get_eq s2 _ _ hH2, by omega, hst, ?_, ?_⟩
  · rw [view_get_eq s V g G hV hG, hp]
  · exact ptr_read_eq s3 _ _ _ (by rw [hp3]; exact hH2) hq3
  · intro W hW
    have hW3 : s3.views[W]? = some (some (some g)) := by rw [hv3, hv2, hv1]; exact hW
    have hG3 : s3.heap.groups[g]? = some (some G) := by rw [hg3, hg2, hg1]; exact hG
    refine ⟨view_read_eq s W g a G x hW hG hp hx, ?_, view_read_eq s3 W g a G _ hW3 hG3 hp ha3⟩
    rw [view_get_eq s3 W g G hW3 hG3, hp]

theorem cow_detaches_witness :
    ∃ s1 s2 q s3,
      step (crowd 2 1 (7 : Nat) [some ⟨1, some 0⟩] [some (some 0)]) (Op.view_cow 0) = some s1 ∧
      s1.ptr_get (crowd 2 1 (7 : Nat) [some ⟨1, some 0⟩] [some (some 0)]).ptrs.length
        = some (some 0) ∧
      (crowd 2 1 (7 : Nat) [some ⟨1, some 0⟩] [some (some 0)]).view_get 0 = some (some 0) ∧
      s1.heap.live = (crowd 2 1 (7 : Nat) [some ⟨1, some 0⟩] [some (some 0)]).heap.live ∧
      s1.heap.objs[0]? = some (some { ref_count := 2 + 1, element := 7 }) ∧
      s1.ptr_write (crowd 2 1 (7 : Nat) [some ⟨1, some 0⟩] [some (some 0)]).ptrs.length
        = some (s2, some q) ∧
      s2.heap.live = s1.heap.live + 1 ∧
      s2.ptr_get (crowd 2 1 (7 : Nat) [some ⟨1, some 0⟩] [some (some 0)]).ptrs.length
        = some (some q) ∧ q ≠ 0 ∧
      s2.store (some q) 9 = some s3 ∧
      s3.ptr_read (crowd 2 1 (7 : Nat) [some ⟨1, some 0⟩] [some (some 0)]).ptrs.length
        = some 9 ∧
      (∀ W, (crowd 2 1 (7 : Nat) [some ⟨1, some 0⟩] [some (some 0)]).views[W]?
          = some (some (some 0)) →
        (crowd 2 1 (7 : Nat) [some ⟨1, some 0⟩] [some (some 0)]).view_read W = some 7 ∧
        s3.view_get W = some (some 0) ∧ s3.view_read W = some 7) :=
  cow_detaches [Op.allocate 7, Op.ptr_view 0]
    (crowd 2 1 (7 : Nat) [some ⟨1, some 0⟩] [some (some 0)]) rfl 0 0 0 ⟨1, some 0⟩
    { ref_count := 2, element := 7 } rfl rfl rfl rfl (by decide) 9

/-! ## Empty handles and move assignment -/

/-- C13. Empty handles: a default-constructed owning handle and a default-constructed
shared-view both convert to `false` and return a null pointer from `get()`; `write()` on an
empty owning handle returns null and changes neither the heap nor the handle.  In a program
state: the handle made by the default constructor is empty, `get()` on it is null, and
`write()` on it returns null and leaves the state as it is, so that no payload is created. -/
theorem C13_empty_handles (s : State T) :
    ptr.toBool ptr.default = false ∧
    ptr.get ptr.default = none ∧
    view_ptr.toBool view_ptr.default = false ∧
    (∀ h : Heap T, view_ptr.get h view_ptr.default = none) ∧
    (∀ h : Heap T, ptr.write h ptr.default = (h, ptr.default, none)) ∧
    (∃ s1, step s Op.ptr_default = some s1 ∧
      s1.ptrs[s.ptrs.length]? = some (some ptr.default) ∧
      s1.ptr_get s.ptrs.length = some none ∧
      s1.ptr_write s.ptrs.length = some (s1, none) ∧
      s1.heap = s.heap) ∧
    (∃ s2, step s Op.view_default = some s2 ∧
      s2.views[s.views.length]? = some (some view_ptr.default) ∧
      s2.view_get s.views.length = some none ∧
      s2.heap = s.heap) := by
  refine ⟨rfl, rfl, rfl, fun _ => rfl, fun _ => rfl, ⟨_, rfl, ?_, ?_, ?_, rfl⟩,
    ⟨_, rfl, ?_, ?_, rfl⟩⟩
  · simp [ptr.default]
  · simp [State.ptr_get, ptr.get, to_element]
  · have hset : (s.ptrs ++ [some none]).set s.ptrs.length (some none)
        = s.ptrs ++ [some (none : Option Nat)] :=
      set_self _ _ _ (by simp)
    simp [State.ptr_write, ptr.write, hset]
  · simp [view_ptr.default]
  · simp [State.view_get, view_ptr.get]

/-- C14, as stated, fails when the target is not empty: after `p1 = std::move(p2)` with `p1`
(slot 0) bound to payload 0 and `p2` (slot 1) bound to payload 1, the handle `p2` is bound to
payload 0 and converts to `true`. -/
theorem C14_move_assign_source_not_empty :
    run (State.empty : State Nat) [Op.allocate 7, Op.allocate 8, Op.ptr_move_assign 0 1]
      = some { heap := { objs := [some { ref_count := 1, element := 7 },
                                   some { ref_count := 1, element := 8 }],
                         groups := [] },
               ptrs := [some (some 1), some (some 0)],
               views := [] } ∧
    ptr.toBool (some 0) = true := by
  constructor <;> rfl

/-- C14, amended. Move assignment swaps its operands: for distinct owning handles `p1` and
`p2`, after `p1 = std::move(p2)` the handle `p1` holds what `p2` held before and `p2` holds
what `p1` held before, so that `p2` is empty exactly when `p1` was; the heap, and with it every
reference count, is unchanged. -/
theorem C14_move_assign_swaps (s : State T) (p1 p2 : Nat) (a b : Option Nat)
    (h1 : s.ptrs[p1]? = some (some a))
    (h2 : s.ptrs[p2]? = some (some b))
    (hne : p1 ≠ p2) :
    ∃ s1, step s (Op.ptr_move_assign p1 p2) = some s1 ∧
      s1.ptrs[p1]? = some (some b) ∧
      s1.ptrs[p2]? = some (some a) ∧
      s1.heap = s.heap ∧
      (ptr.toBool a = false → s1.ptrs[p2]? = some (some ptr.default)) := by
  have hl1 := lt_of_getElem? h1
  have hl2 := lt_of_getElem? h2
  refine ⟨{ s with ptrs := (s.ptrs.set p1 (some b)).set p2 (some a) },
    by simp only [step, h1, h2], ?_, ?_, rfl, ?_⟩
  · dsimp only
    rw [List.getElem?_set_ne (Ne.symm hne)]
    simp [hl1]
  · simp [hl2]
  · intro ha
    cases a with
    | none => simp [hl2, ptr.default]
    | some x => simp [ptr.toBool] at ha

/-- Witness of the amended C14: two owning handles of two payloads. -/
theorem C14_move_assign_swaps_witness :
    run State.empty [Op.allocate 7, Op.allocate 8] = some twoOwners ∧
    ∃ s1, step twoOwners (Op.ptr_move_assign 0 1) = some s1 ∧
      s1.ptrs[0]? = some (some (some 1)) ∧
      s1.ptrs[1]? = some (some (some 0)) ∧
      s1.heap = twoOwners.heap ∧
      (ptr.toBool (some 0) = false → s1.ptrs[1]? = some (some ptr.default)) :=
  ⟨rfl, C14_move_assign_swaps twoOwners 0 1 (some 0) (some 1) rfl rfl (by decide)⟩

/-! ## The narrowed counter -/

/-- C20, at the counter values `2^32` and `2^32 + 1`: `use_count()` reports 0 and 1 instead
of the counter, and `write()` on a handle of the payload reached by one allocation and `2^32`
copies, whose counter is `2^32 + 1 > 1`, takes the branch without a clone: it returns the
address of the shared payload and leaves the heap and the handle as they were. -/
theorem C20_use_count_narrows :
    ({ ref_count := 2 ^ 32, element := 7 } : shared Nat).use_count = 0 ∧
    ({ ref_count := 1 + 2 ^ 32, element := 7 } : shared Nat).use_count = 1 ∧
    run (State.empty : State Nat) (Op.allocate 7 :: List.replicate (2 ^ 32) (Op.ptr_copy 0))
      = some (crowd (1 + 2 ^ 32) (1 + 2 ^ 32) 7 [] []) ∧
    (crowd (1 + 2 ^ 32) (1 + 2 ^ 32) (7 : Nat) [] []).heap.objs[0]?
      = some (some { ref_count := 1 + 2 ^ 32, element := 7 }) ∧
    ptr.write (crowd (1 + 2 ^ 32) (1 + 2 ^ 32) (7 : Nat) [] []).heap (some 0)
      = ((crowd (1 + 2 ^ 32) (1 + 2 ^ 32) (7 : Nat) [] []).heap, some 0, some 0) :=
  ⟨by decide, by decide, crowd_reach 7 (2 ^ 32), rfl,
    write_exclusive _ 0 _ (crowd_obj _ _ 7 [] []) (by decide)⟩

/-- The exclusivity check below `2^32` references: `use_count()` returns the counter, and
`write()` clones exactly when the counter is greater than 1. -/
theorem use_count_exact (h : Heap T) (a : Nat) (x : shared T)
    (hx : h.objs[a]? = some (some x)) (hlt : x.ref_count < 2 ^ 32) :
    x.use_count = x.ref_count ∧
    (1 < x.ref_count → (ptr.write h (some a)).2.1 = some h.objs.length ∧
      (ptr.write h (some a)).1.live = h.live + 1) ∧
    (¬ 1 < x.ref_count → ptr.write h (some a) = (h, some a, some a)) := by
  have hu := use_count_of_lt hlt
  refine ⟨hu, fun h1 => ?_, fun h1 => write_exclusive h a x hx (by rw [hu]; exact h1)⟩
  rw [write_shared h a x hx (by rw [hu]; exact h1)]
  exact ⟨rfl, live_after_clone h.objs a x _ _ hx⟩

theorem use_count_exact_witness :
    ({ ref_count := 2, element := 7 } : shared Nat).use_count = 2 ∧
    (1 < 2 → (ptr.write (crowd 2 2 (7 : Nat) [] []).heap (some 0)).2.1
        = some (crowd 2 2 (7 : Nat) [] []).heap.objs.length ∧
      (ptr.write (crowd 2 2 (7 : Nat) [] []).heap (some 0)).1.live
        = (crowd 2 2 (7 : Nat) [] []).heap.live + 1) ∧
    (¬ 1 < 2 → ptr.write (crowd 2 2 (7 : Nat) [] []).heap (some 0)
      = ((crowd 2 2 (7 : Nat) [] []).heap, some 0, some 0)) :=
  use_count_exact (crowd 2 2 (7 : Nat) [] []).heap 0 { ref_count := 2, element := 7 } rfl
    (by decide)

/-! ## Arrays: destruction order, alignment, block size -/

theorem dtor_loop_eq (e : Nat) (n fuel : Nat) (hf : n < fuel) :
    shared_array.dtor_loop e fuel (e + n) = (List.range n).reverse := by
  induction n generalizing fuel with
  | zero =>
    cases fuel with
    | zero => omega
    | succ fuel => simp [shared_array.dtor_loop]
  | succ n ih =>
    cases fuel with
    | zero => omega
    | succ fuel =>
      have hne : e + (n + 1) ≠ e := by omega
      have h1 : e + (n + 1) - 1 = e + n := by omega
      have h2 : e + n - e = n := by omega
      simp only [shared_array.dtor_loop, hne, ne_eq, not_false_eq_true, if_true, h1, h2,
        ih fuel (by omega), List.range_succ, List.reverse_append, List.reverse_cons,
        List.reverse_nil, List.nil_append, List.singleton_append]

/-- C19. Array destruction order: for an array payload with `N` elements whose storage starts
at `e`, the destructor of the payload runs the element destructor on the indices
`N - 1, N - 2, ..., 0` in this order, so exactly once on each index below `N` and on no other;
for `N = 0` it runs no element destructor. -/
theorem C19_array_destruction_order (e N : Nat) :
    shared_array.dtor e N = (List.range N).reverse ∧
    (shared_array.dtor e N).Nodup ∧
    (∀ i, i ∈ shared_array.dtor e N ↔ i < N) ∧
    (∀ i, i < N → (shared_array.dtor e N)[i]? = some (N - 1 - i)) ∧
    shared_array.dtor e 0 = [] := by
  have h : ∀ n, shared_array.dtor e n = (List.range n).reverse :=
    fun n => dtor_loop_eq e n (n + 1) (Nat.lt_succ_self n)
  refine ⟨h N, ?_, ?_, ?_, ?_⟩
  · rw [h N]
    exact List.nodup_reverse.2 (List.nodup_range N)
  · intro i
    rw [h N]
    simp
  · intro i hi
    rw [h N, List.getElem?_reverse (by simpa using hi)]
    simp only [List.length_range]
    rw [List.getElem?_range (by omega)]
  · rw [h 0]
    rfl

theorem getArray_ge (L : Layout) (b : Nat) : b + L.sizeof_header ≤ getArray L b := by
  unfold getArray
  dsimp only
  split_ifs <;> omega

theorem getArray_le (L : Layout) (b : Nat) (ha : 0 < L.alignof_T) :
    getArray L b ≤ b + L.sizeof_header
      + (if L.alignof_T ≠ L.alignof_header then L.alignof_T - 1 else 0) := by
  unfold getArray
  dsimp only
  have hm := Nat.mod_lt (b + L.sizeof_header) ha
  split_ifs <;> omega

/-- C18. Element storage alignment: for a block start `b` and a header size that are multiples
of the header's alignment and a positive element alignment `a` (every power of two is one),
`getArray()` returns the smallest address `s` with `s >= b + h` and `s mod a == 0`, and
`s - (b + h)` is at most `a - 1`. -/
theorem C18_element_storage_alignment (L : Layout) (b : Nat)
    (hb : b % L.alignof_header = 0)
    (hh : L.sizeof_header % L.alignof_header = 0)
    (ha : 0 < L.alignof_T) :
    b + L.sizeof_header ≤ getArray L b ∧
    getArray L b % L.alignof_T = 0 ∧
    (∀ t, b + L.sizeof_header ≤ t → t % L.alignof_T = 0 → getArray L b ≤ t) ∧
    getArray L b - (b + L.sizeof_header) ≤ L.alignof_T - 1 := by
  have hge := getArray_ge L b
  have hm := Nat.mod_lt (b + L.sizeof_header) ha
  have hdiv := Nat.div_add_mod (b + L.sizeof_header) L.alignof_T
  refine ⟨hge, ?_, ?_, ?_⟩
  · unfold getArray
    dsimp only
    split_ifs with h1 h2
    · have : b + L.sizeof_header + (L.alignof_T - (b + L.sizeof_header) % L.alignof_T)
          = L.alignof_T * ((b + L.sizeof_header) / L.alignof_T + 1) := by
        rw [Nat.mul_add, Nat.mul_one]
        omega
      rw [this]
      exact Nat.mul_mod_right _ _
    · exact not_not.1 h2
    · have h3 : L.alignof_T = L.alignof_header := not_not.1 h1
      rw [h3, Nat.add_mod, hb, hh]
      simp
  · intro t ht htm
    unfold getArray
    dsimp only
    split_ifs with h1 h2
    · by_contra hlt
      have hlt2 : t < b + L.sizeof_header
          + (L.alignof_T - (b + L.sizeof_header) % L.alignof_T) := by omega
      have htd := Nat.div_add_mod t L.alignof_T
      rw [htm] at htd
      have hq : (b + L.sizeof_header) / L.alignof_T < t / L.alignof_T := by
        by_contra hc
        have hc2 : t / L.alignof_T ≤ (b + L.sizeof_header) / L.alignof_T := by omega
        have := Nat.mul_le_mul_left L.alignof_T hc2
        omega
      have hq2 : (b + L.sizeof_header) / L.alignof_T + 1 ≤ t / L.alignof_T := hq
      have := Nat.mul_le_mul_left L.alignof_T hq2
      rw [Nat.mul_add, Nat.mul_one] at this
      omega
    · exact ht
    · exact ht
  · have := getArray_le L b ha
    split_ifs at this <;> omega

/-- Witness of C18: over-aligned elements behind a header of 24 bytes; the first element of
the block at 4096 is at 4128. -/
theorem C18_element_storage_alignment_witness :
    getArray layoutWide 4096 = 4128 ∧
    (4096 + layoutWide.sizeof_header ≤ getArray layoutWide 4096 ∧
    getArray layoutWide 4096 % layoutWide.alignof_T = 0 ∧
    (∀ t, 4096 + layoutWide.sizeof_header ≤ t → t % layoutWide.alignof_T = 0 →
      getArray layoutWide 4096 ≤ t) ∧
    getArray layoutWide 4096 - (4096 + layoutWide.sizeof_header) ≤ layoutWide.alignof_T - 1) :=
  ⟨by decide, C18_element_storage_alignment layoutWide 4096 (by decide) (by decide)
    (by decide)⟩

theorem alloc_sz_of_fit (L : Layout) (N : Nat)
    (hfit : L.sizeof_header + N * L.sizeof_T
      + (if L.alignof_T ≠ L.alignof_header then L.alignof_T - 1 else 0) < 2 ^ 64) :
    alloc_sz L N = L.sizeof_header + N * L.sizeof_T
      + (if L.alignof_T ≠ L.alignof_header then L.alignof_T - 1 else 0) := by
  unfold alloc_sz
  have h1 : N * L.sizeof_T < 2 ^ 64 := by omega
  rw [Nat.mod_eq_of_lt h1]
  have h2 : L.sizeof_header + N * L.sizeof_T < 2 ^ 64 := by omega
  rw [Nat.mod_eq_of_lt h2, Nat.mod_eq_of_lt hfit]

/-- The array block is large enough whenever the size computation does not wrap: if
`sizeof(header) + N*sizeof(T) + padding` is below `2^64`, the byte count passed to
`operator new` is at least the offset of `getArray()` in the block plus `N*sizeof(T)`. -/
theorem block_large_enough (L : Layout) (b N : Nat) (ha : 0 < L.alignof_T)
    (hfit : L.sizeof_header + N * L.sizeof_T
      + (if L.alignof_T ≠ L.alignof_header then L.alignof_T - 1 else 0) < 2 ^ 64) :
    getArray L b - b + N * L.sizeof_T ≤ alloc_sz L N := by
  rw [alloc_sz_of_fit L N hfit]
  have := getArray_le L b ha
  omega

theorem block_large_enough_witness :
    getArray layoutInt 4096 - 4096 + 2 * layoutInt.sizeof_T ≤ alloc_sz layoutInt 2 :=
  block_large_enough layoutInt 4096 2 (by decide) (by decide)

theorem allocate_outside_block {E A : Type} (L : Layout) (b : Nat)
    (h : Heap (shared_array E)) (N : Nat) (has_args trivially : Bool)
    (construct : A → E × A) (args : A)
    (hc : (has_args || !trivially) = true)
    (hbad : ¬ getArray L b - b + N * L.sizeof_T ≤ alloc_sz L N) :
    shared_array.allocate L b h N has_args trivially construct args = none := by
  simp only [shared_array.allocate, hc, if_true, hbad, if_false]

/-- C17, at `N = 2^62` elements of `shared_array<int>`: `N*sizeof(T)` is `2^64`, which is 0 in
`size_t` arithmetic, so the byte count passed to `operator new` is 27, while the elements
start at offset 24 of the block and take `2^64` bytes; `allocate(N, 0)` then constructs
elements outside the block. -/
theorem C17_block_too_small :
    alloc_sz layoutInt (2 ^ 62) = 27 ∧
    getArray layoutInt 4096 - 4096 = 24 ∧
    (2 : Nat) ^ 62 * layoutInt.sizeof_T = 2 ^ 64 ∧
    ¬ (getArray layoutInt 4096 - 4096 + 2 ^ 62 * layoutInt.sizeof_T
        ≤ alloc_sz layoutInt (2 ^ 62)) ∧
    shared_array.allocate layoutInt 4096 (({ objs := [], groups := [] }) : Heap (shared_array Nat))
        (2 ^ 62) true true (fun a : Nat => (a, a)) 0 = none :=
  ⟨by decide, by decide, by decide, by decide,
    allocate_outside_block layoutInt 4096 _ (2 ^ 62) true true _ 0 rfl (by decide)⟩

/-! ## No leak, no early destruction -/

theorem count_eq_zero_of_no_index {α : Type} [BEq α] [LawfulBEq α] (l : List α) (x : α)
    (h : ∀ i : Nat, l[i]? ≠ some x) : l.count x = 0 := by
  rw [List.count_eq_zero]
  intro hm
  obtain ⟨i, hi⟩ := List.mem_iff_getElem?.1 hm
  exact h i hi

theorem countP_isSome_eq_zero {α : Type} (l : List (Option α))
    (h : ∀ (i : Nat) (x : α), l[i]? ≠ some (some x)) : l.countP Option.isSome = 0 := by
  rw [List.countP_eq_zero]
  intro o ho hs
  obtain ⟨i, hi⟩ := List.mem_iff_getElem?.1 ho
  cases o with
  | none => simp at hs
  | some x => exact h i x hi

theorem grpRefs_eq_zero (l : List (Option group)) (a : Nat)
    (h : ∀ (i : Nat) (x : group), l[i]? ≠ some (some x)) : grpRefs l a = 0 := by
  unfold grpRefs
  rw [List.count_eq_zero]
  intro hm
  obtain ⟨o, ho, hp⟩ := List.mem_map.1 hm
  obtain ⟨i, hi⟩ := List.mem_iff_getElem?.1 ho
  cases o with
  | none => simp at hp
  | some x => exact h i x hi

theorem Inv.obj_alive_iff {s : State T} (hinv : Inv s) (a : Nat) :
    (∃ x, s.heap.objs[a]? = some (some x)) ↔ 0 < s.owners a := by
  have ho : rcObj s.heap.objs a = s.owners a := hinv.obj a
  constructor
  · rintro ⟨x, hx⟩
    have := hinv.objPos a x hx
    simp only [rcObj, hx] at ho
    omega
  · intro hpos
    obtain ⟨x, hx, _⟩ := live_of_rcObj_pos (by rw [ho]; exact hpos)
    exact ⟨x, hx⟩

theorem Inv.grp_alive_iff {s : State T} (hinv : Inv s) (g : Nat) :
    (∃ x, s.heap.groups[g]? = some (some x)) ↔ 0 < s.viewers g := by
  have ho : rcGrp s.heap.groups g = s.viewers g := hinv.grp g
  constructor
  · rintro ⟨x, hx⟩
    have := hinv.grpPos g x hx
    simp only [rcGrp, hx] at ho
    omega
  · intro hpos
    obtain ⟨x, hx, _⟩ := live_of_rcGrp_pos (by rw [ho]; exact hpos)
    exact ⟨x, hx⟩

/-- No leak and no early destruction as long as no operation throws: in every state reached by
operations that all return, a payload is alive exactly when an owning handle or a group alive
refers to it, and a group is alive exactly when a shared-view refers to it; consequently, when
no owning handle and no shared-view holds a pointer any more (every handle has been destroyed,
or is empty), no payload and no group is alive. -/
theorem no_leak_without_exception (ops : List (Op T)) (s : State T)
    (hr : run State.empty ops = some s) :
    (∀ a, (∃ x, s.heap.objs[a]? = some (some x)) ↔ 0 < s.owners a) ∧
    (∀ g, (∃ x, s.heap.groups[g]? = some (some x)) ↔ 0 < s.viewers g) ∧
    ((∀ i a : Nat, s.ptrs[i]? ≠ some (some (some a))) →
      (∀ i g : Nat, s.views[i]? ≠ some (some (some g))) →
      s.heap.live = 0 ∧ s.heap.liveGroups = 0) := by
  have hinv := Inv_run ops Inv_empty hr
  refine ⟨hinv.obj_alive_iff, hinv.grp_alive_iff, fun hp hv => ?_⟩
  have hg : ∀ (g : Nat) (x : group), s.heap.groups[g]? ≠ some (some x) := by
    intro g x hx
    have h1 := (hinv.grp_alive_iff g).1 ⟨x, hx⟩
    have h2 : s.viewers g = 0 := count_eq_zero_of_no_index s.views _ (fun i => hv i g)
    omega
  have ho : ∀ (a : Nat) (x : shared T), s.heap.objs[a]? ≠ some (some x) := by
    intro a x hx
    have h1 := (hinv.obj_alive_iff a).1 ⟨x, hx⟩
    have h2 : s.ptrs.count (some (some a)) = 0 :=
      count_eq_zero_of_no_index s.ptrs _ (fun i => hp i a)
    have h3 := grpRefs_eq_zero s.heap.groups a hg
    have h4 : s.owners a = s.ptrs.count (some (some a)) + grpRefs s.heap.groups a := rfl
    omega
  exact ⟨countP_isSome_eq_zero _ ho, countP_isSome_eq_zero _ hg⟩

/-- A payload and a group are alive until the last handle is destroyed. -/
theorem no_leak_without_exception_witness :
    run State.empty [Op.allocate 7, Op.ptr_view 0, Op.ptr_destroy 0] = some viewOnly ∧
    viewOnly.heap.live = 1 ∧ viewOnly.heap.liveGroups = 1 ∧
    run State.empty [Op.allocate 7, Op.ptr_view 0, Op.ptr_destroy 0, Op.view_destroy 0]
      = some allGone ∧
    (∀ a, (∃ x, allGone.heap.objs[a]? = some (some x)) ↔ 0 < allGone.owners a) ∧
    (∀ g, (∃ x, allGone.heap.groups[g]? = some (some x)) ↔ 0 < allGone.viewers g) ∧
    allGone.heap.live = 0 ∧ allGone.heap.liveGroups = 0 :=
  have h := no_leak_without_exception
    ([Op.allocate 7, Op.ptr_view 0, Op.ptr_destroy 0, Op.view_destroy 0] : List (Op Nat))
    allGone rfl
  ⟨rfl, rfl, rfl, rfl, h.1, h.2.1,
    h.2.2 (fun i a => by cases i <;> simp [allGone]) (fun i g => by cases i <;> simp [allGone])⟩

/-! ## A clone that fails -/

theorem write_try_error (alloc : Heap T → T → Except (Heap T) (Heap T × Option Nat))
    (h : Heap T) (a : Nat) (x : shared T) (hx : h.objs[a]? = some (some x))
    (hu : 1 < x.use_count) (h1 : Heap T) (hf : alloc h x.element = Except.error h1) :
    ptr.write_try alloc h (some a) = Except.error (h1, some a) := by
  simp only [ptr.write_try, hx, gt_iff_lt, hu, if_true, hf]

theorem write_try_error_inv (alloc : Heap T → T → Except (Heap T) (Heap T × Option Nat))
    (h : Heap T) (a : Nat) (x : shared T) (hx : h.objs[a]? = some (some x))
    (e : Heap T × Option Nat) (he : ptr.write_try alloc h (some a) = Except.error e) :
    1 < x.use_count ∧ ∃ h1, alloc h x.element = Except.error h1 ∧ e = (h1, some a) := by
  simp only [ptr.write_try, hx, gt_iff_lt] at he
  split_ifs at he with hu
  · refine ⟨hu, ?_⟩
    cases hf : alloc h x.element with
    | error h1 =>
      rw [hf] at he
      simp only [Except.error.injEq] at he
      exact ⟨h1, rfl, he.symm⟩
    | ok r =>
      rw [hf] at he
      cases he

/-- A `write()` whose allocation does not throw is the `write()` without exceptions. -/
theorem write_try_ok (h : Heap T) (p : Option Nat) :
    ptr.write_try (fun h v => allocate_try h v false) h p = Except.ok (ptr.write h p) := by
  unfold ptr.write_try ptr.write
  cases p with
  | none => rfl
  | some a =>
    dsimp only
    split
    · simp only [allocate_try, Bool.false_eq_true, if_false]
      split_ifs <;> rfl
    · rfl

theorem clone_try_frame {E : Type} (h : Heap (shared_array E)) (r : shared_array E)
    (fail : Option Nat) (h1 : Heap (shared_array E))
    (hf : shared_array.allocate_clone_try h r fail = Except.error h1)
    (a : Nat) (o : Option (shared (shared_array E))) (ha : h.objs[a]? = some o) :
    h1.objs[a]? = some o := by
  cases fail with
  | none =>
    simp only [shared_array.allocate_clone_try, Except.error.injEq] at hf
    subst hf
    exact ha
  | some k =>
    simp only [shared_array.allocate_clone_try, new_BASE, Except.error.injEq] at hf
    subst hf
    dsimp only
    rw [List.getElem?_append_left (lt_of_getElem? ha)]
    exact ha

theorem clone_try_fails {E : Type} (h : Heap (shared_array E)) (r : shared_array E)
    (fail : Option Nat) :
    ∃ h1, shared_array.allocate_clone_try h r fail = Except.error h1 := by
  cases fail with
  | none => exact ⟨_, rfl⟩
  | some k => exact ⟨_, rfl⟩

/-- C16. Atomicity of a failed clone.  For a payload built by `new BASE(...)` and for an
array payload alike: whenever an exception leaves `write()` on a non-empty owning handle, the
handle still refers to the original payload and the payload has the count and the contents it
had; and when `write()` attempts the clone (`use_count()` reports more than one reference) and
the allocation or a constructor throws, the exception does leave `write()`.  For an array whose
element copy throws, the block of the unfinished clone stays allocated. -/
theorem C16_failed_clone_is_atomic {E : Type} (h : Heap T) (a : Nat) (x : shared T)
    (hx : h.objs[a]? = some (some x))
    (hA : Heap (shared_array E)) (b : Nat) (y : shared (shared_array E))
    (hy : hA.objs[b]? = some (some y)) (fail : Option Nat) :
    (∀ e, ptr.write_try (fun h v => allocate_try h v true) h (some a) = Except.error e →
      e = (h, some a)) ∧
    (1 < x.use_count →
      ptr.write_try (fun h v => allocate_try h v true) h (some a) = Except.error (h, some a)) ∧
    (∀ e, ptr.write_try (fun h r => shared_array.allocate_clone_try h r fail) hA (some b)
        = Except.error e →
      e.2 = some b ∧ e.1.objs[b]? = some (some y)) ∧
    (1 < y.use_count →
      ∃ h1, ptr.write_try (fun h r => shared_array.allocate_clone_try h r fail) hA (some b)
          = Except.error (h1, some b) ∧
        h1.objs[b]? = some (some y)) := by
  refine ⟨fun e he => ?_, fun hu => ?_, fun e he => ?_, fun hu => ?_⟩
  · obtain ⟨_, h1, hf, rfl⟩ := write_try_error_inv _ h a x hx e he
    simp only [allocate_try, if_true, Except.error.injEq] at hf
    rw [hf]
  · exact write_try_error _ h a x hx hu h rfl
  · obtain ⟨_, h1, hf, rfl⟩ := write_try_error_inv _ hA b y hy e he
    exact ⟨rfl, clone_try_frame hA y.element fail h1 hf b _ hy⟩
  · obtain ⟨h1, hf⟩ := clone_try_fails hA y.element fail
    exact ⟨h1, write_try_error _ hA b y hy hu h1 hf, clone_try_frame hA y.element fail h1 hf b _ hy⟩

/-- Witness of C16: a value and an array of two elements, each held by two owning handles;
the copy of the second array element throws. -/
theorem C16_failed_clone_is_atomic_witness :
    ptr.write_try (fun h v => allocate_try h v true)
        (crowd 2 2 (7 : Nat) [] []).heap (some 0)
      = Except.error ((crowd 2 2 (7 : Nat) [] []).heap, some 0) ∧
    ∃ h1, ptr.write_try (fun h r => shared_array.allocate_clone_try h r (some 1))
          (crowd 2 2 pairArray [] []).heap (some 0)
        = Except.error (h1, some 0) ∧
      h1.objs[0]? = some (some ⟨2, pairArray⟩) :=
  have w := C16_failed_clone_is_atomic (crowd 2 2 (7 : Nat) [] []).heap 0 ⟨2, 7⟩ rfl
    (crowd 2 2 pairArray [] []).heap 0 ⟨2, pairArray⟩ rfl (some 1)
  ⟨w.2.1 (by decide), w.2.2.2 (by decide)⟩

/-! ## Array allocation and array clone -/

theorem copy_loop_eq {E : Type} (src : List (Option E)) (n i : Nat)
    (h : i + n ≤ src.length) :
    shared_array.copy_loop src n i = (src.drop i).take n := by
  induction n generalizing i with
  | zero => simp [shared_array.copy_loop]
  | succ n ih =>
    have hi : i < src.length := by omega
    rw [shared_array.copy_loop, ih (i + 1) (by omega), List.getElem?_eq_getElem hi,
      List.drop_eq_getElem_cons hi, List.take_succ_cons]
    rfl

theorem copy_loop_all {E : Type} (src : List (Option E)) :
    shared_array.copy_loop src src.length 0 = src := by
  rw [copy_loop_eq src src.length 0 (by omega)]
  simp

theorem construct_loop_length {E A : Type} (construct : A → E × A) (n : Nat) (args : A) :
    (shared_array.construct_loop construct n args).length = n := by
  induction n generalizing args with
  | zero => rfl
  | succ n ih => simp [shared_array.construct_loop, ih]

theorem construct_loop_pure {E A : Type} (construct : A → E × A) (n : Nat) (args : A)
    (hpure : (construct args).2 = args) :
    shared_array.construct_loop construct n args
      = List.replicate n (some (construct args).1) := by
  induction n with
  | zero => rfl
  | succ n ih => rw [shared_array.construct_loop, hpure, ih, List.replicate_succ]

theorem construct_loop_mem {E A : Type} (construct : A → E × A) (n : Nat) (args : A)
    (o : Option E) (hm : o ∈ shared_array.construct_loop construct n args) :
    ∃ v, o = some v := by
  induction n generalizing args with
  | zero => simp [shared_array.construct_loop] at hm
  | succ n ih =>
    simp only [shared_array.construct_loop, List.mem_cons] at hm
    rcases hm with hm | hm
    · exact ⟨_, hm⟩
    · exact ih _ hm

theorem allocate_unconstructed_eq {E : Type} (h : Heap (shared_array E)) (N : Nat) :
    shared_array.allocate_unconstructed h N
      = ({ h with objs := h.objs ++ [some ⟨1, ⟨N, List.replicate N none⟩⟩] },
          some h.objs.length) := by
  rw [shared_array.allocate_unconstructed, allocate_eq]

theorem array_allocate_constructs {E A : Type} (L : Layout) (b : Nat)
    (h : Heap (shared_array E)) (N : Nat) (has_args trivially : Bool)
    (construct : A → E × A) (args : A)
    (hc : (has_args || !trivially) = true)
    (hin : getArray L b - b + N * L.sizeof_T ≤ alloc_sz L N) :
    shared_array.allocate L b h N has_args trivially construct args
      = some ({ h with objs := h.objs
                ++ [some ⟨1, ⟨N, shared_array.construct_loop construct N args⟩⟩] },
              some h.objs.length) := by
  simp only [shared_array.allocate, hc, if_true, hin, allocate_unconstructed_eq, store]
  simp

theorem array_allocate_skips {E A : Type} (L : Layout) (b : Nat)
    (h : Heap (shared_array E)) (N : Nat) (has_args trivially : Bool)
    (construct : A → E × A) (args : A)
    (hc : (has_args || !trivially) = false) :
    shared_array.allocate L b h N has_args trivially construct args
      = some ({ h with objs := h.objs ++ [some ⟨1, ⟨N, List.replicate N none⟩⟩] },
              some h.objs.length) := by
  simp only [shared_array.allocate, hc, allocate_unconstructed_eq]
  simp

/-- C11, as stated, fails for a trivially constructible element type and an empty argument
list: `shared_array<int>::allocate(2)` constructs no element, so the read of element 0 finds
unconstructed storage and not the value `int()`, which is 0. -/
theorem C11_trivial_elements_unconstructed :
    shared_array.allocate layoutInt 4096 ({ objs := [], groups := [] } : Heap (shared_array Nat))
        2 false true (fun _ : Unit => ((0 : Nat), ())) ()
      = some ({ objs := [some ⟨1, ⟨2, [none, none]⟩⟩], groups := [] }, some 0) ∧
    shared_array.read
        ({ objs := [some ⟨1, ⟨2, [none, none]⟩⟩], groups := [] } : Heap (shared_array Nat))
        (some 0) 0 = none ∧
    (none : Option Nat) ≠ some ((fun _ : Unit => ((0 : Nat), ())) ()).1 := by
  refine ⟨rfl, rfl, ?_⟩
  simp

/-- C11, amended. Array allocation: for every element count `N` whose block size computation
does not wrap, `allocate(N, args...)` returns a non-empty owning handle to a new payload with
reference count 1 that holds exactly `N` elements.  When arguments are given or `T` is not
trivially constructible, every element is constructed, and the element read through
`handle[i]` equals `T(args...)` for every `i < N` provided that constructing an element leaves
the arguments as they were.  When no argument is given and `T` is trivially constructible, no
element is constructed. -/
theorem C11_array_allocate {E A : Type} (L : Layout) (b : Nat)
    (h : Heap (shared_array E)) (N : Nat) (has_args trivially : Bool)
    (construct : A → E × A) (args : A)
    (ha : 0 < L.alignof_T)
    (hfit : L.sizeof_header + N * L.sizeof_T
      + (if L.alignof_T ≠ L.alignof_header then L.alignof_T - 1 else 0) < 2 ^ 64) :
    ∃ h1 a c, shared_array.allocate L b h N has_args trivially construct args
        = some (h1, some a) ∧
      ptr.toBool (some a) = true ∧
      h.objs[a]? = none ∧
      h1.objs[a]? = some (some { ref_count := 1, element := c }) ∧
      c.size = N ∧ c.cells.length = N ∧
      ((has_args || !trivially) = true →
        (∀ i, i < N → ∃ v, c.cells[i]? = some (some v)) ∧
        ((construct args).2 = args →
          ∀ i, i < N → shared_array.read h1 (some a) i = some (construct args).1)) ∧
      ((has_args || !trivially) = false → ∀ i, i < N → c.cells[i]? = some none) := by
  have hin := block_large_enough L b N ha hfit
  have hnew : ∀ c : shared_array E,
      (h.objs ++ [some ({ ref_count := 1, element := c } : shared (shared_array E))])[
        h.objs.length]? = some (some { ref_count := 1, element := c }) := fun c => by simp
  cases hc : (has_args || !trivially) with
  | true =>
    refine ⟨_, h.objs.length, ⟨N, shared_array.construct_loop construct N args⟩,
      array_allocate_constructs L b h N _ _ construct args hc hin,
      rfl, by simp, hnew _, rfl, construct_loop_length construct N args, fun _ => ⟨?_, ?_⟩,
      fun hf => by cases hf⟩
    · intro i hi
      have hi2 : i < (shared_array.construct_loop construct N args).length := by
        rw [construct_loop_length]; exact hi
      obtain ⟨v, hv⟩ := construct_loop_mem construct N args _ (List.getElem_mem hi2)
      exact ⟨v, by rw [List.getElem?_eq_getElem hi2, hv]⟩
    · intro hpure i hi
      simp only [shared_array.read, ptr.get, to_element, deref, hnew,
        construct_loop_pure construct N args hpure]
      simp [hi]
  | false =>
    refine ⟨_, h.objs.length, ⟨N, List.replicate N none⟩,
      array_allocate_skips L b h N _ _ construct args hc,
      rfl, by simp, hnew _, rfl, by simp, (fun hf => by cases hf), fun _ i hi => ?_⟩
    simp [hi]

theorem C11_array_allocate_witness :
    0 < layoutInt.alignof_T ∧
    (layoutInt.sizeof_header + 2 * layoutInt.sizeof_T
      + (if layoutInt.alignof_T ≠ layoutInt.alignof_header then layoutInt.alignof_T - 1 else 0)
      < 2 ^ 64) ∧
    ∃ h1 a c, shared_array.allocate layoutInt 4096
          ({ objs := [], groups := [] } : Heap (shared_array (Nat × Nat)))
          2 true false (fun p : Nat × Nat => (p, p)) (10, 20)
        = some (h1, some a) ∧
      ptr.toBool (some a) = true ∧
      ({ objs := [], groups := [] } : Heap (shared_array (Nat × Nat))).objs[a]? = none ∧
      h1.objs[a]? = some (some { ref_count := 1, element := c }) ∧
      c.size = 2 ∧ c.cells.length = 2 ∧
      ((true || !false) = true →
        (∀ i, i < 2 → ∃ v, c.cells[i]? = some (some v)) ∧
        (((fun p : Nat × Nat => (p, p)) (10, 20)).2 = (10, 20) →
          ∀ i, i < 2 → shared_array.read h1 (some a) i
            = some ((fun p : Nat × Nat => (p, p)) (10, 20)).1)) ∧
      ((true || !false) = false → ∀ i, i < 2 → c.cells[i]? = some none) :=
  ⟨by decide, by decide,
    C11_array_allocate layoutInt 4096 { objs := [], groups := [] } 2 true false
      (fun p : Nat × Nat => (p, p)) (10, 20) (by decide) (by decide)⟩

/-- Arguments are forwarded inside the element loop of `allocate(N, args...)`: when
constructing an element consumes an argument (an rvalue that `T`'s constructor moves from), the
second element is built from the moved-from argument and differs from the first. -/
theorem allocate_forwards_in_loop :
    shared_array.allocate layoutInt 4096 ({ objs := [], groups := [] } : Heap (shared_array Nat))
        2 true false (fun a : Option Nat => (a.getD 0, none)) (some 10)
      = some ({ objs := [some ⟨1, ⟨2, [some 10, some 0]⟩⟩], groups := [] }, some 0) := by
  rfl

/-- C12. Array clone is element-wise: for every array payload `R` with `N` elements whose block
size computation does not wrap, `shared_array::allocate(const shared_array&)` returns a handle
to a new payload with reference count 1 and the same element count `N`, whose element `i`
equals element `i` of `R` for every `i < N`; every object that was on the heap before, `R`
among them, is left as it was. -/
theorem C12_array_clone {E : Type} (L : Layout) (b : Nat)
    (h : Heap (shared_array E)) (r : shared_array E)
    (hlen : r.cells.length = r.size)
    (ha : 0 < L.alignof_T)
    (hfit : L.sizeof_header + r.size * L.sizeof_T
      + (if L.alignof_T ≠ L.alignof_header then L.alignof_T - 1 else 0) < 2 ^ 64) :
    ∃ h1 q c, shared_array.allocate_clone L b h r = some (h1, some q) ∧
      h.objs[q]? = none ∧
      h1.objs[q]? = some (some { ref_count := 1, element := c }) ∧
      c.size = r.size ∧ c.cells.length = r.size ∧
      (∀ i : Nat, i < r.size → c.cells[i]? = r.cells[i]?) ∧
      (∀ (a : Nat) (o : Option (shared (shared_array E))),
        h.objs[a]? = some o → h1.objs[a]? = some o) ∧
      h1.groups = h.groups := by
  have hin := block_large_enough L b r.size ha hfit
  have hcopy : shared_array.copy_loop r.cells r.size 0 = r.cells := by
    rw [← hlen]; exact copy_loop_all r.cells
  refine ⟨{ h with objs := h.objs ++ [some ⟨1, ⟨r.size, r.cells⟩⟩] }, h.objs.length,
    ⟨r.size, r.cells⟩, ?_, by simp, by simp, rfl, hlen, fun _ _ => rfl, ?_, rfl⟩
  · simp only [shared_array.allocate_clone, hin, if_true, hcopy, allocate_eq]
  · intro a o hao
    have hlt := lt_of_getElem? hao
    simp only [List.getElem?_append_left hlt]
    exact hao

theorem C12_array_clone_witness :
    pairArray.cells.length = pairArray.size ∧
    0 < layoutInt.alignof_T ∧
    (layoutInt.sizeof_header + pairArray.size * layoutInt.sizeof_T
      + (if layoutInt.alignof_T ≠ layoutInt.alignof_header then layoutInt.alignof_T - 1 else 0)
      < 2 ^ 64) ∧
    ∃ h1 q c, shared_array.allocate_clone layoutInt 4096
          ({ objs := [some ⟨2, pairArray⟩], groups := [] } : Heap (shared_array Nat)) pairArray
        = some (h1, some q) ∧
      ({ objs := [some ⟨2, pairArray⟩], groups := [] } : Heap (shared_array Nat)).objs[q]?
        = none ∧
      h1.objs[q]? = some (some { ref_count := 1, element := c }) ∧
      c.size = pairArray.size ∧ c.cells.length = pairArray.size ∧
      (∀ i : Nat, i < pairArray.size → c.cells[i]? = pairArray.cells[i]?) ∧
      (∀ (a : Nat) (o : Option (shared (shared_array Nat))),
        ({ objs := [some ⟨2, pairArray⟩], groups := [] } : Heap (shared_array Nat)).objs[a]?
          = some o → h1.objs[a]? = some o) ∧
      h1.groups = ({ objs := [some ⟨2, pairArray⟩], groups := [] }
        : Heap (shared_array Nat)).groups :=
  ⟨rfl, by decide, by decide,
    C12_array_clone layoutInt 4096 { objs := [some ⟨2, pairArray⟩], groups := [] } pairArray
      rfl (by decide) (by decide)⟩

/-- With the block large enough and all `N` cells of the source present, the array clone is the
generic clone of the payload value: the copy that `write()` makes on a shared array handle. -/
theorem array_clone_is_allocate {E : Type} (L : Layout) (b : Nat)
    (h : Heap (shared_array E)) (r : shared_array E)
    (hlen : r.cells.length = r.size)
    (ha : 0 < L.alignof_T)
    (hfit : L.sizeof_header + r.size * L.sizeof_T
      + (if L.alignof_T ≠ L.alignof_header then L.alignof_T - 1 else 0) < 2 ^ 64) :
    shared_array.allocate_clone L b h r = some (allocate h r) := by
  have hin := block_large_enough L b r.size ha hfit
  have hcopy : shared_array.copy_loop r.cells r.size 0 = r.cells := by
    rw [← hlen]; exact copy_loop_all r.cells
  simp only [shared_array.allocate_clone, hin, if_true, hcopy]

theorem array_clone_is_allocate_witness :
    shared_array.allocate_clone layoutInt 4096
        ({ objs := [some ⟨2, pairArray⟩], groups := [] } : Heap (shared_array Nat)) pairArray
      = some (allocate { objs := [some ⟨2, pairArray⟩], groups := [] } pairArray) :=
  array_clone_is_allocate layoutInt 4096 { objs := [some ⟨2, pairArray⟩], groups := [] }
    pairArray rfl (by decide) (by decide)

/-! ## The emptiness test of a shared-view -/

/-- C21, at the shared-view made from an empty owning handle: after `ptr()` and `view()` on it
the shared-view holds a group, so its boolean conversion is `true`, while `get()` returns the
null pointer of the group's empty member handle and a read through the view finds no element.
The same view is made by `view_ptr(nullptr)`, and `view(true)` on it makes another one. -/
theorem C21_view_of_empty_handle :
    run (State.empty : State Nat) [Op.ptr_default, Op.ptr_view 0] = some emptyView ∧
    emptyView.views[0]? = some (some (some 0)) ∧
    view_ptr.toBool (some 0) = true ∧
    emptyView.view_get 0 = some none ∧
    emptyView.view_read 0 = none ∧
    view_ptr.of_pointer (State.empty : State Nat).heap none = some (emptyView.heap, some 0) ∧
    (∃ s1, step emptyView (Op.view_view 0 true) = some s1 ∧
      s1.views[1]? = some (some (some 1)) ∧
      view_ptr.toBool (some 1) = true ∧
      s1.view_get 1 = some none) :=
  ⟨rfl, rfl, rfl, rfl, rfl, rfl, _, rfl, rfl, rfl, rfl⟩

/-- The emptiness test of a shared-view in a reachable state: a non-null `get()` implies that
the boolean conversion is `true`; and when the conversion is `true` the view holds a group
alive, `get()` returns the pointer of the group's member handle, and if that handle is not
empty the pointer is non-null and the read through the view finds the payload's element.  So
the test guards the read access of every shared-view whose group refers to a payload. -/
theorem view_test_guards_get (ops : List (Op T)) (s : State T)
    (hr : run State.empty ops = some s) (V : Nat) (p : Option Nat)
    (hV : s.views[V]? = some (some p)) :
    (∀ e : Nat, s.view_get V = some (some e) → view_ptr.toBool p = true) ∧
    (view_ptr.toBool p = true →
      ∃ (g : Nat) (G : group), p = some g ∧ s.heap.groups[g]? = some (some G) ∧
        s.view_get V = some G.p ∧
        (∀ a : Nat, G.p = some a →
          ∃ x : shared T, s.heap.objs[a]? = some (some x) ∧
            s.view_get V = some (some a) ∧ s.view_read V = some x.element)) := by
  have hinv := Inv_run ops Inv_empty hr
  constructor
  · intro e he
    cases p with
    | none => simp [State.view_get, hV, view_ptr.get] at he
    | some g => rfl
  · intro hb
    cases p with
    | none => simp [view_ptr.toBool] at hb
    | some g =>
      obtain ⟨G, hG, _⟩ := live_of_rcGrp_pos (hinv.view_live hV g rfl)
      refine ⟨g, G, rfl, hG, view_get_eq s V g G hV hG, fun a ha => ?_⟩
      obtain ⟨x, hx, _⟩ := live_of_rcObj_pos (hinv.grp_live g G a hG ha)
      exact ⟨x, hx, by rw [view_get_eq s V g G hV hG, ha],
        view_read_eq s V g a G x hV hG ha hx⟩

theorem view_test_guards_get_witness :
    run State.empty [Op.allocate 7, Op.ptr_view 0, Op.ptr_destroy 0] = some viewOnly ∧
    viewOnly.views[0]? = some (some (some 0)) ∧
    (∀ e : Nat, viewOnly.view_get 0 = some (some e) → view_ptr.toBool (some 0) = true) ∧
    (view_ptr.toBool (some 0) = true →
      ∃ (g : Nat) (G : group), some 0 = some g ∧ viewOnly.heap.groups[g]? = some (some G) ∧
        viewOnly.view_get 0 = some G.p ∧
        (∀ a : Nat, G.p = some a →
          ∃ x : shared Nat, viewOnly.heap.objs[a]? = some (some x) ∧
            viewOnly.view_get 0 = some (some a) ∧ viewOnly.view_read 0 = some x.element)) :=
  ⟨rfl, rfl,
    view_test_guards_get ([Op.allocate 7, Op.ptr_view 0, Op.ptr_destroy 0] : List (Op Nat))
      viewOnly rfl 0 (some 0) rfl⟩

/-- A shared-view made by `view()` on a non-empty owning handle `P` in a reachable state
converts to `true` and its `get()` is the non-null pointer that `P.get()` returns. -/
theorem view_of_owner_is_guarded (ops : List (Op T)) (s : State T)
    (hr : run State.empty ops = some s) (P a : Nat)
    (hP : s.ptrs[P]? = some (some (some a))) :
    ∃ s1, step s (Op.ptr_view P) = some s1 ∧
      s1.views[s.views.length]? = some (some (some s.heap.groups.length)) ∧
      view_ptr.toBool (some s.heap.groups.length) = true ∧
      s1.view_get s.views.length = some (some a) ∧
      s1.ptr_get P = some (some a) := by
  have hinv := Inv_run ops Inv_empty hr
  obtain ⟨x, hx, _⟩ := live_of_rcObj_pos (hinv.ptr_live hP a rfl)
  refine ⟨_, step_ptr_view s P a x hP hx, by simp, rfl, ?_, ?_⟩
  · exact view_get_eq _ s.views.length s.heap.groups.length ⟨1, some a⟩ (by simp) (by simp)
  · exact ptr_get_eq _ P (some a) hP

theorem view_of_owner_is_guarded_witness :
    run State.empty [Op.allocate 7, Op.allocate 8] = some twoOwners ∧
    ∃ s1, step twoOwners (Op.ptr_view 1) = some s1 ∧
      s1.views[twoOwners.views.length]? = some (some (some twoOwners.heap.groups.length)) ∧
      view_ptr.toBool (some twoOwners.heap.groups.length) = true ∧
      s1.view_get twoOwners.views.length = some (some 1) ∧
      s1.ptr_get 1 = some (some 1) :=
  ⟨rfl, view_of_owner_is_guarded ([Op.allocate 7, Op.allocate 8] : List (Op Nat))
    twoOwners rfl 1 1 rfl⟩

/-! ## A clone that throws leaks its block -/

/-- C15, at an array payload whose clone throws.  After `allocate` of a two-element array and
a copy of the handle, `write()` on the first handle attempts the clone; the copy constructor of
element 1 throws and the exception leaves `write()`.  The block of the unfinished clone is then
alive although no owning handle and no group refers to it, and after both owning handles have
been destroyed, with no shared-view ever made, the block is still alive: one payload object
remains. -/
theorem C15_failed_clone_leaks :
    run State.empty [Op.allocate pairArray, Op.ptr_copy 0] = some (crowd 2 2 pairArray [] []) ∧
    (crowd 2 2 pairArray [] []).ptr_write_throws 0 (some 1) = some leakState ∧
    leakState.ptrs = (crowd 2 2 pairArray [] []).ptrs ∧
    leakState.heap.objs[1]? = some (some ⟨0, ⟨2, [some 10, none]⟩⟩) ∧
    leakState.owners 1 = 0 ∧
    ¬ ((∃ x, leakState.heap.objs[1]? = some (some x)) ↔ 0 < leakState.owners 1) ∧
    run leakState [Op.ptr_destroy 0, Op.ptr_destroy 1] = some leakedState ∧
    (∀ i a : Nat, leakedState.ptrs[i]? ≠ some (some (some a))) ∧
    (∀ i g : Nat, leakedState.views[i]? ≠ some (some (some g))) ∧
    leakedState.heap.live = 1 ∧
    leakedState.heap.live ≠ 0 := by
  refine ⟨rfl, rfl, rfl, rfl, rfl, ?_, rfl, ?_, ?_, rfl, by decide⟩
  · intro h
    have h1 : 0 < leakState.owners 1 := h.1 ⟨_, rfl⟩
    have h2 : leakState.owners 1 = 0 := rfl
    omega
  · intro i a
    match i with
    | 0 => simp [leakedState]
    | 1 => simp [leakedState]
    | i + 2 => simp [leakedState]
  · intro i g
    simp [leakedState]

/-- Every throwing element copy leaks: when the copy constructor of element `k` throws in the
array clone, the heap that the exception leaves behind has one more object alive than before,
the block of the unfinished clone, whose counter is zero; no group changes. -/
theorem clone_throw_leaks {E : Type} (h : Heap (shared_array E)) (r : shared_array E)
    (k : Nat) :
    ∃ h1 c, shared_array.allocate_clone_try h r (some k) = Except.error h1 ∧
      h1.objs[h.objs.length]? = some (some ⟨0, c⟩) ∧
      h.objs[h.objs.length]? = none ∧
      h1.live = h.live + 1 ∧
      h1.groups = h.groups := by
  refine ⟨_, ⟨r.size, shared_array.copy_loop r.cells k 0 ++ List.replicate (r.size - k) none⟩,
    rfl, ?_, by simp, ?_, rfl⟩
  · simp [new_BASE]
  · simp [new_BASE, Heap.live, List.countP_append]

end Shared
